import Mathlib

/-!
# afv-native: the ATC radio stack (`src/src/afv/ATCRadioStack.cpp`)

A shallow embedding of `ATCRadioStack`: the per-frequency radio-state map, the
per-callsign inbound stream table, the output mixer, the maintenance sweep, the
PTT-gated transmit path with ATIS record and playback, the DTO assembly and the
lock events of the member functions.

Conventions of the embedding

* `std::map<unsigned int, ATCRadioState>` is a key-sorted association list. The
  functions are total on every list; theorems that need the container invariant
  (strictly increasing keys) take it as the hypothesis `keysSorted`.
* `mRadioState[k]` (`operator[]`) inserts a default-constructed `ATCRadioState`
  when `k` is absent, for reads as well as for writes. The class declaration
  (`ATCRadioStack.h`) is not part of the sources at hand, so the
  default-constructed value is the field `defaultRadio` of the environment.
* Samples and gains are `float` in the source. The sample type `S` is a
  parameter and every floating-point primitive the code applies is a field of
  the environment `Env`, so no theorem depends on floating-point arithmetic.
* Collaborators whose code is elsewhere (`RemoteVoiceSource`, the effect
  sources, `VHFFilterSource`) are parameters of `Env` as well.
-/

namespace AfvNative

/-! ## Ordered map (`std::map<unsigned int, T>`) -/

/-- The element stored under key `k`, if any (`std::map::find`). -/
def mapFind {α : Type} : List (Nat × α) → Nat → Option α
  | [], _ => none
  | (k', v) :: t, k => if k' = k then some v else mapFind t k

/-- Number of elements with key `k` (`std::map::count`), 0 or 1. -/
def mapCount {α : Type} (m : List (Nat × α)) (k : Nat) : Nat :=
  if (mapFind m k).isSome then 1 else 0

/-- Insert-or-assign at the sorted position of `k`. -/
def mapPut {α : Type} : List (Nat × α) → Nat → α → List (Nat × α)
  | [], k, v => [(k, v)]
  | (k', v') :: t, k, v =>
    if k < k' then (k, v) :: (k', v') :: t
    else if k = k' then (k, v) :: t
    else (k', v') :: mapPut t k v

/-- Remove key `k` (`std::map::erase(key)`). -/
def mapErase {α : Type} (m : List (Nat × α)) (k : Nat) : List (Nat × α) :=
  m.filter (fun p => p.1 != k)

/-- The value `m[k]` refers to: the stored element, or a default-constructed one. -/
def mapAt {α : Type} (d : α) (m : List (Nat × α)) (k : Nat) : α :=
  (mapFind m k).getD d

/-- The container after evaluating `m[k]` for a read: `k` is inserted with a
default-constructed value when absent. -/
def mapTouch {α : Type} (d : α) (m : List (Nat × α)) (k : Nat) : List (Nat × α) :=
  match mapFind m k with
  | some _ => m
  | none => mapPut m k d

/-- The container after `m[k].field = ...`: `g` is applied to the element `m[k]`
refers to (default-constructed first when `k` is absent). -/
def mapModify {α : Type} (d : α) (m : List (Nat × α)) (k : Nat) (g : α → α) :
    List (Nat × α) :=
  mapPut m k (g (mapAt d m k))

/-- The `std::map` invariant: keys strictly increasing (hence unique). -/
def keysSorted {α : Type} (m : List (Nat × α)) : Prop :=
  (m.map Prod.fst).Pairwise (· < ·)

instance {α : Type} (m : List (Nat × α)) : Decidable (keysSorted m) := by
  unfold keysSorted; infer_instance

/-! ## Data model -/

/-- Hardware models (`hardwareType.h`). -/
inductive HardwareType where
  | Schmid_ED_137B
  | Rockwell_Collins_2100
  | Garex_220
  | No_Hardware
  deriving DecidableEq, Repr

/-- Events posted through `ClientEventCallback` by the radio stack and by the
client. -/
inductive ClientEventType where
  | RxOpen
  | RxClosed
  | PttOpen
  | PttClosed
  deriving DecidableEq, Repr

/-- A `dto::Transceiver` of a radio: the assigned ID, the frequency and the
position (four `double`s that the stack only stores and copies). -/
structure Transceiver (S : Type) where
  ID : Nat
  Frequency : Nat
  LatDeg : S
  LonDeg : S
  HeightMslM : S
  HeightAglM : S

/-- A `dto::RxTransceiver` of an inbound packet. -/
structure RxTransceiver (S : Type) where
  ID : Nat
  Frequency : Nat
  DistanceRatio : S

/-- An inbound `AR` datagram (`dto::AudioRxOnTransceivers`). -/
structure AudioRxOnTransceivers (S : Type) where
  Callsign : String
  SequenceCounter : Nat
  Audio : List Nat
  LastPacket : Bool
  Transceivers : List (RxTransceiver S)

/-- An `audio::ISampleSource` used as an effect (click, crackle, noise, tone).
Its behaviour is a function of the number of frames pulled so far: `gen n` is
the frame delivered by pull number `n`, or `none` when the source does not
report `SourceStatus::OK`. -/
structure SampleSource (S : Type) where
  pulled : Nat
  gen : Nat → Option (List S)

/-- The `VHFFilterSource` of a radio: the hardware model it was built for and the
frames it has transformed so far (the filter is stateful). -/
structure VHFFilter (S : Type) where
  hardware : HardwareType
  history : List (List S)

/-- The per-frequency state `ATCRadioState`, with the fields the stack uses. -/
structure ATCRadioState (S : Type) where
  Frequency : Nat
  Gain : S
  Click : Option (SampleSource S)
  Crackle : Option (SampleSource S)
  WhiteNoise : Option (SampleSource S)
  BlockTone : Option (SampleSource S)
  vhfFilter : Option (VHFFilter S)
  mLastRxCount : Int
  mBypassEffects : Bool
  onHeadset : Bool
  tx : Bool
  rx : Bool
  xc : Bool
  isAtis : Bool
  stationName : List Char
  transceivers : List (Transceiver S)
  lastTransmitCallsign : String

/-- The radio-state map `mRadioState`. -/
abbrev RadioMap (S : Type) := List (Nat × ATCRadioState S)

/-- A `CallsignMeta`: the voice source of a callsign and the transceivers of its
latest packet. The source pointer is allocated by the constructor and never
reset in this file, so it is modelled as always present. -/
structure CallsignMeta (S Src : Type) where
  source : Src
  transceivers : List (RxTransceiver S)

/-- The buffers of `OutputDeviceState`. -/
structure OutputDeviceState (S : Type) where
  mChannelBuffer : List S
  mMixingBuffer : List S
  mFetchBuffer : List S
  mLeftMixingBuffer : List S
  mRightMixingBuffer : List S

/-- Everything the stack takes from outside this file: the floating-point
primitives, the constants of the `audio` namespace, the default-constructed
radio state, the effect resources and the `RemoteVoiceSource` interface. -/
structure Env (S Src : Type) where
  /-- The `float` value 0.0f. -/
  zero : S
  /-- The `float` value 1.0f. -/
  one : S
  add : S → S → S
  sub : S → S → S
  mul : S → S → S
  /-- Comparison `a < b` of two floats. -/
  lt : S → S → Bool
  fxClickGain : S
  fxBlockToneGain : S
  fxWhiteNoiseGain : S
  /-- The clamped crackle factor of a distance ratio:
  `fmin(0.20, fmax(0, exp(dr) * pow(dr, -4) / 350 - 0.00776652))`. -/
  crackleFactor : S → S
  /-- The constant 2 of `crackleGain = crackleFactor * 2`. -/
  two : S
  /-- The constant 3.7 of `voiceGain = 1.0 - crackleFactor * 3.7`. -/
  c3_7 : S
  /-- The constant `audio::frameSizeSamples`. -/
  frameSizeSamples : Nat
  /-- The constant `audio::compressedSourceCacheTimeoutMs`. -/
  compressedSourceCacheTimeoutMs : Nat
  /-- A default-constructed `ATCRadioState`, as inserted by `mRadioState[k]`. -/
  defaultRadio : ATCRadioState S
  /-- A fresh `RecordedSampleSource(mResources->mClick, false)`. -/
  newClick : SampleSource S
  /-- A fresh `RecordedSampleSource(mResources->mCrackle, true)`. -/
  newCrackle : SampleSource S
  /-- A fresh `PinkNoiseGenerator`. -/
  newPinkNoise : SampleSource S
  /-- A fresh `SineToneSource(fxBlockToneFreq)`. -/
  newBlockTone : SampleSource S
  /-- The frame `VHFFilterSource::transformFrame` produces, from the hardware
  model, the frames transformed before and the input frame. -/
  transformFrame : HardwareType → List (List S) → List S → List S
  /-- The `RemoteVoiceSource` a default-constructed `CallsignMeta` holds. -/
  newVoiceSource : Src
  /-- The source after `appendAudioDTO(pkt)` at monotonic time `now`. -/
  appendAudioDTO : Nat → Src → AudioRxOnTransceivers S → Src
  isActive : Src → Bool
  /-- The result of `RemoteVoiceSource::getAudioFrame`: the decoded frame when the
  status is OK, and the source afterwards. -/
  voiceFrame : Src → Option (List S) × Src
  getLastActivityTime : Src → Nat

/-- An outbound voice datagram (`dto::AudioTxOnTransceivers`). `Transceivers`
holds the IDs of the `TxTransceiver` elements. -/
structure AudioTxOnTransceivers where
  SequenceCounter : Nat
  Callsign : String
  Audio : List Nat
  LastPacket : Bool
  Transceivers : List Nat
  deriving DecidableEq, Repr

/-- A cross-couple group (`dto::CrossCoupleGroup`). -/
structure CrossCoupleGroup where
  ID : Nat
  TransceiverIDs : List Nat
  deriving DecidableEq, Repr

/-- The state of an `ATCRadioStack`. `events` is the log of the
`ClientEventCallback->invokeAll` calls, oldest first. On the transmit side,
`channelOpen` is the value of `mChannel != nullptr && mChannel->isOpen()`,
`sent` is the log of the `mChannel->sendDto` calls and `compressorInput` the log
of the PCM frames handed to the voice filter or compressor, both oldest first. -/
structure ATCRadioStack (S Src : Type) where
  mRadioState : RadioMap S
  mIncomingStreams : List (String × CallsignMeta S Src)
  mPtt : Bool
  mRT : Bool
  IncomingAudioStreams : Nat
  mHeadsetState : OutputDeviceState S
  mSpeakerState : OutputDeviceState S
  events : List (ClientEventType × Nat)
  mLastFramePtt : Bool
  mTxSequence : Nat
  mAtisRecord : Bool
  mAtisPlayback : Bool
  mStoredAtisData : List (List Nat)
  cacheNum : Nat
  mCallsign : String
  mAtisCallsign : String
  channelOpen : Bool
  sent : List AudioTxOnTransceivers
  compressorInput : List (List S)
  mClientLatitude : S
  mClientLongitude : S
  mClientAltitudeMSLM : S
  mClientAltitudeGLM : S

/-! ## Radio-state map operations -/

section RadioMapOps
variable {S Src : Type}

/-- Source `ATCRadioStack::isFrequencyActive`. -/
def isFrequencyActive (m : RadioMap S) (freq : Nat) : Bool :=
  mapCount m freq != 0

/-- Source `ATCRadioStack::getRxState`. -/
def getRxState (m : RadioMap S) (freq : Nat) : Bool :=
  match mapFind m freq with
  | some r => r.rx
  | none => false

/-- Source `ATCRadioStack::getTxState`. -/
def getTxState (m : RadioMap S) (freq : Nat) : Bool :=
  match mapFind m freq with
  | some r => r.tx
  | none => false

/-- Source `ATCRadioStack::getXcState`. -/
def getXcState (m : RadioMap S) (freq : Nat) : Bool :=
  match mapFind m freq with
  | some r => r.xc
  | none => false

/-- Whether one of the flags that keep a radio in the map holds. -/
def anyFlag (r : ATCRadioState S) : Bool :=
  r.rx || r.tx || r.xc || r.isAtis

/-- Source `ATCRadioStack::remove_unused_frequency`: the four reads go through
`mRadioState[freq]`, then the key is erased when all four flags are false. -/
def remove_unused_frequency (d : ATCRadioState S) (m : RadioMap S) (freq : Nat) :
    RadioMap S :=
  let m1 := mapTouch d m freq
  let r := mapAt d m1 freq
  if !r.xc && !r.rx && !r.tx && !r.isAtis then mapErase m1 freq else m1

/-- Source `ATCRadioStack::setTx`. -/
def setTx (d : ATCRadioState S) (m : RadioMap S) (freq : Nat) (tx : Bool) : RadioMap S :=
  remove_unused_frequency d (mapModify d m freq (fun r => { r with tx := tx })) freq

/-- Source `ATCRadioStack::setRx`. -/
def setRx (d : ATCRadioState S) (m : RadioMap S) (freq : Nat) (rx : Bool) : RadioMap S :=
  remove_unused_frequency d (mapModify d m freq (fun r => { r with rx := rx })) freq

/-- Source `ATCRadioStack::setXc`. -/
def setXc (d : ATCRadioState S) (m : RadioMap S) (freq : Nat) (xc : Bool) : RadioMap S :=
  remove_unused_frequency d (mapModify d m freq (fun r => { r with xc := xc })) freq

/-- The test `stationName.find("_ATIS") != std::string::npos`. -/
def containsAtis (stationName : List Char) : Bool :=
  decide ("_ATIS".toList <:+: stationName)

/-- Source `ATCRadioStack::addFrequency`, as one update of the element
`mRadioState[freq]` refers to. -/
def addFrequencyRadio (r : ATCRadioState S) (freq : Nat) (onHeadset : Bool)
    (stationName : List Char) (hardware : HardwareType) : ATCRadioState S :=
  let r1 : ATCRadioState S :=
    { r with
      Frequency := freq
      onHeadset := onHeadset
      tx := false
      rx := true
      xc := false
      stationName := stationName
      mBypassEffects := false
      vhfFilter := some { hardware := hardware, history := [] } }
  if containsAtis stationName then
    { r1 with isAtis := true, rx := false, tx := false, xc := false }
  else r1

/-- Source `ATCRadioStack::addFrequency` on the map. -/
def addFrequencyMap (d : ATCRadioState S) (m : RadioMap S) (freq : Nat) (onHeadset : Bool)
    (stationName : List Char) (hardware : HardwareType) : RadioMap S :=
  mapModify d m freq (fun r => addFrequencyRadio r freq onHeadset stationName hardware)

/-- Source `ATCRadioStack::addFrequency`. -/
def addFrequency (E : Env S Src) (s : ATCRadioStack S Src) (freq : Nat) (onHeadset : Bool)
    (stationName : List Char) (hardware : HardwareType) : ATCRadioStack S Src :=
  { s with mRadioState :=
      addFrequencyMap E.defaultRadio s.mRadioState freq onHeadset stationName hardware }

/-- Source `ATCRadioStack::removeFrequency`. -/
def removeFrequency (s : ATCRadioStack S Src) (freq : Nat) : ATCRadioStack S Src :=
  { s with mRadioState := mapErase s.mRadioState freq }

end RadioMapOps

/-! ## Inbound-stream table -/

section Streams
variable {S Src : Type}

/-- The element stored under a callsign, if any (`std::unordered_map::find`). The
table is an association list with unique keys; its iteration order is the list
order. -/
def streamFind {β : Type} : List (String × β) → String → Option β
  | [], _ => none
  | (c, v) :: t, cs => if c = cs then some v else streamFind t cs

/-- Insert-or-assign under a callsign. -/
def streamPut {β : Type} : List (String × β) → String → β → List (String × β)
  | [], cs, v => [(cs, v)]
  | (c, v') :: t, cs, v => if c = cs then (cs, v) :: t else (c, v') :: streamPut t cs v

/-- Remove a callsign (`erase(key)`). -/
def streamErase {β : Type} (t : List (String × β)) (cs : String) : List (String × β) :=
  t.filter (fun p => p.1 != cs)

/-- The table invariant: callsigns are unique. -/
def keysUnique {β : Type} (t : List (String × β)) : Prop :=
  (t.map Prod.fst).Nodup

instance {β : Type} (t : List (String × β)) : Decidable (keysUnique t) := by
  unfold keysUnique; infer_instance

/-- A default-constructed `CallsignMeta`: a fresh voice source and no transceivers. -/
def newCallsignMeta (E : Env S Src) : CallsignMeta S Src :=
  { source := E.newVoiceSource, transceivers := [] }

/-- Source `ATCRadioStack::_packetListening`: scans the packet's transceivers in
order; each read `mRadioState[trans.Frequency].rx` goes through `operator[]`.
Returns the radio map afterwards and the result. -/
def _packetListening (d : ATCRadioState S) (callsign : String) :
    RadioMap S → List (RxTransceiver S) → RadioMap S × Bool
  | m, [] => (m, false)
  | m, tr :: rest =>
    let m1 := mapTouch d m tr.Frequency
    if (mapAt d m1 tr.Frequency).rx then
      (mapModify d m1 tr.Frequency (fun r => { r with lastTransmitCallsign := callsign }),
        true)
    else _packetListening d callsign m1 rest

/-- Source `ATCRadioStack::rxVoicePacket`, at monotonic time `now`. -/
def rxVoicePacket (E : Env S Src) (now : Nat) (s : ATCRadioStack S Src)
    (pkt : AudioRxOnTransceivers S) : ATCRadioStack S Src :=
  let res := _packetListening E.defaultRadio pkt.Callsign s.mRadioState pkt.Transceivers
  let s1 := { s with mRadioState := res.1 }
  if res.2 then
    let entry := (streamFind s1.mIncomingStreams pkt.Callsign).getD (newCallsignMeta E)
    let entry1 : CallsignMeta S Src :=
      { source := E.appendAudioDTO now entry.source pkt, transceivers := entry.transceivers }
    let entry2 : CallsignMeta S Src :=
      { source := entry1.source, transceivers := pkt.Transceivers }
    { s1 with mIncomingStreams := streamPut s1.mIncomingStreams pkt.Callsign entry2 }
  else s1

/-- Source `ATCRadioStack::lastTransmitOnFreq`: the read goes through `operator[]`.
Returns the callsign and the radio map afterwards. -/
def lastTransmitOnFreq (d : ATCRadioState S) (m : RadioMap S) (freq : Nat) :
    String × RadioMap S :=
  ((mapAt d m freq).lastTransmitCallsign, mapTouch d m freq)

/-- The difference `now - lastActivityTime` of two `util::monotime_t` values
(unsigned 64-bit, so the subtraction wraps). -/
def idleTime (now last : Nat) : Nat :=
  (now % 2 ^ 64 + 2 ^ 64 - last % 2 ^ 64) % 2 ^ 64

/-- The callsigns `maintainIncomingStreams` collects in `callsignsToPurge`. -/
def callsignsToPurge (E : Env S Src) (now : Nat)
    (t : List (String × CallsignMeta S Src)) : List String :=
  (t.filter (fun p =>
    decide (idleTime now (E.getLastActivityTime p.2.source) >
      E.compressedSourceCacheTimeoutMs))).map Prod.fst

/-- Source `ATCRadioStack::maintainIncomingStreams`, at monotonic time `now`. -/
def maintainIncomingStreams (E : Env S Src) (now : Nat) (s : ATCRadioStack S Src) :
    ATCRadioStack S Src :=
  { s with mIncomingStreams :=
      (callsignsToPurge E now s.mIncomingStreams).foldl streamErase s.mIncomingStreams }

end Streams

/-! ## Output mixer -/

section Mixer
variable {S Src : Type}

/-- Source `ATCRadioStack::mix_buffers`: `src_dst[i] += src2_gain * src2[i]` over
the frame. -/
def mix_buffers (E : Env S Src) : List S → List S → S → List S
  | [], _, _ => []
  | x :: xs, [], _ => x :: xs
  | x :: xs, y :: ys, g => E.add x (E.mul g y) :: mix_buffers E xs ys g

/-- Source `ATCRadioStack::mix_effect`. Returns the result, the effect after the
pull and the device buffers. -/
def mix_effect (E : Env S Src) (effect : Option (SampleSource S)) (gain : S)
    (state : OutputDeviceState S) : Bool × Option (SampleSource S) × OutputDeviceState S :=
  match effect with
  | none => (true, none, state)
  | some e =>
    if E.lt E.zero gain then
      match e.gen e.pulled with
      | some frame =>
        (true, some { e with pulled := e.pulled + 1 },
          { state with
            mFetchBuffer := frame
            mChannelBuffer := mix_buffers E state.mChannelBuffer frame gain })
      | none => (false, some { e with pulled := e.pulled + 1 }, state)
    else (true, some e, state)

/-- Source `ATCRadioStack::resetRadioFx`, on the element `mRadioState[freq]`
refers to. -/
def resetRadioFxRadio (r : ATCRadioState S) (except_click : Bool) : ATCRadioState S :=
  let r1 := if !except_click then { r with Click := none, mLastRxCount := 0 } else r
  { r1 with BlockTone := none, Crackle := none }

/-- Source `ATCRadioStack::resetRadioFx`. -/
def resetRadioFx (d : ATCRadioState S) (m : RadioMap S) (freq : Nat)
    (except_click : Bool) : RadioMap S :=
  mapModify d m freq (fun r => resetRadioFxRadio r except_click)

/-- Source `ATCRadioStack::set_radio_effects`. Returns the radio and the white
noise gain written through the reference parameter. -/
def set_radio_effects (E : Env S Src) (r : ATCRadioState S) (crackleGain : S) :
    ATCRadioState S × S :=
  let whiteNoiseGain := E.fxWhiteNoiseGain
  let r1 :=
    if E.lt E.zero whiteNoiseGain then
      (if r.WhiteNoise.isNone then { r with WhiteNoise := some E.newPinkNoise } else r)
    else r
  let r2 :=
    if E.lt E.zero crackleGain then
      (if r1.Crackle.isNone then { r1 with Crackle := some E.newCrackle } else r1)
    else r1
  (r2, whiteNoiseGain)

/-- The first largest element by `DistanceRatio` (`std::max_element` with the
comparator `a.DistanceRatio < b.DistanceRatio`). -/
def max_element (E : Env S Src) (first : RxTransceiver S) (rest : List (RxTransceiver S)) :
    RxTransceiver S :=
  rest.foldl (fun largest x =>
    if E.lt largest.DistanceRatio x.DistanceRatio then x else largest) first

/-- The value of a `uint32_t` counter stored into the `int` field `mLastRxCount`. -/
def toInt32 (n : Nat) : Int :=
  if n % 2 ^ 32 < 2 ^ 31 then ((n % 2 ^ 32 : Nat) : Int) else ((n % 2 ^ 32 : Nat) : Int) - 2 ^ 32

/-- Whether the stream loop of `_process_radio` mixes a stream entry into the
radio `r`: the source is active, has a cached frame this period, and one of the
stored transceivers is on the radio's frequency. -/
def usesStream (E : Env S Src) (cache : List (String × List S)) (r : ATCRadioState S)
    (srcPair : String × CallsignMeta S Src) : Bool :=
  E.isActive srcPair.2.source && (streamFind cache srcPair.1).isSome &&
    srcPair.2.transceivers.any (fun k => k.Frequency == r.Frequency)

/-- One iteration of the stream loop of `_process_radio` (lines 131-173), on the
accumulator `(mChannelBuffer, crackleGain, concurrentStreams)`. -/
def mixStream (E : Env S Src) (cache : List (String × List S)) (r : ATCRadioState S)
    (acc : List S × S × Nat) (srcPair : String × CallsignMeta S Src) : List S × S × Nat :=
  if !E.isActive srcPair.2.source then acc
  else
    match streamFind cache srcPair.1 with
    | none => acc
    | some frame =>
      match srcPair.2.transceivers.filter (fun k => k.Frequency == r.Frequency) with
      | [] => acc
      | t0 :: rest =>
        let closestTransceiver := max_element E t0 rest
        let crackleFactor := E.crackleFactor closestTransceiver.DistanceRatio
        let crackleGain := if !r.mBypassEffects then E.mul crackleFactor E.two else acc.2.1
        let voiceGain :=
          if !r.mBypassEffects then E.sub E.one (E.mul crackleFactor E.c3_7) else E.one
        (mix_buffers E acc.1 frame (E.mul voiceGain r.Gain), crackleGain,
          (acc.2.2 + 1) % 2 ^ 32)

/-- The effects part of `_process_radio` when `concurrentStreams > 0` and the
effects are not bypassed (lines 181-196). The call
`mRadioState[rxIter].vhfFilter->transformFrame` dereferences the filter pointer,
which only `addFrequency` assigns: for a radio without a filter the call is
undefined and there is no result. -/
def applyEffects (E : Env S Src) (r : ATCRadioState S) (crackleGain : S)
    (state : OutputDeviceState S) : Option (ATCRadioState S × OutputDeviceState S) :=
  match r.vhfFilter with
  | none => none
  | some f =>
    let r0 :=
      { r with vhfFilter := some { f with history := f.history ++ [state.mChannelBuffer] } }
    let state0 :=
      { state with
        mChannelBuffer := E.transformFrame f.hardware f.history state.mChannelBuffer }
    let fx := set_radio_effects E r0 crackleGain
    let r1 := fx.1
    let c := mix_effect E r1.Crackle (E.mul crackleGain r1.Gain) state0
    let r2 := { r1 with Crackle := if c.1 then c.2.1 else none }
    let w := mix_effect E r2.WhiteNoise (E.mul fx.2 r2.Gain) c.2.2
    some ({ r2 with WhiteNoise := if w.1 then w.2.1 else none }, w.2.2)

/-- The block-tone part of `_process_radio` when `concurrentStreams > 0`
(lines 197-209). -/
def applyBlockTone (E : Env S Src) (r : ATCRadioState S) (concurrentStreams : Nat)
    (state : OutputDeviceState S) : ATCRadioState S × OutputDeviceState S :=
  if concurrentStreams > 1 then
    let r1 := if r.BlockTone.isNone then { r with BlockTone := some E.newBlockTone } else r
    let b := mix_effect E r1.BlockTone (E.mul E.fxBlockToneGain r1.Gain) state
    ({ r1 with BlockTone := if b.1 then b.2.1 else none }, b.2.2)
  else ({ r with BlockTone := none }, state)

/-- The end of `_process_radio` (lines 217-227): `mLastRxCount` is stored, the
pending click is mixed and the channel buffer is mixed into the mixing buffer. -/
def finishRadio (E : Env S Src) (r : ATCRadioState S) (concurrentStreams : Nat)
    (state : OutputDeviceState S) : ATCRadioState S × OutputDeviceState S :=
  let r2 := { r with mLastRxCount := toInt32 concurrentStreams }
  let k := mix_effect E r2.Click (E.mul E.fxClickGain r2.Gain) state
  ({ r2 with Click := if k.1 then k.2.1 else none },
    { k.2.2 with mMixingBuffer := mix_buffers E k.2.2.mMixingBuffer k.2.2.mChannelBuffer E.one })

/-- The receive part of `_process_radio` (lines 128-227) on the radio `r` stored
under `rxIter`, after the channel buffer has been zeroed: the stream loop, the
open/close events, the effects, the click and the final mix into the mixing
buffer. Returns the events posted and, unless the effects dereference a missing
filter (after `RxOpen` has been posted), the radio and the device buffers. -/
def receiveRadio (E : Env S Src) (cache : List (String × List S))
    (streams : List (String × CallsignMeta S Src)) (rxIter : Nat) (r : ATCRadioState S)
    (state : OutputDeviceState S) :
    List (ClientEventType × Nat) × Option (ATCRadioState S × OutputDeviceState S) :=
  let acc := streams.foldl (mixStream E cache r) (state.mChannelBuffer, E.zero, 0)
  let state1 := { state with mChannelBuffer := acc.1 }
  let crackleGain := acc.2.1
  let concurrentStreams := acc.2.2
  if concurrentStreams > 0 then
    let ev := if r.mLastRxCount = 0 then [(ClientEventType.RxOpen, rxIter)] else []
    let fx :=
      if !r.mBypassEffects then applyEffects E r crackleGain state1 else some (r, state1)
    (ev,
      fx.map (fun fx =>
        finishRadio E (applyBlockTone E fx.1 concurrentStreams fx.2).1 concurrentStreams
          (applyBlockTone E fx.1 concurrentStreams fx.2).2))
  else
    let r1 := resetRadioFxRadio r true
    if r1.mLastRxCount > 0 then
      ([(ClientEventType.RxClosed, rxIter)],
        some (finishRadio E { r1 with Click := some E.newClick } concurrentStreams state1))
    else ([], some (finishRadio E r1 concurrentStreams state1))

/-- Source `ATCRadioStack::_process_radio`. Returns the result, the stack and the
device buffers; when the effects dereference a missing filter the behaviour is
undefined from there on and the outcome is the stack at that point (the events
posted so far, the radio map as it was). -/
def _process_radio (E : Env S Src) (cache : List (String × List S)) (rxIter : Nat)
    (s : ATCRadioStack S Src) (state : OutputDeviceState S) :
    Except (ATCRadioStack S Src) (Bool × ATCRadioStack S Src × OutputDeviceState S) :=
  if !isFrequencyActive s.mRadioState rxIter then
    .ok (false,
      { s with mRadioState := resetRadioFx E.defaultRadio s.mRadioState rxIter false }, state)
  else
    let state1 :=
      { state with mChannelBuffer := List.replicate E.frameSizeSamples E.zero }
    let r := mapAt E.defaultRadio s.mRadioState rxIter
    if s.mPtt && r.tx then
      .ok (true,
        { s with mRadioState := resetRadioFx E.defaultRadio s.mRadioState rxIter false },
        state1)
    else
      let res := receiveRadio E cache s.mIncomingStreams rxIter r state1
      match res.2 with
      | some out =>
        .ok (false,
          { s with
            mRadioState := mapPut s.mRadioState rxIter out.1
            events := s.events ++ res.1 },
          out.2)
      | none => .error { s with events := s.events ++ res.1 }

/-- The routing rule of `getAudioFrame` (lines 249-253 and 275-279): whether a
radio with the given `onHeadset` flag is handled by the call for the device role
`onHeadset`. -/
def routedTo (onHeadset radioOnHeadset mRT : Bool) : Bool :=
  let isMatch := radioOnHeadset == onHeadset
  let positiveRTOverride := !onHeadset && radioOnHeadset && mRT
  let negativeRTOverride := onHeadset && radioOnHeadset && mRT
  positiveRTOverride || (isMatch && !negativeRTOverride)

/-- One iteration of the source prefetch loop of `getAudioFrame` (lines 241-265),
on the accumulator `(entries already visited, sampleCache, allStreams)`. An
entry with no transceivers (where `front()` is undefined) is skipped. -/
def prefetchStep (E : Env S Src) (m : RadioMap S) (mRT onHeadset : Bool)
    (acc : List (String × CallsignMeta S Src) × List (String × List S) × Nat)
    (src : String × CallsignMeta S Src) :
    List (String × CallsignMeta S Src) × List (String × List S) × Nat :=
  let skip := (acc.1 ++ [src], acc.2.1, acc.2.2)
  match src.2.transceivers.head? with
  | none => skip
  | some front =>
    let freq := front.Frequency
    if freq = 0 then skip
    else if !isFrequencyActive m freq then skip
    else if routedTo onHeadset (mapAt E.defaultRadio m freq).onHeadset mRT then
      if E.isActive src.2.source && (streamFind acc.2.1 src.1).isNone then
        let rv := E.voiceFrame src.2.source
        let src1 := (src.1, { src.2 with source := rv.2 })
        match rv.1 with
        | some frame => (acc.1 ++ [src1], streamPut acc.2.1 src.1 frame, (acc.2.2 + 1) % 2 ^ 32)
        | none => (acc.1 ++ [src1], acc.2.1, acc.2.2)
      else skip
    else skip

/-- The key the iterator of the radio loop moves to: the first key of the map
when the loop starts (`cur = none`), otherwise the first key after `cur`. -/
def nextKey (keys : List Nat) (cur : Option Nat) : Option Nat :=
  match cur with
  | none => keys.head?
  | some c => (keys.filter (fun k => decide (c < k))).head?

/-- The radio loop of `getAudioFrame` (lines 271-282), iterating the live map in
key order from the position after `cur`. `none` when the fuel runs out or when
`_process_radio` dereferences a missing filter. -/
def radioLoop (E : Env S Src) (cache : List (String × List S)) (onHeadset : Bool) :
    Nat → Option Nat → ATCRadioStack S Src → OutputDeviceState S →
      Option (ATCRadioStack S Src × OutputDeviceState S)
  | 0, _, _, _ => none
  | fuel + 1, cur, s, state =>
    match nextKey (s.mRadioState.map Prod.fst) cur with
    | none => some (s, state)
    | some key =>
      let radio := mapAt E.defaultRadio s.mRadioState key
      if !isFrequencyActive s.mRadioState key then
        radioLoop E cache onHeadset fuel (some key) s state
      else if routedTo onHeadset radio.onHeadset s.mRT then
        match _process_radio E cache radio.Frequency s state with
        | .ok res => radioLoop E cache onHeadset fuel (some key) res.2.1 res.2.2
        | .error _ => none
      else radioLoop E cache onHeadset fuel (some key) s state

/-- Source `ATCRadioStack::getAudioFrame`: the frame copied to `bufferOut` and the
stack afterwards; no result when `_process_radio` dereferences a missing filter.
The radio loop visits at most the keys present at its start and the keys inserted
while it runs, at most one per visit. -/
def getAudioFrame (E : Env S Src) (s : ATCRadioStack S Src) (onHeadset : Bool) :
    Option (List S × ATCRadioStack S Src) :=
  let state := if onHeadset then s.mHeadsetState else s.mSpeakerState
  let pre := s.mIncomingStreams.foldl (prefetchStep E s.mRadioState s.mRT onHeadset) ([], [], 0)
  let s1 := { s with mIncomingStreams := pre.1, IncomingAudioStreams := pre.2.2 }
  let state1 := { state with mMixingBuffer := List.replicate E.frameSizeSamples E.zero }
  match radioLoop E pre.2.1 onHeadset (2 * s.mRadioState.length + 2) none s1 state1 with
  | none => none
  | some (s2, state2) =>
    some (state2.mMixingBuffer,
      if onHeadset then { s2 with mHeadsetState := state2 }
      else { s2 with mSpeakerState := state2 })

/-- What one output frame period presents to a radio: the stream table and the
sample cache filled by the source prefetch of that period. -/
structure FramePeriod (S Src : Type) where
  streams : List (String × CallsignMeta S Src)
  cache : List (String × List S)

/-- Number of streams mixed into the radio `r` in a frame period. -/
def mixedStreams (E : Env S Src) (r : ATCRadioState S) (p : FramePeriod S Src) : Nat :=
  (p.streams.filter (usesStream E p.cache r)).length

/-- The effect instance left by `mix_effect` followed by the release on a
non-OK result (`if (!mix_effect(fx, gain, state)) fx.reset()`). -/
def effectAfterMix (E : Env S Src) (effect : Option (SampleSource S)) (gain : S) :
    Option (SampleSource S) :=
  match effect with
  | none => none
  | some e =>
    if E.lt E.zero gain then
      match e.gen e.pulled with
      | some _ => some { e with pulled := e.pulled + 1 }
      | none => none
    else some e

/-- The mixer processing the radio `rxIter` in one frame period: `_process_radio`
with the period's stream table and sample cache. The outcome is the stack and the
device buffers afterwards, or the stack at the dereference of a missing filter. -/
def processPeriod (E : Env S Src) (rxIter : Nat)
    (x : ATCRadioStack S Src × OutputDeviceState S) (p : FramePeriod S Src) :
    Except (ATCRadioStack S Src) (ATCRadioStack S Src × OutputDeviceState S) :=
  match _process_radio E p.cache rxIter { x.1 with mIncomingStreams := p.streams } x.2 with
  | .ok res => .ok (res.2.1, res.2.2)
  | .error s => .error s

/-- The state after consecutive frame periods; the run ends at the first frame
that dereferences a missing filter, with the stack at that point. -/
def runPeriods (E : Env S Src) (rxIter : Nat) :
    ATCRadioStack S Src × OutputDeviceState S → List (FramePeriod S Src) →
      ATCRadioStack S Src × OutputDeviceState S
  | x, [] => x
  | x, p :: ps =>
    match processPeriod E rxIter x p with
    | .ok y => runPeriods E rxIter y ps
    | .error s => (s, x.2)

/-- The states after each of consecutive frame periods, in order, up to and
including the first frame that dereferences a missing filter. -/
def processPeriods (E : Env S Src) (rxIter : Nat) :
    ATCRadioStack S Src × OutputDeviceState S → List (FramePeriod S Src) →
      List (ATCRadioStack S Src × OutputDeviceState S)
  | _, [] => []
  | x, p :: ps =>
    match processPeriod E rxIter x p with
    | .ok y => y :: processPeriods E rxIter y ps
    | .error s => [(s, x.2)]

/-- Number of keys the iterator of the radio loop has still to visit. -/
def pendingKeys (keys : List Nat) (cur : Option Nat) : Nat :=
  match cur with
  | none => keys.length
  | some c => (keys.filter (fun k => decide (c < k))).length

/-- The invariant of the radio loop while every radio routed to the device is a
transmitting radio on `f`. -/
def muteInv (zeros : List S) (keys : List Nat) (rt onHeadset : Bool) (f : Nat)
    (s : ATCRadioStack S Src) (state : OutputDeviceState S) : Prop :=
  s.mPtt = true ∧ s.mRT = rt ∧ state.mMixingBuffer = zeros ∧ keysSorted s.mRadioState ∧
    s.mRadioState.map Prod.fst = keys ∧
    ∀ p ∈ s.mRadioState, routedTo onHeadset p.2.onHeadset rt = true →
      p.1 = f ∧ p.2.Frequency = f ∧ p.2.tx = true

end Mixer

/-! ## Transmit path -/

section Transmit
variable {S Src : Type}

/-- The transceiver loop of `processCompressedFrame` and `sendCachedAtisFrame`:
the IDs of every transceiver of every radio selected by `sel`, in map order then
list order, each appended with `emplace_back(trans.ID)`. -/
def txTransceivers (sel : ATCRadioState S → Bool) (m : RadioMap S) : List Nat :=
  m.foldl (fun acc radio =>
    if !sel radio.2 then acc
    else radio.2.transceivers.foldl (fun a t => a ++ [t.ID]) acc) []

/-- Source `ATCRadioStack::processCompressedFrame`. The datagram class is declared
outside the sources at hand; with PTT pressed the code leaves `LastPacket` as
constructed, which is false (spec §4.4: `last_packet = (ptt == false)`). -/
def processCompressedFrame (s : ATCRadioStack S Src) (compressedData : List Nat) :
    ATCRadioStack S Src :=
  if s.mAtisRecord then
    { s with mStoredAtisData := s.mStoredAtisData ++ [compressedData] }
  else if s.channelOpen then
    let audioOutDto : AudioTxOnTransceivers :=
      { SequenceCounter := s.mTxSequence
        Callsign := s.mCallsign
        Audio := compressedData
        LastPacket := !s.mPtt
        Transceivers := txTransceivers (fun r => r.tx) s.mRadioState }
    { s with
      mLastFramePtt := s.mPtt
      mTxSequence := (s.mTxSequence + 1) % 2 ^ 32
      sent := s.sent ++ [audioOutDto] }
  else s

/-- Source `ATCRadioStack::setPtt`. -/
def setPtt (s : ATCRadioStack S Src) (pressed : Bool) : ATCRadioStack S Src :=
  { s with mPtt := pressed }

/-- Source `ATCRadioStack::setRT`. -/
def setRT (s : ATCRadioStack S Src) (active : Bool) : ATCRadioStack S Src :=
  { s with mRT := active }

/-- Source `ATCRadioStack::getAtisRecording`. -/
def getAtisRecording (s : ATCRadioStack S Src) : Bool :=
  s.mAtisRecord

/-- Source `ATCRadioStack::setRecordAtis`. -/
def setRecordAtis (s : ATCRadioStack S Src) (pressed : Bool) : ATCRadioStack S Src :=
  let s1 := if pressed && !getAtisRecording s then { s with mStoredAtisData := [] } else s
  { s1 with mAtisRecord := pressed }

/-- Source `ATCRadioStack::startAtisPlayback`. -/
def startAtisPlayback (s : ATCRadioStack S Src) (atisCallsign : String) :
    ATCRadioStack S Src :=
  if !s.mAtisRecord then { s with mAtisCallsign := atisCallsign, mAtisPlayback := true }
  else s

/-- Source `ATCRadioStack::stopAtisPlayback`. -/
def stopAtisPlayback (s : ATCRadioStack S Src) : ATCRadioStack S Src :=
  { s with
    mAtisPlayback := false
    mAtisCallsign := ""
    mRadioState := s.mRadioState.filter (fun radio => !radio.2.isAtis) }

/-- Source `ATCRadioStack::sendCachedAtisFrame`. The read
`mStoredAtisData[cacheNum]` is undefined when `cacheNum` is not an index of the
vector: the result is then `none`. -/
def sendCachedAtisFrame (s : ATCRadioStack S Src) : Option (ATCRadioStack S Src) :=
  if s.channelOpen then
    match s.mStoredAtisData[s.cacheNum]? with
    | none => none
    | some audio =>
      let audioOutDto : AudioTxOnTransceivers :=
        { SequenceCounter := s.mTxSequence
          Callsign := s.mAtisCallsign
          Audio := audio
          LastPacket := false
          Transceivers := txTransceivers (fun r => r.isAtis) s.mRadioState }
      some
        { s with
          mTxSequence := (s.mTxSequence + 1) % 2 ^ 32
          cacheNum :=
            if s.cacheNum + 1 > s.mStoredAtisData.length then 0 else s.cacheNum + 1
          sent := s.sent ++ [audioOutDto] }
  else some s

/-- Source `ATCRadioStack::putAudioFrame` (the tick handle and the VU meter, which
touch nothing else, are left out). `delivered` are the compressed frames the
compressor hands to `processCompressedFrame` for this PCM frame, when the frame
reaches it. -/
def putAudioFrame (s : ATCRadioStack S Src) (bufferIn : List S)
    (delivered : List (List Nat)) : Option (ATCRadioStack S Src) :=
  match (if s.mAtisPlayback then sendCachedAtisFrame s else some s) with
  | none => none
  | some s1 =>
    if !s1.mPtt && !s1.mLastFramePtt && !s1.mAtisRecord then
      some
        (if !s1.mAtisPlayback then { s1 with mTxSequence := (s1.mTxSequence + 1) % 2 ^ 32 }
          else s1)
    else
      some
        (delivered.foldl processCompressedFrame
          { s1 with compressorInput := s1.compressorInput ++ [bufferIn] })

/-- Consecutive `putAudioFrame` calls, each with the frames its compressor run
delivers. -/
def putAudioFrames :
    ATCRadioStack S Src → List (List S × List (List Nat)) → Option (ATCRadioStack S Src)
  | s, [] => some s
  | s, f :: fs =>
    match putAudioFrame s f.1 f.2 with
    | none => none
    | some s1 => putAudioFrames s1 fs

/-- Source `ATCRadioStack::reset` (the codec reset of the compressor is not part
of the state). -/
def reset (s : ATCRadioStack S Src) : ATCRadioStack S Src :=
  { s with
    mIncomingStreams := []
    mRadioState := []
    mTxSequence := 0
    mPtt := false
    mLastFramePtt := false }

/-- The operations that drive the transmit path. `setChannelOpen` is the UDP
channel opening or closing. -/
inductive TxOp (S : Type) where
  | putAudioFrame (bufferIn : List S) (delivered : List (List Nat))
  | processCompressedFrame (compressedData : List Nat)
  | sendCachedAtisFrame
  | setPtt (pressed : Bool)
  | setRecordAtis (pressed : Bool)
  | startAtisPlayback (atisCallsign : String)
  | stopAtisPlayback
  | setChannelOpen (isOpen : Bool)
  | reset

/-- One transmit-path operation on the stack. -/
def applyTxOp (s : ATCRadioStack S Src) : TxOp S → Option (ATCRadioStack S Src)
  | .putAudioFrame bufferIn delivered => putAudioFrame s bufferIn delivered
  | .processCompressedFrame compressedData => some (processCompressedFrame s compressedData)
  | .sendCachedAtisFrame => sendCachedAtisFrame s
  | .setPtt pressed => some (setPtt s pressed)
  | .setRecordAtis pressed => some (setRecordAtis s pressed)
  | .startAtisPlayback atisCallsign => some (startAtisPlayback s atisCallsign)
  | .stopAtisPlayback => some (stopAtisPlayback s)
  | .setChannelOpen isOpen => some { s with channelOpen := isOpen }
  | .reset => some (reset s)

/-- A sequence of transmit-path operations. -/
def runTxOps : ATCRadioStack S Src → List (TxOp S) → Option (ATCRadioStack S Src)
  | s, [] => some s
  | s, op :: ops =>
    match applyTxOp s op with
    | none => none
    | some s1 => runTxOps s1 ops

/-- Whether the operation is `reset`. -/
def TxOp.isReset : TxOp S → Bool
  | .reset => true
  | _ => false

/-- The most `fetch_add` calls on `mTxSequence` an operation can make. -/
def TxOp.ticks : TxOp S → Nat
  | .putAudioFrame _ delivered => 1 + delivered.length
  | .processCompressedFrame _ => 1
  | .sendCachedAtisFrame => 1
  | _ => 0

/-- The sequence counters of the datagrams sent so far, oldest first. -/
def sentCounters (s : ATCRadioStack S Src) : List Nat :=
  s.sent.map (fun dto => dto.SequenceCounter)

/-- The sent log is in order: the sequence counters are strictly increasing and
all below the current `mTxSequence`. -/
def sentInOrder (s : ATCRadioStack S Src) : Prop :=
  (sentCounters s).Pairwise (· < ·) ∧ ∀ c ∈ sentCounters s, c < s.mTxSequence

/-! ## DTO assembly -/

/-- Source `ATCRadioStack::makeCrossCoupleGroupDto`. -/
def makeCrossCoupleGroupDto (m : RadioMap S) : List CrossCoupleGroup :=
  [{ ID := 0
     TransceiverIDs :=
       m.foldl (fun ids state =>
         if !state.2.xc || !state.2.tx then ids
         else state.2.transceivers.foldl (fun a t => a ++ [t.ID]) ids) [] }]

/-- Modelled from the spec: the constructor `dto::Transceiver(id, frequency, lat,
lon, msl, agl)`, whose declaration is missing from the sources. Transceiver IDs
are 16-bit (spec §6, `id:u16`), so the `unsigned int` counter is truncated. -/
def mkTransceiver (id frequency : Nat) (lat lon msl agl : S) : Transceiver S :=
  { ID := id % 2 ^ 16
    Frequency := frequency
    LatDeg := lat
    LonDeg := lon
    HeightMslM := msl
    HeightAglM := agl }

/-- The inner loop of `makeTransceiverDto` over the stored transceivers of one
radio, from the counter `i`: the elements appended to `retSet`, the stored
transceivers with their IDs stamped, and the counter afterwards. -/
def stampTransceivers :
    Nat → List (Transceiver S) → List (Transceiver S) × List (Transceiver S) × Nat
  | i, [] => ([], [], i)
  | i, t :: ts =>
    let rest := stampTransceivers ((i + 1) % 2 ^ 32) ts
    (mkTransceiver i t.Frequency t.LatDeg t.LonDeg t.HeightMslM t.HeightAglM :: rest.1,
      { t with ID := i % 2 ^ 16 } :: rest.2.1, rest.2.2)

/-- The loop of `makeTransceiverDto` over the radio map, from the counter `i`: the
elements appended to `retSet` and the radio map with the IDs stamped. -/
def makeTransceiverDtoFrom (lat lon msl agl : S) :
    Nat → RadioMap S → List (Transceiver S) × RadioMap S
  | _, [] => ([], [])
  | i, (key, state) :: rest =>
    if state.transceivers.isEmpty then
      let synth := mkTransceiver i key lat lon msl agl
      let res := makeTransceiverDtoFrom lat lon msl agl ((i + 1) % 2 ^ 32) rest
      (synth :: res.1, (key, { state with transceivers := [synth] }) :: res.2)
    else
      let st := stampTransceivers i state.transceivers
      let res := makeTransceiverDtoFrom lat lon msl agl st.2.2 rest
      (st.1 ++ res.1, (key, { state with transceivers := st.2.1 }) :: res.2)

/-- Source `ATCRadioStack::makeTransceiverDto`: the returned list and the stack
afterwards. -/
def makeTransceiverDto (s : ATCRadioStack S Src) :
    List (Transceiver S) × ATCRadioStack S Src :=
  ((makeTransceiverDtoFrom s.mClientLatitude s.mClientLongitude s.mClientAltitudeMSLM
      s.mClientAltitudeGLM 0 s.mRadioState).1,
    { s with mRadioState :=
        (makeTransceiverDtoFrom s.mClientLatitude s.mClientLongitude s.mClientAltitudeMSLM
          s.mClientAltitudeGLM 0 s.mRadioState).2 })

/-- Number of elements `makeTransceiverDto` emits for a radio map: for each radio
its stored transceivers, or one when it has none. -/
def dtoLength (m : RadioMap S) : Nat :=
  (m.map (fun radio => max 1 radio.2.transceivers.length)).sum

/-- A radio-map entry with its transceiver list blanked: the key and every field
`makeTransceiverDto` does not write. -/
def withoutTransceivers (radio : Nat × ATCRadioState S) : Nat × ATCRadioState S :=
  (radio.1, { radio.2 with transceivers := [] })

end Transmit

/-! ## Locking

The two mutexes of the stack and the lock events of one call of a member function
of `ATCRadioStack.cpp`, in program order: a `std::lock_guard` acquires at its
declaration and releases at the end of its block, and calls into other member
functions are inlined. Every function that declares a guard is listed, together
with the lock-free functions of the transmit path and DTO assembly; the remaining
member functions declare no guard. -/

section Locking

/-- The mutexes `mRadioStateLock` and `mStreamMapLock`. -/
inductive Mutex where
  | mRadioStateLock
  | mStreamMapLock
  deriving DecidableEq, Repr

/-- A lock event. -/
inductive LockEvent where
  | acquire (m : Mutex)
  | release (m : Mutex)
  deriving DecidableEq, Repr

/-- The member functions of `ATCRadioStack` listed for their lock events. -/
inductive Operation where
  | getAudioFrame
  | rxVoicePacket
  | maintainIncomingStreams
  | reset
  | putAudioFrame
  | processCompressedFrame
  | sendCachedAtisFrame
  | setTransceivers
  | makeTransceiverDto
  | makeCrossCoupleGroupDto
  | stopAtisPlayback
  | listenToAtis
  | isAtisListening
  | lastTransmitOnFreq
  | getTxActive
  | getRxActive
  | addFrequency
  | removeFrequency
  | setGain
  | setGainAll
  | setTx
  | setRx
  | setXc
  | setOnHeadset
  | setPtt
  | setRecordAtis
  | startAtisPlayback
  deriving DecidableEq, Repr

/-- A function that holds `mRadioStateLock` for its body. -/
def radioGuarded : List LockEvent :=
  [LockEvent.acquire Mutex.mRadioStateLock, LockEvent.release Mutex.mRadioStateLock]

/-- A function that holds `mStreamMapLock` for its body. -/
def streamGuarded : List LockEvent :=
  [LockEvent.acquire Mutex.mStreamMapLock, LockEvent.release Mutex.mStreamMapLock]

/-- The lock events of one call of each member function. `getAudioFrame` takes
`mRadioStateLock` then `mStreamMapLock` (lines 233-234) and calls
`_process_radio`, which takes none. `rxVoicePacket` takes `mStreamMapLock`
(line 302); the guard in `_packetListening` is commented out (line 289). `reset`
takes and releases `mStreamMapLock`, then `mRadioStateLock` (lines 694-701).
`putAudioFrame` takes none itself and calls `sendCachedAtisFrame` and, through
the compressor, `processCompressedFrame`, which each hold `mRadioStateLock` for an
inner block (lines 453, 544). -/
def lockTrace : Operation → List LockEvent
  | .getAudioFrame =>
    [LockEvent.acquire Mutex.mRadioStateLock, LockEvent.acquire Mutex.mStreamMapLock,
     LockEvent.release Mutex.mStreamMapLock, LockEvent.release Mutex.mRadioStateLock]
  | .rxVoicePacket => streamGuarded
  | .maintainIncomingStreams => streamGuarded
  | .reset => streamGuarded ++ radioGuarded
  | .putAudioFrame => radioGuarded ++ radioGuarded
  | .processCompressedFrame => radioGuarded
  | .sendCachedAtisFrame => radioGuarded
  | .setTransceivers => radioGuarded
  | .makeTransceiverDto => radioGuarded
  | .makeCrossCoupleGroupDto => []
  | .stopAtisPlayback => radioGuarded
  | .listenToAtis => radioGuarded
  | .isAtisListening => []
  | .lastTransmitOnFreq => []
  | .getTxActive => radioGuarded
  | .getRxActive => radioGuarded
  | .addFrequency => radioGuarded
  | .removeFrequency => radioGuarded
  | .setGain => radioGuarded
  | .setGainAll => radioGuarded
  | .setTx => radioGuarded
  | .setRx => radioGuarded
  | .setXc => radioGuarded
  | .setOnHeadset => radioGuarded
  | .setPtt => []
  | .setRecordAtis => []
  | .startAtisPlayback => []

/-- The mutexes held after an event, oldest acquisition first. -/
def heldAfter (held : List Mutex) : LockEvent → List Mutex
  | .acquire m => held ++ [m]
  | .release m => held.filter (fun x => x != m)

/-- The edges of the lock-acquisition graph a trace contributes: `(a, b)` when `b`
is acquired while `a` is held. -/
def lockEdges : List Mutex → List LockEvent → List (Mutex × Mutex)
  | _, [] => []
  | held, LockEvent.acquire m :: rest =>
    held.map (fun a => (a, m)) ++ lockEdges (heldAfter held (LockEvent.acquire m)) rest
  | held, LockEvent.release m :: rest => lockEdges (heldAfter held (LockEvent.release m)) rest

/-- The sets of held mutexes a trace passes through, each oldest acquisition
first. -/
def heldSets : List Mutex → List LockEvent → List (List Mutex)
  | _, [] => []
  | held, e :: rest => heldAfter held e :: heldSets (heldAfter held e) rest

/-- The edges of the lock-acquisition graph over all listed member functions. -/
def allLockEdges : List (Mutex × Mutex) :=
  [Operation.getAudioFrame, Operation.rxVoicePacket, Operation.maintainIncomingStreams,
    Operation.reset, Operation.putAudioFrame, Operation.processCompressedFrame,
    Operation.sendCachedAtisFrame, Operation.setTransceivers, Operation.makeTransceiverDto,
    Operation.makeCrossCoupleGroupDto, Operation.stopAtisPlayback, Operation.listenToAtis,
    Operation.isAtisListening, Operation.lastTransmitOnFreq, Operation.getTxActive,
    Operation.getRxActive, Operation.addFrequency, Operation.removeFrequency,
    Operation.setGain, Operation.setGainAll, Operation.setTx, Operation.setRx,
    Operation.setXc, Operation.setOnHeadset, Operation.setPtt, Operation.setRecordAtis,
    Operation.startAtisPlayback].flatMap (fun op => lockEdges [] (lockTrace op))

end Locking

/-! ## Further radio-map operations and operation sequences -/

section Operations
variable {S Src : Type}

/-- A `dto::StationTransceiver` as received from the API, with the position fields
`setTransceivers` copies. -/
structure StationTransceiver (S : Type) where
  Name : String
  LatDeg : S
  LonDeg : S
  HeightMslM : S
  HeightAglM : S

/-- Source `ATCRadioStack::setGain`. -/
def setGain (d : ATCRadioState S) (m : RadioMap S) (freq : Nat) (gain : S) : RadioMap S :=
  mapModify d m freq (fun r => { r with Gain := gain })

/-- Source `ATCRadioStack::setOnHeadset`. -/
def setOnHeadset (d : ATCRadioState S) (m : RadioMap S) (freq : Nat) (onHeadset : Bool) :
    RadioMap S :=
  mapModify d m freq (fun r => { r with onHeadset := onHeadset })

/-- Source `ATCRadioStack::setTransceivers`: the stored list is cleared and one
transceiver with ID 0 and the frequency `freq` is appended per station
transceiver. -/
def setTransceivers (d : ATCRadioState S) (m : RadioMap S) (freq : Nat)
    (transceivers : List (StationTransceiver S)) : RadioMap S :=
  mapModify d m freq (fun r =>
    { r with transceivers :=
        transceivers.foldl (fun acc inTrans =>
          acc ++ [mkTransceiver 0 freq inTrans.LatDeg inTrans.LonDeg inTrans.HeightMslM
            inTrans.HeightAglM]) [] })

/-- Every stored transceiver carries the key of its radio as frequency, as
`setTransceivers` and `makeTransceiverDto` store them. -/
def transceiversOnKey (m : RadioMap S) : Prop :=
  ∀ radio ∈ m, ∀ t ∈ radio.2.transceivers, t.Frequency = radio.1

instance (m : RadioMap S) : Decidable (transceiversOnKey m) := by
  unfold transceiversOnKey; infer_instance

/-- Whether a list of events alternates between `a` and `b`, beginning with `a`. -/
def alternates {α : Type} [DecidableEq α] (a b : α) : List α → Bool
  | [] => true
  | x :: rest => decide (x = a) && alternates b a rest

/-- Whether every `b` in a list of events directly follows an `a`; `opened` tells
whether the list itself directly follows an `a`. -/
def closesFollowOpens {α : Type} [DecidableEq α] (a b : α) : Bool → List α → Bool
  | _, [] => true
  | opened, x :: rest =>
    if x = b then opened && closesFollowOpens a b false rest
    else closesFollowOpens a b (decide (x = a)) rest

/-- One output frame of a radio within an interleaving: the PTT state and the
radio's `tx` flag in force when the frame is mixed, and the frame period (the
stream table and sample cache the inbound packets have led to). -/
structure RxStep (S Src : Type) where
  ptt : Bool
  tx : Bool
  period : FramePeriod S Src

/-- The mixer processing the radio `rxIter` for one step of an interleaving: PTT is
stored as by `setPtt`, the radio's `tx` flag is assigned as by `setTx` on a radio
that is kept in the map (`mRadioState[rxIter].tx = tx`, no erase), then
`_process_radio` mixes the frame. -/
def processStep (E : Env S Src) (rxIter : Nat)
    (x : ATCRadioStack S Src × OutputDeviceState S) (st : RxStep S Src) :
    Except (ATCRadioStack S Src) (ATCRadioStack S Src × OutputDeviceState S) :=
  processPeriod E rxIter
    ({ x.1 with
        mPtt := st.ptt
        mRadioState :=
          mapModify E.defaultRadio x.1.mRadioState rxIter (fun r => { r with tx := st.tx }) },
      x.2)
    st.period

/-- The state after the steps of an interleaving; the run ends at the first frame
that dereferences a missing filter, with the stack at that point (and so with
every event posted until then). -/
def runSteps (E : Env S Src) (rxIter : Nat) :
    ATCRadioStack S Src × OutputDeviceState S → List (RxStep S Src) →
      ATCRadioStack S Src × OutputDeviceState S
  | x, [] => x
  | x, st :: rest =>
    match processStep E rxIter x st with
    | .ok y => runSteps E rxIter y rest
    | .error s => (s, x.2)

/-- The operations that write the inbound-stream table. -/
inductive StreamOp (S : Type) where
  | rxVoicePacket (now : Nat) (pkt : AudioRxOnTransceivers S)
  | maintainIncomingStreams (now : Nat)
  | reset

/-- One stream-table operation on the stack. -/
def applyStreamOp (E : Env S Src) (s : ATCRadioStack S Src) : StreamOp S → ATCRadioStack S Src
  | .rxVoicePacket now pkt => rxVoicePacket E now s pkt
  | .maintainIncomingStreams now => maintainIncomingStreams E now s
  | .reset => reset s

/-- A sequence of stream-table operations. -/
def runStreamOps (E : Env S Src) (s : ATCRadioStack S Src) (ops : List (StreamOp S)) :
    ATCRadioStack S Src :=
  ops.foldl (applyStreamOp E) s

/-- The `putAudioFrame` calls of a run in which the compressor delivers exactly one
compressed frame for each PCM frame: each PCM frame is paired with its compressed
frame. -/
def oneFramePerCall (frames : List (List S × List Nat)) :
    List (List S × List (List Nat)) :=
  frames.map (fun f => (f.1, [f.2]))

/-- A PTT burst: PTT is pressed, held for the frames `pressed`, released, and stays
released for the frames `released`. -/
def pttBurst (s : ATCRadioStack S Src) (pressed released : List (List S × List Nat)) :
    Option (ATCRadioStack S Src) :=
  match putAudioFrames (setPtt s true) (oneFramePerCall pressed) with
  | none => none
  | some s1 => putAudioFrames (setPtt s1 false) (oneFramePerCall released)

/-- Datagrams with `LastPacket = false` carrying the given audio frames, numbered
from `seq` with consecutive sequence counters (modulo 2^32). -/
def pttDatagrams (callsign : String) (ids : List Nat) :
    Nat → List (List Nat) → List AudioTxOnTransceivers
  | _, [] => []
  | seq, audio :: rest =>
    { SequenceCounter := seq
      Callsign := callsign
      Audio := audio
      LastPacket := false
      Transceivers := ids } :: pttDatagrams callsign ids ((seq + 1) % 2 ^ 32) rest

end Operations

/-! ## The client's PTT (`src/core/atcClient.cpp`) -/

section Client

/-- The PTT state of an `ATCClient`: the members `mWantPtt`, `mPtt` and
`mTxUpdatePending`, the PTT value last passed to `mATCRadioStack->setPtt`
(`stackPtt`, false in a new stack) and the log of the events posted through
`ClientEventCallback`, oldest first. -/
structure ATCClient where
  mWantPtt : Bool
  mPtt : Bool
  mTxUpdatePending : Bool
  stackPtt : Bool
  events : List ClientEventType
  deriving DecidableEq, Repr

/-- A newly constructed client. -/
def ATCClient.new : ATCClient :=
  { mWantPtt := false, mPtt := false, mTxUpdatePending := false, stackPtt := false,
    events := [] }

/-- Source `ATCClient::unguardPtt`. -/
def ATCClient.unguardPtt (c : ATCClient) : ATCClient :=
  if c.mWantPtt && !c.mPtt then
    { c with mPtt := true, stackPtt := true, events := c.events ++ [ClientEventType.PttOpen] }
  else c

/-- Source `ATCClient::setPtt`. The inner test `!mTxUpdatePending` under
`mTxUpdatePending` never holds, so the guarded call only returns. -/
def ATCClient.setPtt (c : ATCClient) (pttState : Bool) : ATCClient :=
  let c1 : ATCClient := { c with mWantPtt := pttState }
  if pttState && c.mTxUpdatePending then c1
  else if c1.mWantPtt == c1.mPtt then c1
  else
    let c2 : ATCClient := { c1 with mPtt := c1.mWantPtt, stackPtt := c1.mWantPtt }
    if c2.mPtt then { c2 with events := c2.events ++ [ClientEventType.PttOpen] }
    else if !c2.mWantPtt then { c2 with events := c2.events ++ [ClientEventType.PttClosed] }
    else c2

/-- The calls that drive the client's PTT: `setPtt`, the start of a transceiver
update (`mTxUpdatePending = true`, in `sendTransceiverUpdate`), its completion
(`mTxUpdatePending = false` followed by `unguardPtt`), and `unguardPtt` alone. -/
inductive ClientOp where
  | setPtt (pttState : Bool)
  | updateStarted
  | updateCompleted
  | unguardPtt
  deriving DecidableEq, Repr

/-- One client call. -/
def ATCClient.apply (c : ATCClient) : ClientOp → ATCClient
  | .setPtt pttState => c.setPtt pttState
  | .updateStarted => { c with mTxUpdatePending := true }
  | .updateCompleted => ATCClient.unguardPtt { c with mTxUpdatePending := false }
  | .unguardPtt => c.unguardPtt

/-- A sequence of client calls. -/
def ATCClient.run (c : ATCClient) (ops : List ClientOp) : ATCClient :=
  ops.foldl ATCClient.apply c

/-- The event a change of the effective PTT from `before` to `after` calls for:
`PttOpen` when it becomes true, `PttClosed` when it becomes false, none when it
does not change. -/
def pttChangeEvents (before after : Bool) : List ClientEventType :=
  if before = after then []
  else if after then [ClientEventType.PttOpen] else [ClientEventType.PttClosed]

end Client

/-! ## A concrete environment

Integer samples and a small voice source, used to evaluate the definitions on
concrete inputs. -/

section Concrete

/-- A voice source for concrete evaluation: the number of packets appended, the
number of frames pulled and the time of the last packet. It is active once a
packet has arrived and decodes to a constant frame. -/
structure CountingSource where
  appended : Nat
  pulled : Nat
  lastActivityTime : Nat
  deriving DecidableEq, Repr

/-- Modelled from the spec: the default-constructed `ATCRadioState`. The class
declaration (`ATCRadioStack.h`) is missing from the sources; spec §3 gives
`gain` the default 1.0 and §4.1 gives the flags the defaults `rx = true`,
`tx = false`, `xc = false`. The remaining members are value-initialised: no
effect instance, no filter, no transceivers, empty strings, zero counters. -/
def defaultRadioState : ATCRadioState Int :=
  { Frequency := 0
    Gain := 1
    Click := none
    Crackle := none
    WhiteNoise := none
    BlockTone := none
    vhfFilter := none
    mLastRxCount := 0
    mBypassEffects := false
    onHeadset := true
    tx := false
    rx := true
    xc := false
    isAtis := false
    stationName := []
    transceivers := []
    lastTransmitCallsign := "" }

/-- A one-shot effect source delivering `n` frames of `len` samples `v`. -/
def oneShotSource (n len : Nat) (v : Int) : SampleSource Int :=
  { pulled := 0, gen := fun i => if i < n then some (List.replicate len v) else none }

/-- A looped effect source delivering frames of `len` samples `v`. -/
def loopedSource (len : Nat) (v : Int) : SampleSource Int :=
  { pulled := 0, gen := fun _ => some (List.replicate len v) }

/-- An environment over integer samples with frames of four samples. -/
def exampleEnv : Env Int CountingSource :=
  { zero := 0
    one := 1
    add := fun a b => a + b
    sub := fun a b => a - b
    mul := fun a b => a * b
    lt := fun a b => decide (a < b)
    fxClickGain := 1
    fxBlockToneGain := 1
    fxWhiteNoiseGain := 1
    crackleFactor := fun _ => 0
    two := 2
    c3_7 := 4
    frameSizeSamples := 4
    compressedSourceCacheTimeoutMs := 1000
    defaultRadio := defaultRadioState
    newClick := oneShotSource 1 4 5
    newCrackle := loopedSource 4 0
    newPinkNoise := loopedSource 4 0
    newBlockTone := loopedSource 4 1
    transformFrame := fun _ _ frame => frame
    newVoiceSource := { appended := 0, pulled := 0, lastActivityTime := 0 }
    appendAudioDTO := fun now src _ =>
      { src with appended := src.appended + 1, lastActivityTime := now }
    isActive := fun src => decide (0 < src.appended)
    voiceFrame := fun src =>
      (if src.pulled < src.appended then some [7, 7, 7, 7] else none,
        { src with pulled := src.pulled + 1 })
    getLastActivityTime := fun src => src.lastActivityTime }

/-- Device buffers of four zero samples. -/
def exampleDevice : OutputDeviceState Int :=
  { mChannelBuffer := [0, 0, 0, 0]
    mMixingBuffer := [0, 0, 0, 0]
    mFetchBuffer := [0, 0, 0, 0]
    mLeftMixingBuffer := [0, 0, 0, 0]
    mRightMixingBuffer := [0, 0, 0, 0] }

/-- A freshly constructed stack: no radio, no stream, PTT and RT off. -/
def emptyStack : ATCRadioStack Int CountingSource :=
  { mRadioState := []
    mIncomingStreams := []
    mPtt := false
    mRT := false
    IncomingAudioStreams := 0
    mHeadsetState := exampleDevice
    mSpeakerState := exampleDevice
    events := []
    mLastFramePtt := false
    mTxSequence := 0
    mAtisRecord := false
    mAtisPlayback := false
    mStoredAtisData := []
    cacheNum := 0
    mCallsign := ""
    mAtisCallsign := ""
    channelOpen := false
    sent := []
    compressorInput := []
    mClientLatitude := 0
    mClientLongitude := 0
    mClientAltitudeMSLM := 0
    mClientAltitudeGLM := 0 }

/-- The radio map after `addFrequency(118100000, true, "LFPG_TWR", hw)`. -/
def towerMap : RadioMap Int :=
  addFrequencyMap defaultRadioState [] 118100000 true "LFPG_TWR".toList
    HardwareType.Schmid_ED_137B

/-- A stream from `"AFR123"` on 118100000 with one packet waiting to be decoded. -/
def towerStream : String × CallsignMeta Int CountingSource :=
  ("AFR123",
    { source := { appended := 1, pulled := 0, lastActivityTime := 0 }
      transceivers := [{ ID := 0, Frequency := 118100000, DistanceRatio := 1 }] })

/-- A stack receiving `"AFR123"` on the tower frequency, PTT released. -/
def listeningStack : ATCRadioStack Int CountingSource :=
  { emptyStack with mRadioState := towerMap, mIncomingStreams := [towerStream] }

/-- The same stack with the tower radio transmit-enabled and PTT pressed. -/
def transmittingStack : ATCRadioStack Int CountingSource :=
  { emptyStack with
    mRadioState := setTx defaultRadioState towerMap 118100000 true
    mIncomingStreams := [towerStream]
    mPtt := true }

/-- A frame period in which the stream of `"AFR123"` has a cached frame. -/
def receivingPeriod : FramePeriod Int CountingSource :=
  { streams := [towerStream], cache := [("AFR123", [7, 7, 7, 7])] }

/-- A frame period with no inbound stream. -/
def silentPeriod : FramePeriod Int CountingSource :=
  { streams := [], cache := [] }

/-- A freshly constructed stack whose UDP channel is open. -/
def openStack : ATCRadioStack Int CountingSource :=
  { emptyStack with channelOpen := true }

/-- The stack after recording the three ATIS frames `[0]`, `[1]`, `[2]` and
starting the playback as `"LFPG_ATIS"`, channel open, PTT released. -/
def atisStack : ATCRadioStack Int CountingSource :=
  startAtisPlayback
    (setRecordAtis
      ([[0], [1], [2]].foldl processCompressedFrame (setRecordAtis openStack true)) false)
    "LFPG_ATIS"

/-- The tower radio with `tx` and `xc` set and two station transceivers stored by
`setTransceivers`, next to a ground radio without `xc`. -/
def coupledStack : ATCRadioStack Int CountingSource :=
  { emptyStack with
    mRadioState :=
      setTransceivers defaultRadioState
        (setXc defaultRadioState
          (setTx defaultRadioState
            (addFrequencyMap defaultRadioState towerMap 121800000 true "LFPG_GND".toList
              HardwareType.Schmid_ED_137B)
            118100000 true)
          118100000 true)
        118100000
        [{ Name := "LFPG_A", LatDeg := 49, LonDeg := 2, HeightMslM := 120, HeightAglM := 10 },
          { Name := "LFPG_B", LatDeg := 48, LonDeg := 3, HeightMslM := 130, HeightAglM := 20 }] }

/-- A packet from `"AFR123"` heard on the transceiver on 118100000. -/
def towerPacket : AudioRxOnTransceivers Int :=
  { Callsign := "AFR123"
    Transceivers := [{ ID := 0, Frequency := 118100000, DistanceRatio := 1 }]
    Audio := []
    LastPacket := false
    SequenceCounter := 0 }

/-- A packet from `"AFR123"` heard on a transceiver on 118100000 and on a
transceiver on frequency 0. -/
def relayedPacket : AudioRxOnTransceivers Int :=
  { Callsign := "AFR123"
    Transceivers :=
      [{ ID := 0, Frequency := 118100000, DistanceRatio := 1 },
        { ID := 1, Frequency := 0, DistanceRatio := 1 }]
    Audio := []
    LastPacket := false
    SequenceCounter := 0 }

/-- The stack after `addFrequency(0, false, "LFPG_GND", hw)` (a radio on the
speaker), `setTx(118100000, true)` and `setOnHeadset(118100000, true)` on the
absent key 118100000 (which leave there a default-constructed radio with `tx`
set, on the headset), the packet `relayedPacket` and `setPtt(true)`. -/
def crossedStack : ATCRadioStack Int CountingSource :=
  setPtt
    (rxVoicePacket exampleEnv 5
      { emptyStack with
        mRadioState :=
          setOnHeadset defaultRadioState
            (setTx defaultRadioState
              (addFrequency exampleEnv emptyStack 0 false "LFPG_GND".toList
                HardwareType.Schmid_ED_137B).mRadioState
              118100000 true)
            118100000 true }
      relayedPacket)
    true

/-- The stack after `addFrequency(118100000, true, "LFPG_TWR", hw)`,
`setRx(118100000, false)` (which erases the radio), `setRx(118100000, true)` and
`setOnHeadset(118100000, true)` (which leave a default-constructed radio there)
and the packet `towerPacket`; PTT released. -/
def reinsertedStack : ATCRadioStack Int CountingSource :=
  rxVoicePacket exampleEnv 5
    { emptyStack with
      mRadioState :=
        setOnHeadset defaultRadioState
          (setRx defaultRadioState (setRx defaultRadioState towerMap 118100000 false)
            118100000 true)
          118100000 true }
    towerPacket

/-- The stack after `addFrequency(118100000, true, "LFPG_TWR", hw)`,
`setRx(0, true)` on the absent key 0 (which leaves there a default-constructed
radio, without a filter) and the packet `relayedPacket`; PTT released. -/
def filterlessStack : ATCRadioStack Int CountingSource :=
  rxVoicePacket exampleEnv 5
    { emptyStack with mRadioState := setRx defaultRadioState towerMap 0 true }
    relayedPacket

end Concrete

/-! ## Lemmas on the ordered map -/

section MapLemmas
variable {α : Type}

theorem mapFind_mapPut_self (m : List (Nat × α)) (k : Nat) (v : α) :
    mapFind (mapPut m k v) k = some v := by
  induction m with
  | nil => simp [mapPut, mapFind]
  | cons hd t ih =>
    obtain ⟨k', v'⟩ := hd
    by_cases h1 : k < k'
    · simp [mapPut, mapFind, h1]
    · by_cases h2 : k = k'
      · simp [mapPut, mapFind, h2]
      · have h3 : ¬ k' = k := fun h => h2 h.symm
        simp [mapPut, mapFind, h1, h2, h3, ih]

theorem mapFind_mapPut_ne (m : List (Nat × α)) (k k' : Nat) (v : α) (h : k' ≠ k) :
    mapFind (mapPut m k v) k' = mapFind m k' := by
  have hk : ¬ k = k' := fun e => h e.symm
  induction m with
  | nil => simp [mapPut, mapFind, hk]
  | cons hd t ih =>
    obtain ⟨k1, v1⟩ := hd
    by_cases h1 : k < k1
    · simp [mapPut, mapFind, h1, hk]
    · by_cases h2 : k = k1
      · subst h2
        simp [mapPut, mapFind, hk]
      · simp only [mapPut, h1, h2, if_false, mapFind, ih]

theorem mapFind_mapErase_self (m : List (Nat × α)) (k : Nat) :
    mapFind (mapErase m k) k = none := by
  induction m with
  | nil => simp [mapErase, mapFind]
  | cons hd t ih =>
    obtain ⟨k1, v1⟩ := hd
    by_cases h : k1 = k
    · simpa [mapErase, List.filter_cons, h] using ih
    · have : (k1 != k) = true := by simpa using h
      simp only [mapErase, List.filter_cons, this, if_true, mapFind, h, if_false]
      simpa [mapErase] using ih

theorem mapFind_mapErase_ne (m : List (Nat × α)) (k k' : Nat) (h : k' ≠ k) :
    mapFind (mapErase m k) k' = mapFind m k' := by
  induction m with
  | nil => simp [mapErase, mapFind]
  | cons hd t ih =>
    obtain ⟨k1, v1⟩ := hd
    by_cases h1 : k1 = k
    · subst h1
      have h2 : ¬ k1 = k' := fun e => h e.symm
      simpa [mapErase, List.filter_cons, mapFind, h2] using ih
    · have : (k1 != k) = true := by simpa using h1
      simp only [mapErase, List.filter_cons, this, if_true, mapFind]
      by_cases h3 : k1 = k'
      · simp [h3]
      · simpa [h3, mapErase] using ih

theorem mapErase_mapPut (m : List (Nat × α)) (k : Nat) (v : α) :
    mapErase (mapPut m k v) k = mapErase m k := by
  induction m with
  | nil => simp [mapPut, mapErase]
  | cons hd t ih =>
    obtain ⟨k1, v1⟩ := hd
    by_cases h1 : k < k1
    · simp [mapPut, mapErase, h1, List.filter_cons]
    · by_cases h2 : k = k1
      · subst h2
        simp [mapPut, mapErase, List.filter_cons]
      · have h3 : ¬ k1 = k := fun e => h2 e.symm
        simp only [mapPut, h1, h2, if_false, mapErase, List.filter_cons]
        simpa [mapErase, h3] using ih

theorem mapErase_of_absent (m : List (Nat × α)) (k : Nat) (h : mapFind m k = none) :
    mapErase m k = m := by
  induction m with
  | nil => simp [mapErase]
  | cons hd t ih =>
    obtain ⟨k1, v1⟩ := hd
    by_cases h1 : k1 = k
    · simp [mapFind, h1] at h
    · simp only [mapFind, h1, if_false] at h
      have : (k1 != k) = true := by simpa using h1
      simp only [mapErase, List.filter_cons, this, if_true]
      have := ih h
      simpa [mapErase] using this

theorem mapFind_none_of_lt (m : List (Nat × α)) (k : Nat)
    (h : ∀ p ∈ m, k < p.1) : mapFind m k = none := by
  induction m with
  | nil => rfl
  | cons hd t ih =>
    obtain ⟨k1, v1⟩ := hd
    have h1 : k < k1 := h (k1, v1) (List.mem_cons_self _ _)
    have h2 : ¬ k1 = k := by omega
    simp only [mapFind, h2, if_false]
    exact ih (fun p hp => h p (List.mem_cons_of_mem _ hp))

theorem mapPut_of_find (m : List (Nat × α)) (k : Nat) (v : α) (hs : keysSorted m)
    (h : mapFind m k = some v) : mapPut m k v = m := by
  induction m with
  | nil => simp [mapFind] at h
  | cons hd t ih =>
    obtain ⟨k1, v1⟩ := hd
    have hs' : (∀ p ∈ t, k1 < p.1) ∧ keysSorted t := by
      simpa [keysSorted, List.pairwise_cons] using hs
    by_cases h1 : k1 = k
    · subst h1
      simp only [mapFind, if_true, Option.some.injEq] at h
      subst h
      simp [mapPut]
    · simp only [mapFind, h1, if_false] at h
      have h2 : ¬ k < k1 := by
        intro hlt
        have : mapFind t k = none :=
          mapFind_none_of_lt t k (fun p hp => lt_trans hlt (hs'.1 p hp))
        rw [this] at h
        cases h
      have h3 : ¬ k = k1 := fun e => h1 e.symm
      simp only [mapPut, h2, h3, if_false, ih hs'.2 h]

theorem mapTouch_of_find (d : α) (m : List (Nat × α)) (k : Nat) (v : α)
    (h : mapFind m k = some v) : mapTouch d m k = m := by
  simp [mapTouch, h]

theorem mapAt_mapModify (d : α) (m : List (Nat × α)) (k : Nat) (g : α → α) :
    mapAt d (mapModify d m k g) k = g (mapAt d m k) := by
  simp [mapAt, mapModify, mapFind_mapPut_self]

end MapLemmas

/-! ## Lemmas on the radio-state setters -/

section SetterLemmas
variable {S : Type}

theorem remove_unused_frequency_of_find (d : ATCRadioState S) (m : RadioMap S) (f : Nat)
    (r : ATCRadioState S) (h : mapFind m f = some r) :
    remove_unused_frequency d m f = if anyFlag r then m else mapErase m f := by
  have h1 : mapTouch d m f = m := mapTouch_of_find d m f r h
  have h2 : mapAt d m f = r := by simp [mapAt, h]
  simp only [remove_unused_frequency, h1, h2, anyFlag]
  by_cases a : r.rx = true <;> by_cases b : r.tx = true <;> by_cases c : r.xc = true <;>
    by_cases e : r.isAtis = true <;> simp [a, b, c, e]

theorem find_after_assignment (d : ATCRadioState S) (m : RadioMap S) (f : Nat)
    (g : ATCRadioState S → ATCRadioState S) :
    mapFind (remove_unused_frequency d (mapModify d m f g) f) f =
      if anyFlag (g (mapAt d m f)) then some (g (mapAt d m f)) else none := by
  have h : mapFind (mapModify d m f g) f = some (g (mapAt d m f)) := by
    simp [mapModify, mapFind_mapPut_self]
  rw [remove_unused_frequency_of_find d _ f _ h]
  by_cases hf : anyFlag (g (mapAt d m f)) = true
  · simp [hf, h]
  · simp [hf, mapFind_mapErase_self]

theorem active_after_assignment (d : ATCRadioState S) (m : RadioMap S) (f : Nat)
    (g : ATCRadioState S → ATCRadioState S) :
    isFrequencyActive (remove_unused_frequency d (mapModify d m f g) f) f =
      anyFlag (g (mapAt d m f)) := by
  simp only [isFrequencyActive, mapCount, find_after_assignment]
  by_cases hf : anyFlag (g (mapAt d m f)) = true
  · simp [hf]
  · simp [hf]

theorem mapAt_after_assignment (d : ATCRadioState S) (m : RadioMap S) (f : Nat)
    (g : ATCRadioState S → ATCRadioState S) :
    mapAt d (remove_unused_frequency d (mapModify d m f g) f) f =
      if anyFlag (g (mapAt d m f)) then g (mapAt d m f) else d := by
  simp only [mapAt, find_after_assignment]
  by_cases hf : anyFlag (g ((mapFind m f).getD d)) = true
  · simp [hf]
  · simp [hf]

/-- The auto-removal sequence does deactivate a non-ATIS radio when a
default-constructed radio has none of `rx`, `tx`, `isAtis` set. -/
theorem auto_removal_of_default_without_flags (d : ATCRadioState S) (m : RadioMap S)
    (f : Nat) (r : ATCRadioState S) (hdrx : d.rx = false) (hdtx : d.tx = false)
    (hdat : d.isAtis = false) (hr : mapFind m f = some r) (hna : r.isAtis = false) :
    isFrequencyActive (setXc d (setTx d (setRx d m f false) f false) f false) f = false := by
  have h0 : mapAt d m f = r := by simp [mapAt, hr]
  have h1 : (mapAt d (setRx d m f false) f).rx = false ∧
      (mapAt d (setRx d m f false) f).isAtis = false := by
    unfold setRx
    rw [mapAt_after_assignment, h0]
    split_ifs
    · exact ⟨rfl, hna⟩
    · exact ⟨hdrx, hdat⟩
  have h2 : (mapAt d (setTx d (setRx d m f false) f false) f).rx = false ∧
      (mapAt d (setTx d (setRx d m f false) f false) f).isAtis = false ∧
      (mapAt d (setTx d (setRx d m f false) f false) f).tx = false := by
    unfold setTx
    rw [mapAt_after_assignment]
    split_ifs
    · exact ⟨h1.1, h1.2, rfl⟩
    · exact ⟨hdrx, hdat, hdtx⟩
  unfold setXc
  rw [active_after_assignment]
  simp [anyFlag, h2.1, h2.2.1, h2.2.2]

/-- For every radio-state map (keys strictly increasing) and every frequency `f`
whose radio has at least one of `rx`, `tx`, `xc`, `isAtis` set, `setRx`, `setTx`
and `setXc` called with the value the matching getter reports leave the map equal
to the one before the call. -/
theorem setter_same_value_keeps_map (d : ATCRadioState S) (m : RadioMap S) (f : Nat)
    (r : ATCRadioState S) (hs : keysSorted m) (hr : mapFind m f = some r)
    (hf : anyFlag r = true) :
    setRx d m f (getRxState m f) = m ∧ setTx d m f (getTxState m f) = m ∧
      setXc d m f (getXcState m f) = m := by
  have hat : mapAt d m f = r := by simp [mapAt, hr]
  have key : ∀ g : ATCRadioState S → ATCRadioState S, g r = r →
      remove_unused_frequency d (mapModify d m f g) f = m := by
    intro g hg
    have h1 : mapModify d m f g = m := by
      simp only [mapModify, hat, hg]
      exact mapPut_of_find m f r hs hr
    rw [h1, remove_unused_frequency_of_find d m f r hr, hf]
    rfl
  refine ⟨?_, ?_, ?_⟩
  · simp only [setRx, getRxState, hr]
    exact key _ rfl
  · simp only [setTx, getTxState, hr]
    exact key _ rfl
  · simp only [setXc, getXcState, hr]
    exact key _ rfl

end SetterLemmas

/-! ## Lemmas on the inbound-stream table -/

section StreamLemmas
variable {S Src : Type}

theorem streamFind_streamPut_self {β : Type} (t : List (String × β)) (cs : String) (v : β) :
    streamFind (streamPut t cs v) cs = some v := by
  induction t with
  | nil => simp [streamPut, streamFind]
  | cons hd tl ih =>
    obtain ⟨c, w⟩ := hd
    by_cases h : c = cs
    · simp [streamPut, streamFind, h]
    · simp [streamPut, streamFind, h, ih]

theorem mapAt_mapTouch (d : ATCRadioState S) (m : RadioMap S) (k k' : Nat) :
    mapAt d (mapTouch d m k) k' = mapAt d m k' := by
  unfold mapTouch
  cases h : mapFind m k with
  | some v => rfl
  | none =>
    by_cases hk : k' = k
    · subst hk
      simp [mapAt, mapFind_mapPut_self, h]
    · simp [mapAt, mapFind_mapPut_ne _ _ _ _ hk]

theorem mapAt_eq_getRxState (d : ATCRadioState S) (m : RadioMap S) (k : Nat)
    (h : isFrequencyActive m k = true) : (mapAt d m k).rx = getRxState m k := by
  cases hf : mapFind m k with
  | some v => simp [mapAt, getRxState, hf]
  | none => simp [isFrequencyActive, mapCount, hf] at h

/-- When every transceiver of the packet refers, through `mRadioState[...]`, to a
radio with `rx = false`, `_packetListening` returns false. -/
theorem packetListening_false (d : ATCRadioState S) (cs : String) (m : RadioMap S)
    (ts : List (RxTransceiver S))
    (h : ∀ t ∈ ts, (mapAt d m t.Frequency).rx = false) :
    (_packetListening d cs m ts).2 = false := by
  induction ts generalizing m with
  | nil => rfl
  | cons t rest ih =>
    have h1 : (mapAt d (mapTouch d m t.Frequency) t.Frequency).rx = false := by
      rw [mapAt_mapTouch]
      exact h t (List.mem_cons_self _ _)
    simp only [_packetListening, h1]
    apply ih
    intro t' ht'
    rw [mapAt_mapTouch]
    exact h t' (List.mem_cons_of_mem _ ht')

/-- The stream table is untouched by a packet all of whose transceiver
frequencies are active with `rx = false`. -/
theorem rxVoicePacket_dropped_of_active (E : Env S Src) (now : Nat)
    (s : ATCRadioStack S Src) (pkt : AudioRxOnTransceivers S)
    (h : ∀ t ∈ pkt.Transceivers, isFrequencyActive s.mRadioState t.Frequency = true ∧
      getRxState s.mRadioState t.Frequency = false) :
    (rxVoicePacket E now s pkt).mIncomingStreams = s.mIncomingStreams := by
  have h1 : (_packetListening E.defaultRadio pkt.Callsign s.mRadioState pkt.Transceivers).2 =
      false := by
    apply packetListening_false
    intro t ht
    rw [mapAt_eq_getRxState _ _ _ (h t ht).1]
    exact (h t ht).2
  simp [rxVoicePacket, h1]

/-- The stream table is untouched by a packet none of whose transceiver
frequencies is receive-enabled, provided a default-constructed radio has
`rx = false`. -/
theorem rxVoicePacket_dropped_of_default_not_receiving (E : Env S Src) (now : Nat)
    (s : ATCRadioStack S Src) (pkt : AudioRxOnTransceivers S)
    (hd : E.defaultRadio.rx = false)
    (h : ∀ t ∈ pkt.Transceivers, getRxState s.mRadioState t.Frequency = false) :
    (rxVoicePacket E now s pkt).mIncomingStreams = s.mIncomingStreams := by
  have h1 : (_packetListening E.defaultRadio pkt.Callsign s.mRadioState pkt.Transceivers).2 =
      false := by
    apply packetListening_false
    intro t ht
    have h2 := h t ht
    cases hf : mapFind s.mRadioState t.Frequency with
    | some v => simpa [mapAt, getRxState, hf] using h2
    | none => simpa [mapAt, hf] using hd
  simp [rxVoicePacket, h1]

/-- An accepted packet is stored: the entry of its callsign holds the packet's
transceivers and the source with the packet appended. -/
theorem rxVoicePacket_accepted (E : Env S Src) (now : Nat)
    (s : ATCRadioStack S Src) (pkt : AudioRxOnTransceivers S)
    (h : (_packetListening E.defaultRadio pkt.Callsign s.mRadioState pkt.Transceivers).2 =
      true) :
    streamFind (rxVoicePacket E now s pkt).mIncomingStreams pkt.Callsign =
      some
        { source :=
            E.appendAudioDTO now
              ((streamFind s.mIncomingStreams pkt.Callsign).getD (newCallsignMeta E)).source pkt
          transceivers := pkt.Transceivers } := by
  simp [rxVoicePacket, h, streamFind_streamPut_self]

/-- The callsign is recorded on the first transceiver frequency (in list order)
whose element `mRadioState[frequency]` has `rx = true`, and the packet is
accepted. -/
theorem packetListening_records (d : ATCRadioState S) (cs : String)
    (ts : List (RxTransceiver S)) :
    ∀ (m : RadioMap S) (t0 : RxTransceiver S),
      ts.find? (fun t => (mapAt d m t.Frequency).rx) = some t0 →
      (_packetListening d cs m ts).2 = true ∧
        (mapAt d (_packetListening d cs m ts).1 t0.Frequency).lastTransmitCallsign = cs := by
  induction ts with
  | nil => intro m t0 h; simp at h
  | cons t rest ih =>
    intro m t0 h
    by_cases hrx : (mapAt d m t.Frequency).rx = true
    · have h1 : (mapAt d (mapTouch d m t.Frequency) t.Frequency).rx = true := by
        rw [mapAt_mapTouch]; exact hrx
      simp only [List.find?_cons, hrx, Option.some.injEq] at h
      subst h
      simp only [_packetListening, h1, if_true, mapAt_mapModify]
      trivial
    · have hrx' : (mapAt d m t.Frequency).rx = false := by simpa using hrx
      have h1 : (mapAt d (mapTouch d m t.Frequency) t.Frequency).rx = false := by
        rw [mapAt_mapTouch]; exact hrx'
      simp only [List.find?_cons, hrx'] at h
      simp only [_packetListening, h1, Bool.false_eq_true, if_false]
      apply ih
      have hfun : (fun t' : RxTransceiver S =>
          (mapAt d (mapTouch d m t.Frequency) t'.Frequency).rx) =
          (fun t' => (mapAt d m t'.Frequency).rx) := by
        funext t'
        rw [mapAt_mapTouch]
      rw [hfun]
      exact h

theorem foldl_streamErase {β : Type} (ks : List String) (t : List (String × β)) :
    ks.foldl streamErase t = t.filter (fun p => decide (p.1 ∉ ks)) := by
  induction ks generalizing t with
  | nil => simp
  | cons k rest ih =>
    simp only [List.foldl_cons, ih, streamErase, List.filter_filter]
    apply List.filter_congr
    intro p _
    by_cases h1 : p.1 = k <;> by_cases h2 : p.1 ∈ rest <;> simp [h1, h2]

/-- A packet accepted by `_packetListening` names at least one transceiver. -/
theorem packetListening_true_nonempty (d : ATCRadioState S) (cs : String) (m : RadioMap S)
    (ts : List (RxTransceiver S)) (h : (_packetListening d cs m ts).2 = true) : ts ≠ [] := by
  intro hts
  rw [hts] at h
  simp [_packetListening] at h

theorem mem_streamPut {β : Type} (t : List (String × β)) (cs : String) (v : β)
    (e : String × β) (h : e ∈ streamPut t cs v) : e = (cs, v) ∨ e ∈ t := by
  induction t with
  | nil =>
    simp only [streamPut, List.mem_singleton] at h
    exact Or.inl h
  | cons a rest ih =>
    obtain ⟨c, w⟩ := a
    by_cases hc : c = cs
    · simp only [streamPut, hc, if_true, List.mem_cons] at h
      rcases h with h | h
      · exact Or.inl h
      · exact Or.inr (List.mem_cons_of_mem _ h)
    · simp only [streamPut, hc, if_false, List.mem_cons] at h
      rcases h with h | h
      · exact Or.inr (by rw [h]; exact List.mem_cons_self _ _)
      · rcases ih h with h' | h'
        · exact Or.inl h'
        · exact Or.inr (List.mem_cons_of_mem _ h')

/-- Each stream-table operation keeps every entry's transceiver list non-empty. -/
theorem applyStreamOp_transceivers (E : Env S Src) (s : ATCRadioStack S Src)
    (op : StreamOp S) (h : ∀ e ∈ s.mIncomingStreams, e.2.transceivers ≠ []) :
    ∀ e ∈ (applyStreamOp E s op).mIncomingStreams, e.2.transceivers ≠ [] := by
  cases op with
  | rxVoicePacket now pkt =>
    intro e he
    simp only [applyStreamOp, rxVoicePacket] at he
    by_cases hres :
        (_packetListening E.defaultRadio pkt.Callsign s.mRadioState pkt.Transceivers).2 = true
    · simp only [hres, if_true] at he
      rcases mem_streamPut _ _ _ _ he with h1 | h1
      · rw [h1]
        exact packetListening_true_nonempty _ _ _ _ hres
      · exact h e h1
    · simp only [hres] at he
      exact h e he
  | maintainIncomingStreams now =>
    intro e he
    simp only [applyStreamOp, maintainIncomingStreams, foldl_streamErase] at he
    exact h e (List.mem_filter.mp he).1
  | reset =>
    intro e he
    simp [applyStreamOp, reset] at he

theorem idleTime_of_le (now last : Nat) (h1 : last ≤ now) (h2 : now < 2 ^ 64) :
    idleTime now last = now - last := by
  unfold idleTime
  have h3 : last < 2 ^ 64 := lt_of_le_of_lt h1 h2
  rw [Nat.mod_eq_of_lt h2, Nat.mod_eq_of_lt h3]
  have h4 : now + 2 ^ 64 - last = (now - last) + 2 ^ 64 := by omega
  rw [h4, Nat.add_mod_right]
  apply Nat.mod_eq_of_lt
  omega

end StreamLemmas

/-! ## Lemmas on the output mixer -/

section MixerLemmas
variable {S Src : Type}

theorem mem_mapPut {α : Type} (m : List (Nat × α)) (k : Nat) (v : α) (p : Nat × α)
    (h : p ∈ mapPut m k v) : p = (k, v) ∨ p ∈ m := by
  induction m with
  | nil => simpa [mapPut] using h
  | cons hd t ih =>
    obtain ⟨k1, v1⟩ := hd
    by_cases h1 : k < k1
    · simp only [mapPut, h1, if_true, List.mem_cons] at h
      rcases h with h | h | h
      · exact Or.inl h
      · exact Or.inr (by simp [h])
      · exact Or.inr (by simp [h])
    · by_cases h2 : k = k1
      · subst h2
        simp only [mapPut, lt_irrefl, if_true, if_false, List.mem_cons] at h
        rcases h with h | h
        · exact Or.inl h
        · exact Or.inr (by simp [h])
      · simp only [mapPut, h1, h2, if_false, List.mem_cons] at h
        rcases h with h | h
        · exact Or.inr (by simp [h])
        · rcases ih h with h' | h'
          · exact Or.inl h'
          · exact Or.inr (by simp [h'])

theorem mem_of_mapFind {α : Type} (m : List (Nat × α)) (k : Nat) (v : α)
    (h : mapFind m k = some v) : (k, v) ∈ m := by
  induction m with
  | nil => simp [mapFind] at h
  | cons hd t ih =>
    obtain ⟨k1, v1⟩ := hd
    by_cases h1 : k1 = k
    · simp only [mapFind, h1, if_true, Option.some.injEq] at h
      simp [h1, h]
    · simp only [mapFind, h1, if_false] at h
      exact List.mem_cons_of_mem _ (ih h)

theorem mapFind_of_key_mem {α : Type} (m : List (Nat × α)) (k : Nat)
    (h : k ∈ m.map Prod.fst) : ∃ v, mapFind m k = some v := by
  induction m with
  | nil => simp at h
  | cons hd t ih =>
    obtain ⟨k1, v1⟩ := hd
    by_cases h1 : k1 = k
    · exact ⟨v1, by simp [mapFind, h1]⟩
    · have h2 : k ∈ t.map Prod.fst := by
        simp only [List.map_cons, List.mem_cons] at h
        rcases h with h | h
        · exact absurd h.symm h1
        · exact h
      obtain ⟨v, hv⟩ := ih h2
      exact ⟨v, by simp [mapFind, h1, hv]⟩

theorem mapFind_of_mem_sorted {α : Type} (m : List (Nat × α)) (k : Nat) (v : α)
    (hs : keysSorted m) (h : (k, v) ∈ m) : mapFind m k = some v := by
  induction m with
  | nil => simp at h
  | cons hd t ih =>
    obtain ⟨k1, v1⟩ := hd
    have hs' : (∀ p ∈ t, k1 < p.1) ∧ keysSorted t := by
      simpa [keysSorted, List.pairwise_cons] using hs
    simp only [List.mem_cons, Prod.mk.injEq] at h
    rcases h with ⟨h1, h2⟩ | h
    · simp [mapFind, h1, h2]
    · have h3 : k1 < k := hs'.1 (k, v) h
      have h4 : ¬ k1 = k := by omega
      simp only [mapFind, h4, if_false]
      exact ih hs'.2 h

theorem keys_mapPut_of_find {α : Type} (m : List (Nat × α)) (k : Nat) (v w : α)
    (hs : keysSorted m) (h : mapFind m k = some w) :
    (mapPut m k v).map Prod.fst = m.map Prod.fst := by
  induction m with
  | nil => simp [mapFind] at h
  | cons hd t ih =>
    obtain ⟨k1, v1⟩ := hd
    have hs' : (∀ p ∈ t, k1 < p.1) ∧ keysSorted t := by
      simpa [keysSorted, List.pairwise_cons] using hs
    by_cases h1 : k1 = k
    · subst h1
      simp [mapPut]
    · simp only [mapFind, h1, if_false] at h
      have h2 : ¬ k < k1 := by
        intro hlt
        have : mapFind t k = none :=
          mapFind_none_of_lt t k (fun p hp => lt_trans hlt (hs'.1 p hp))
        rw [this] at h
        cases h
      have h3 : ¬ k = k1 := fun e => h1 e.symm
      simp only [mapPut, h2, h3, if_false, List.map_cons, ih hs'.2 h]

theorem keysSorted_mapPut_of_find {α : Type} (m : List (Nat × α)) (k : Nat) (v w : α)
    (hs : keysSorted m) (h : mapFind m k = some w) : keysSorted (mapPut m k v) := by
  unfold keysSorted
  rw [keys_mapPut_of_find m k v w hs h]
  exact hs

theorem nextKey_mem (keys : List Nat) (cur : Option Nat) (k : Nat)
    (h : nextKey keys cur = some k) : k ∈ keys := by
  cases cur with
  | none =>
    simp only [nextKey] at h
    exact List.mem_of_mem_head? h
  | some c =>
    simp only [nextKey] at h
    exact (List.mem_filter.mp (List.mem_of_mem_head? h)).1

theorem pendingKeys_next (keys : List Nat) (cur : Option Nat) (k : Nat)
    (h : nextKey keys cur = some k) :
    pendingKeys keys (some k) < pendingKeys keys cur := by
  cases cur with
  | none =>
    simp only [nextKey] at h
    cases keys with
    | nil => simp at h
    | cons k0 tl =>
      simp only [List.head?_cons, Option.some.injEq] at h
      subst h
      simp only [pendingKeys, List.length_cons]
      have h1 : ((k0 :: tl).filter (fun x => decide (k0 < x))) =
          tl.filter (fun x => decide (k0 < x)) := by
        simp [List.filter_cons]
      rw [h1]
      exact Nat.lt_succ_of_le (List.length_filter_le _ _)
  | some c =>
    simp only [nextKey] at h
    simp only [pendingKeys]
    have hk : k ∈ keys.filter (fun x => decide (c < x)) := List.mem_of_mem_head? h
    have hck : c < k := by simpa using (List.mem_filter.mp hk).2
    have h1 : keys.filter (fun x => decide (k < x)) =
        (keys.filter (fun x => decide (c < x))).filter (fun x => decide (k < x)) := by
      rw [List.filter_filter]
      apply List.filter_congr
      intro x _
      by_cases hx : k < x
      · have : c < x := lt_trans hck hx
        simp [hx, this]
      · simp [hx]
    rw [h1]
    cases hL : keys.filter (fun x => decide (c < x)) with
    | nil => simp [hL] at h
    | cons k0 tl =>
      rw [hL] at h
      simp only [List.head?_cons, Option.some.injEq] at h
      subst h
      have h2 : ((k0 :: tl).filter (fun x => decide (k0 < x))) =
          tl.filter (fun x => decide (k0 < x)) := by
        simp [List.filter_cons]
      rw [h2]
      simp only [List.length_cons]
      exact Nat.lt_succ_of_le (List.length_filter_le _ _)

/-- With PTT pressed, `_process_radio` on a transmit-enabled radio resets the
radio's effects and returns before anything is mixed. -/
theorem process_radio_transmitting (E : Env S Src) (cache : List (String × List S))
    (f : Nat) (s : ATCRadioStack S Src) (state : OutputDeviceState S) (r : ATCRadioState S)
    (hptt : s.mPtt = true) (hr : mapFind s.mRadioState f = some r) (htx : r.tx = true) :
    _process_radio E cache f s state =
      .ok (true, { s with mRadioState := mapPut s.mRadioState f (resetRadioFxRadio r false) },
        { state with mChannelBuffer := List.replicate E.frameSizeSamples E.zero }) := by
  have h1 : isFrequencyActive s.mRadioState f = true := by
    simp [isFrequencyActive, mapCount, hr]
  have h2 : mapAt E.defaultRadio s.mRadioState f = r := by simp [mapAt, hr]
  simp [_process_radio, h1, h2, hptt, htx, resetRadioFx, mapModify]

theorem radioLoop_muted (E : Env S Src) (cache : List (String × List S)) (onHeadset : Bool)
    (zeros : List S) (keys : List Nat) (rt : Bool) (f : Nat) (fuel : Nat) :
    ∀ (cur : Option Nat) (s : ATCRadioStack S Src) (state : OutputDeviceState S),
      muteInv zeros keys rt onHeadset f s state → pendingKeys keys cur < fuel →
      ∃ s' state', radioLoop E cache onHeadset fuel cur s state = some (s', state') ∧
        state'.mMixingBuffer = zeros := by
  induction fuel with
  | zero => intro cur s state _ h; omega
  | succ n ih =>
    intro cur s state hinv hfuel
    obtain ⟨hptt, hrt, hmix, hsorted, hkeys, honly⟩ := hinv
    subst hrt
    cases hnext : nextKey (s.mRadioState.map Prod.fst) cur with
    | none => exact ⟨s, state, by simp [radioLoop, hnext], hmix⟩
    | some key =>
      have hmem : key ∈ s.mRadioState.map Prod.fst := nextKey_mem _ _ _ hnext
      obtain ⟨radio, hradio⟩ := mapFind_of_key_mem _ _ hmem
      have hact : isFrequencyActive s.mRadioState key = true := by
        simp [isFrequencyActive, mapCount, hradio]
      have hat : mapAt E.defaultRadio s.mRadioState key = radio := by simp [mapAt, hradio]
      have hlt : pendingKeys keys (some key) < n := by
        have := pendingKeys_next _ _ _ (hkeys ▸ hnext)
        omega
      by_cases hrouted : routedTo onHeadset radio.onHeadset s.mRT = true
      · obtain ⟨hk, hfreq, htx⟩ := honly (key, radio) (mem_of_mapFind _ _ _ hradio) hrouted
        simp only at hk hfreq htx
        subst hk
        have hproc := process_radio_transmitting E cache key s state radio hptt hradio htx
        have hinv' : muteInv zeros keys s.mRT onHeadset key
            { s with mRadioState := mapPut s.mRadioState key (resetRadioFxRadio radio false) }
            { state with mChannelBuffer := List.replicate E.frameSizeSamples E.zero } := by
          refine ⟨hptt, rfl, hmix, keysSorted_mapPut_of_find _ _ _ _ hsorted hradio, ?_, ?_⟩
          · simp only [keys_mapPut_of_find _ _ _ _ hsorted hradio, hkeys]
          · intro p hp hpr
            rcases mem_mapPut _ _ _ _ hp with h | h
            · subst h
              have hon : (resetRadioFxRadio radio false).onHeadset = radio.onHeadset := by
                simp [resetRadioFxRadio]
              refine ⟨rfl, ?_, ?_⟩
              · simpa [resetRadioFxRadio] using hfreq
              · simpa [resetRadioFxRadio] using htx
            · exact honly p h hpr
        obtain ⟨s', state', hloop, hz⟩ := ih (some key) _ _ hinv' hlt
        refine ⟨s', state', ?_, hz⟩
        simp only [radioLoop, hnext, hact, hat, hrouted, hfreq, hproc]
        simpa using hloop
      · have hinv' : muteInv zeros keys s.mRT onHeadset f s state :=
          ⟨hptt, rfl, hmix, hsorted, hkeys, honly⟩
        obtain ⟨s', state', hloop, hz⟩ := ih (some key) s state hinv' hlt
        refine ⟨s', state', ?_, hz⟩
        simp only [radioLoop, hnext, hact, hat, hrouted]
        simpa using hloop

/-! ### The receive state machine of `_process_radio` -/

theorem mixStream_count (E : Env S Src) (cache : List (String × List S))
    (r : ATCRadioState S) (acc : List S × S × Nat) (p : String × CallsignMeta S Src) :
    (mixStream E cache r acc p).2.2 =
      if usesStream E cache r p then (acc.2.2 + 1) % 2 ^ 32 else acc.2.2 := by
  unfold mixStream usesStream
  cases hact : E.isActive p.2.source with
  | false => simp
  | true =>
    cases hc : streamFind cache p.1 with
    | none => simp
    | some frame =>
      cases hfilt : p.2.transceivers.filter (fun k => k.Frequency == r.Frequency) with
      | nil =>
        have hany : p.2.transceivers.any (fun k => k.Frequency == r.Frequency) = false := by
          rw [List.any_eq_false]
          intro x hx hxe
          have : x ∈ p.2.transceivers.filter (fun k => k.Frequency == r.Frequency) :=
            List.mem_filter.mpr ⟨hx, hxe⟩
          rw [hfilt] at this
          cases this
        simp [hany]
      | cons t0 rest =>
        have hany : p.2.transceivers.any (fun k => k.Frequency == r.Frequency) = true := by
          rw [List.any_eq_true]
          have : t0 ∈ p.2.transceivers.filter (fun k => k.Frequency == r.Frequency) := by
            rw [hfilt]
            exact List.mem_cons_self _ _
          exact ⟨t0, (List.mem_filter.mp this).1, (List.mem_filter.mp this).2⟩
        simp [hany]

theorem foldl_mixStream_count (E : Env S Src) (cache : List (String × List S))
    (r : ATCRadioState S) (streams : List (String × CallsignMeta S Src)) :
    ∀ acc : List S × S × Nat, acc.2.2 < 2 ^ 32 →
      (streams.foldl (mixStream E cache r) acc).2.2 =
        (acc.2.2 + (streams.filter (usesStream E cache r)).length) % 2 ^ 32 := by
  induction streams with
  | nil =>
    intro acc h
    simp only [List.foldl_nil, List.filter_nil, List.length_nil, Nat.add_zero]
    exact (Nat.mod_eq_of_lt h).symm
  | cons p rest ih =>
    intro acc h
    have hstep := mixStream_count E cache r acc p
    by_cases hu : usesStream E cache r p = true
    · simp only [hu, if_true] at hstep
      have hlt : (mixStream E cache r acc p).2.2 < 2 ^ 32 := by
        rw [hstep]
        exact Nat.mod_lt _ (by norm_num)
      rw [List.foldl_cons, ih _ hlt, hstep, List.filter_cons, if_pos hu, List.length_cons]
      rw [Nat.mod_add_mod]
      congr 1
      omega
    · have hu' : usesStream E cache r p = false := by simpa using hu
      simp only [hu', Bool.false_eq_true, if_false] at hstep
      have hlt : (mixStream E cache r acc p).2.2 < 2 ^ 32 := by
        rw [hstep]
        exact h
      rw [List.foldl_cons, ih _ hlt, hstep, List.filter_cons, if_neg hu]

/-- The `concurrentStreams` counter of `_process_radio` is the number of streams
mixed, modulo 2^32. -/
theorem concurrentStreams_eq (E : Env S Src) (r : ATCRadioState S) (p : FramePeriod S Src)
    (chan : List S) :
    (p.streams.foldl (mixStream E p.cache r) (chan, E.zero, 0)).2.2 =
      mixedStreams E r p % 2 ^ 32 := by
  rw [foldl_mixStream_count E p.cache r p.streams _ (by norm_num)]
  simp [mixedStreams]

theorem toInt32_of_lt (n : Nat) (h : n < 2 ^ 31) : toInt32 n = (n : Int) := by
  have h1 : n % 2 ^ 32 = n := Nat.mod_eq_of_lt (by omega)
  unfold toInt32
  rw [h1, if_pos h]

theorem mix_effect_effect (E : Env S Src) (effect : Option (SampleSource S)) (gain : S)
    (state : OutputDeviceState S) :
    (if (mix_effect E effect gain state).1 then (mix_effect E effect gain state).2.1
      else none) = effectAfterMix E effect gain := by
  unfold mix_effect effectAfterMix
  cases effect with
  | none => simp
  | some e =>
    by_cases h : E.lt E.zero gain = true
    · cases hg : e.gen e.pulled <;> simp [h, hg]
    · simp [h]

theorem set_radio_effects_fields (E : Env S Src) (r : ATCRadioState S) (g : S) :
    (set_radio_effects E r g).1.Frequency = r.Frequency ∧
      (set_radio_effects E r g).1.Gain = r.Gain ∧
      (set_radio_effects E r g).1.vhfFilter = r.vhfFilter ∧
      (set_radio_effects E r g).1.mBypassEffects = r.mBypassEffects := by
  unfold set_radio_effects
  simp only []
  split_ifs <;> exact ⟨rfl, rfl, rfl, rfl⟩

/-- The effects are defined exactly for a radio with a filter; they keep the
frequency, the gain, the filter and the bypass flag. -/
theorem applyEffects_fields (E : Env S Src) (r : ATCRadioState S) (g : S)
    (state : OutputDeviceState S) :
    (r.vhfFilter = none → applyEffects E r g state = none) ∧
    (r.vhfFilter.isSome = true → ∃ out, applyEffects E r g state = some out) ∧
    (∀ out, applyEffects E r g state = some out →
      out.1.Frequency = r.Frequency ∧ out.1.Gain = r.Gain ∧
      out.1.vhfFilter.isSome = true ∧ out.1.mBypassEffects = r.mBypassEffects) := by
  cases hf : r.vhfFilter with
  | none =>
    refine ⟨fun _ => by simp [applyEffects, hf], fun h => by simp at h, ?_⟩
    intro out h
    simp [applyEffects, hf] at h
  | some flt =>
    have h := set_radio_effects_fields E
      { r with vhfFilter := some { flt with history := flt.history ++ [state.mChannelBuffer] } } g
    refine ⟨fun h => by simp at h, fun _ => ?_, ?_⟩
    · cases hres : applyEffects E r g state with
      | some out => exact ⟨out, rfl⟩
      | none => simp [applyEffects, hf] at hres
    intro out hout
    simp only [applyEffects, hf, Option.some.injEq] at hout
    rw [← hout]
    refine ⟨h.1, h.2.1, ?_, h.2.2.2⟩
    show ((set_radio_effects E _ g).1.vhfFilter).isSome = true
    rw [h.2.2.1]
    rfl

theorem applyBlockTone_fields (E : Env S Src) (r : ATCRadioState S) (n : Nat)
    (state : OutputDeviceState S) :
    (applyBlockTone E r n state).1.Frequency = r.Frequency ∧
      (applyBlockTone E r n state).1.Gain = r.Gain ∧
      (applyBlockTone E r n state).1.vhfFilter = r.vhfFilter ∧
      (applyBlockTone E r n state).1.mBypassEffects = r.mBypassEffects := by
  unfold applyBlockTone
  split_ifs <;> exact ⟨rfl, rfl, rfl, rfl⟩

theorem finishRadio_fields (E : Env S Src) (r : ATCRadioState S) (n : Nat)
    (state : OutputDeviceState S) :
    (finishRadio E r n state).1.Frequency = r.Frequency ∧
      (finishRadio E r n state).1.Gain = r.Gain ∧
      (finishRadio E r n state).1.vhfFilter = r.vhfFilter ∧
      (finishRadio E r n state).1.mBypassEffects = r.mBypassEffects ∧
      (finishRadio E r n state).1.mLastRxCount = toInt32 n ∧
      (finishRadio E r n state).1.Crackle = r.Crackle ∧
      (finishRadio E r n state).1.BlockTone = r.BlockTone ∧
      (finishRadio E r n state).1.WhiteNoise = r.WhiteNoise ∧
      (finishRadio E r n state).1.Click =
        effectAfterMix E r.Click (E.mul E.fxClickGain r.Gain) := by
  refine ⟨rfl, rfl, rfl, rfl, rfl, rfl, rfl, rfl, ?_⟩
  simp only [finishRadio]
  rw [mix_effect_effect]

/-- The events the receive part of `_process_radio` posts, in terms of the number
of streams mixed in the period: they are posted whether or not the effects are
defined afterwards. -/
theorem receiveRadio_events (E : Env S Src) (p : FramePeriod S Src) (f : Nat)
    (r : ATCRadioState S) (state : OutputDeviceState S) :
    (receiveRadio E p.cache p.streams f r state).1 =
      (if mixedStreams E r p % 2 ^ 32 > 0 then
        (if r.mLastRxCount = 0 then [(ClientEventType.RxOpen, f)] else [])
      else (if r.mLastRxCount > 0 then [(ClientEventType.RxClosed, f)] else [])) := by
  have hc := concurrentStreams_eq E r p state.mChannelBuffer
  have hr1 : (resetRadioFxRadio r true).mLastRxCount = r.mLastRxCount := by
    simp [resetRadioFxRadio]
  by_cases h0 : mixedStreams E r p % 2 ^ 32 > 0
  · simp only [receiveRadio, hc, h0, if_true]
  · by_cases hl : r.mLastRxCount > 0
    · simp only [receiveRadio, hc, h0, if_false, hr1, hl, if_true]
    · simp only [receiveRadio, hc, h0, if_false, hr1, hl]

/-- The receive part of `_process_radio` is defined unless streams are mixed into
a radio that has no filter and does not bypass the effects. -/
theorem receiveRadio_defined (E : Env S Src) (p : FramePeriod S Src) (f : Nat)
    (r : ATCRadioState S) (state : OutputDeviceState S) :
    ((receiveRadio E p.cache p.streams f r state).2 = none ↔
      (mixedStreams E r p % 2 ^ 32 > 0 ∧ r.mBypassEffects = false ∧ r.vhfFilter = none)) := by
  have hc := concurrentStreams_eq E r p state.mChannelBuffer
  have hr1 : (resetRadioFxRadio r true).mLastRxCount = r.mLastRxCount := by
    simp [resetRadioFxRadio]
  by_cases h0 : mixedStreams E r p % 2 ^ 32 > 0
  · simp only [receiveRadio, hc, h0, if_true, true_and]
    generalize (p.streams.foldl (mixStream E p.cache r) (state.mChannelBuffer, E.zero, 0)) = acc
    by_cases hb : r.mBypassEffects = true
    · simp [hb]
    · have hb' : r.mBypassEffects = false := by simpa using hb
      cases hf : r.vhfFilter with
      | none =>
        have hnone := (applyEffects_fields E r acc.2.1
          { state with mChannelBuffer := acc.1 }).1 hf
        simp [hb', hnone]
      | some flt =>
        obtain ⟨out, hout⟩ := (applyEffects_fields E r acc.2.1
          { state with mChannelBuffer := acc.1 }).2.1 (by rw [hf]; rfl)
        simp [hb', hout]
  · simp only [h0, false_and, iff_false]
    by_cases hl : r.mLastRxCount > 0
    · simp only [receiveRadio, hc, h0, if_false, hr1, hl, if_true]
      simp
    · simp only [receiveRadio, hc, h0, if_false, hr1, hl]
      simp

/-- What the receive part of `_process_radio` does to the radio when it is
defined, in terms of the number of streams mixed in the period. -/
theorem receiveRadio_spec (E : Env S Src) (p : FramePeriod S Src) (f : Nat)
    (r : ATCRadioState S) (state : OutputDeviceState S)
    (out : ATCRadioState S × OutputDeviceState S)
    (hout : (receiveRadio E p.cache p.streams f r state).2 = some out) :
    out.1.Frequency = r.Frequency ∧
    out.1.Gain = r.Gain ∧
    out.1.mBypassEffects = r.mBypassEffects ∧
    (r.vhfFilter.isSome = true → out.1.vhfFilter.isSome = true) ∧
    out.1.mLastRxCount = toInt32 (mixedStreams E r p % 2 ^ 32) ∧
    (mixedStreams E r p % 2 ^ 32 = 0 →
      out.1.Crackle = none ∧ out.1.BlockTone = none ∧ out.1.WhiteNoise = r.WhiteNoise ∧
      out.1.Click =
        effectAfterMix E (if r.mLastRxCount > 0 then some E.newClick else r.Click)
          (E.mul E.fxClickGain r.Gain)) := by
  have hc := concurrentStreams_eq E r p state.mChannelBuffer
  have hr1 : (resetRadioFxRadio r true).mLastRxCount = r.mLastRxCount := by
    simp [resetRadioFxRadio]
  by_cases h0 : mixedStreams E r p % 2 ^ 32 > 0
  · have hne : ¬ mixedStreams E r p % 2 ^ 32 = 0 := by omega
    by_cases hb : r.mBypassEffects = true
    · simp only [receiveRadio, hc, h0, if_true, hb, Bool.not_true, Bool.false_eq_true,
        if_false, Option.map_some', Option.some.injEq] at hout
      rw [← hout]
      obtain ⟨f1, f2, f3, f4, f5, _⟩ := finishRadio_fields E
        (applyBlockTone E r (mixedStreams E r p % 2 ^ 32)
          { state with mChannelBuffer :=
            (p.streams.foldl (mixStream E p.cache r) (state.mChannelBuffer, E.zero, 0)).1 }).1
        (mixedStreams E r p % 2 ^ 32)
        (applyBlockTone E r (mixedStreams E r p % 2 ^ 32)
          { state with mChannelBuffer :=
            (p.streams.foldl (mixStream E p.cache r) (state.mChannelBuffer, E.zero, 0)).1 }).2
      obtain ⟨b1, b2, b3, b4⟩ := applyBlockTone_fields E r (mixedStreams E r p % 2 ^ 32)
        { state with mChannelBuffer :=
          (p.streams.foldl (mixStream E p.cache r) (state.mChannelBuffer, E.zero, 0)).1 }
      refine ⟨f1.trans b1, f2.trans b2, f4.trans b4, ?_, f5, fun h => absurd h hne⟩
      intro hflt
      rw [f3, b3]
      exact hflt
    · have hb' : r.mBypassEffects = false := by simpa using hb
      simp only [receiveRadio, hc, h0, if_true, hb', Bool.not_false] at hout
      cases hfx : applyEffects E r
          (p.streams.foldl (mixStream E p.cache r) (state.mChannelBuffer, E.zero, 0)).2.1
          { state with mChannelBuffer :=
            (p.streams.foldl (mixStream E p.cache r) (state.mChannelBuffer, E.zero, 0)).1 } with
      | none =>
        rw [hfx] at hout
        simp at hout
      | some fx =>
        rw [hfx] at hout
        simp only [Option.map_some', Option.some.injEq] at hout
        rw [← hout]
        obtain ⟨a1, a2, a3, a4⟩ := (applyEffects_fields E r _ _).2.2 fx hfx
        obtain ⟨f1, f2, f3, f4, f5, _⟩ := finishRadio_fields E
          (applyBlockTone E fx.1 (mixedStreams E r p % 2 ^ 32) fx.2).1
          (mixedStreams E r p % 2 ^ 32)
          (applyBlockTone E fx.1 (mixedStreams E r p % 2 ^ 32) fx.2).2
        obtain ⟨b1, b2, b3, b4⟩ :=
          applyBlockTone_fields E fx.1 (mixedStreams E r p % 2 ^ 32) fx.2
        refine ⟨f1.trans (b1.trans a1), f2.trans (b2.trans a2), f4.trans (b4.trans a4), ?_, f5,
          fun h => absurd h hne⟩
        intro _
        rw [f3, b3]
        exact a3
  · have hz : mixedStreams E r p % 2 ^ 32 = 0 := by omega
    by_cases hl : r.mLastRxCount > 0
    · have hl' : (resetRadioFxRadio r true).mLastRxCount > 0 := by rw [hr1]; exact hl
      simp only [receiveRadio, hc, hz, gt_iff_lt, lt_irrefl, if_false, hl', if_true,
        Option.some.injEq] at hout
      rw [← hout, hz]
      refine ⟨(finishRadio_fields E _ _ _).1, (finishRadio_fields E _ _ _).2.1,
        (finishRadio_fields E _ _ _).2.2.2.1,
        fun hflt => (congrArg Option.isSome (finishRadio_fields E _ _ _).2.2.1).trans hflt,
        (finishRadio_fields E _ _ _).2.2.2.2.1, fun _ =>
          ⟨(finishRadio_fields E _ _ _).2.2.2.2.2.1, (finishRadio_fields E _ _ _).2.2.2.2.2.2.1,
            (finishRadio_fields E _ _ _).2.2.2.2.2.2.2.1,
            (finishRadio_fields E _ _ _).2.2.2.2.2.2.2.2.trans ?_⟩⟩
      rw [if_pos hl]
      rfl
    · have hl' : ¬ (resetRadioFxRadio r true).mLastRxCount > 0 := by rw [hr1]; exact hl
      simp only [receiveRadio, hc, hz, gt_iff_lt, lt_irrefl, if_false, hl',
        Option.some.injEq] at hout
      rw [← hout, hz]
      refine ⟨(finishRadio_fields E _ _ _).1, (finishRadio_fields E _ _ _).2.1,
        (finishRadio_fields E _ _ _).2.2.2.1,
        fun hflt => (congrArg Option.isSome (finishRadio_fields E _ _ _).2.2.1).trans hflt,
        (finishRadio_fields E _ _ _).2.2.2.2.1, fun _ =>
          ⟨(finishRadio_fields E _ _ _).2.2.2.2.2.1, (finishRadio_fields E _ _ _).2.2.2.2.2.2.1,
            (finishRadio_fields E _ _ _).2.2.2.2.2.2.2.1,
            (finishRadio_fields E _ _ _).2.2.2.2.2.2.2.2.trans ?_⟩⟩
      rw [if_neg hl]
      rfl

theorem mixedStreams_congr (E : Env S Src) (r r' : ATCRadioState S) (p : FramePeriod S Src)
    (h : r.Frequency = r'.Frequency) : mixedStreams E r p = mixedStreams E r' p := by
  have hfun : usesStream E p.cache r = usesStream E p.cache r' := by
    funext q
    simp [usesStream, h]
  simp only [mixedStreams, hfun]

theorem mixedStreams_le (E : Env S Src) (r : ATCRadioState S) (p : FramePeriod S Src) :
    mixedStreams E r p ≤ p.streams.length :=
  List.length_filter_le _ _

/-- Unless PTT is pressed and the radio has `tx`, `_process_radio` on an active
radio runs the receive part: it posts the events and, when the effects are
defined, stores the radio back under its key. -/
theorem process_radio_not_transmitting (E : Env S Src) (cache : List (String × List S))
    (f : Nat) (s : ATCRadioStack S Src) (state : OutputDeviceState S) (r : ATCRadioState S)
    (hgate : (s.mPtt && r.tx) = false) (hr : mapFind s.mRadioState f = some r) :
    _process_radio E cache f s state =
      match (receiveRadio E cache s.mIncomingStreams f r
          { state with mChannelBuffer := List.replicate E.frameSizeSamples E.zero }).2 with
      | some out =>
        .ok (false,
          { s with
            mRadioState := mapPut s.mRadioState f out.1
            events := s.events ++
              (receiveRadio E cache s.mIncomingStreams f r
                { state with
                  mChannelBuffer := List.replicate E.frameSizeSamples E.zero }).1 },
          out.2)
      | none =>
        .error
          { s with
            events := s.events ++
              (receiveRadio E cache s.mIncomingStreams f r
                { state with
                  mChannelBuffer := List.replicate E.frameSizeSamples E.zero }).1 } := by
  have h1 : isFrequencyActive s.mRadioState f = true := by
    simp [isFrequencyActive, mapCount, hr]
  have h2 : mapAt E.defaultRadio s.mRadioState f = r := by simp [mapAt, hr]
  simp [_process_radio, h1, h2, hgate]

/-- One frame period on an active radio, whatever PTT and `tx` are. With PTT
pressed and `tx` set no event is posted and `mLastRxCount` is zeroed. Otherwise the
receive part posts `RxOpen` on the first frame with streams and `RxClosed` on the
first frame without, and `mLastRxCount` becomes the number of streams mixed;
unless streams are mixed into a radio without a filter that does not bypass the
effects: then the frame ends at the dereference of the filter, after the events
have been posted. -/
theorem processPeriod_any (E : Env S Src) (f : Nat)
    (x : ATCRadioStack S Src × OutputDeviceState S) (p : FramePeriod S Src)
    (r : ATCRadioState S) (hr : mapFind x.1.mRadioState f = some r)
    (hbound : mixedStreams E r p < 2 ^ 31) :
    (∃ y r', processPeriod E f x p = .ok y ∧ mapFind y.1.mRadioState f = some r' ∧
      y.1.mPtt = x.1.mPtt ∧ r'.Frequency = r.Frequency ∧ r'.Gain = r.Gain ∧
      r'.mBypassEffects = r.mBypassEffects ∧
      (r.vhfFilter.isSome = true → r'.vhfFilter.isSome = true) ∧
      (if (x.1.mPtt && r.tx) = true then
        y.1.events = x.1.events ∧ r'.mLastRxCount = 0
      else
        y.1.events = x.1.events ++
          (if mixedStreams E r p > 0 then
            (if r.mLastRxCount = 0 then [(ClientEventType.RxOpen, f)] else [])
          else (if r.mLastRxCount > 0 then [(ClientEventType.RxClosed, f)] else [])) ∧
        r'.mLastRxCount = (mixedStreams E r p : Int) ∧
        (mixedStreams E r p = 0 →
          r'.Crackle = none ∧ r'.BlockTone = none ∧ r'.WhiteNoise = r.WhiteNoise ∧
          r'.Click =
            effectAfterMix E (if r.mLastRxCount > 0 then some E.newClick else r.Click)
              (E.mul E.fxClickGain r.Gain)))) ∨
    (∃ s', processPeriod E f x p = .error s' ∧ (x.1.mPtt && r.tx) = false ∧
      0 < mixedStreams E r p ∧ r.mBypassEffects = false ∧ r.vhfFilter = none ∧
      s'.events = x.1.events ++
        (if r.mLastRxCount = 0 then [(ClientEventType.RxOpen, f)] else [])) := by
  have hmod : mixedStreams E r p % 2 ^ 32 = mixedStreams E r p :=
    Nat.mod_eq_of_lt (by omega)
  by_cases hg : (x.1.mPtt && r.tx) = true
  · have hg' := hg
    rw [Bool.and_eq_true] at hg'
    have hproc := process_radio_transmitting E p.cache f
      { x.1 with mIncomingStreams := p.streams } x.2 r hg'.1 hr hg'.2
    left
    refine ⟨({ x.1 with
          mIncomingStreams := p.streams
          mRadioState := mapPut x.1.mRadioState f (resetRadioFxRadio r false) },
        { x.2 with mChannelBuffer := List.replicate E.frameSizeSamples E.zero }),
      resetRadioFxRadio r false, by simp only [processPeriod, hproc],
      mapFind_mapPut_self _ _ _, rfl, by simp [resetRadioFxRadio],
      by simp [resetRadioFxRadio], by simp [resetRadioFxRadio], ?_, ?_⟩
    · intro h
      simpa [resetRadioFxRadio] using h
    · rw [if_pos hg]
      exact ⟨rfl, by simp [resetRadioFxRadio]⟩
  · have hg' : (x.1.mPtt && r.tx) = false := by simpa using hg
    have hproc := process_radio_not_transmitting E p.cache f
      { x.1 with mIncomingStreams := p.streams } x.2 r hg' hr
    have hev := receiveRadio_events E p f r
      { x.2 with mChannelBuffer := List.replicate E.frameSizeSamples E.zero }
    rw [hmod] at hev
    cases hres : (receiveRadio E p.cache p.streams f r
        { x.2 with mChannelBuffer := List.replicate E.frameSizeSamples E.zero }).2 with
    | some out =>
      obtain ⟨h1, h2, h3, h4, h5, h6⟩ := receiveRadio_spec E p f r _ out hres
      rw [hmod] at h5 h6
      rw [toInt32_of_lt _ hbound] at h5
      left
      refine ⟨({ x.1 with
            mIncomingStreams := p.streams
            mRadioState := mapPut x.1.mRadioState f out.1
            events := x.1.events ++
              (receiveRadio E p.cache p.streams f r
                { x.2 with
                  mChannelBuffer := List.replicate E.frameSizeSamples E.zero }).1 },
          out.2), out.1, ?_, mapFind_mapPut_self _ _ _, rfl, h1, h2, h3, h4, ?_⟩
      · simp only [processPeriod, hproc]
        rw [hres]
      · rw [if_neg hg]
        exact ⟨by rw [hev], h5, h6⟩
    | none =>
      obtain ⟨d1, d2, d3⟩ := (receiveRadio_defined E p f r _).mp hres
      rw [hmod] at d1
      right
      refine ⟨{ x.1 with
          mIncomingStreams := p.streams
          events := x.1.events ++
            (receiveRadio E p.cache p.streams f r
              { x.2 with
                mChannelBuffer := List.replicate E.frameSizeSamples E.zero }).1 },
        ?_, hg', d1, d2, d3, ?_⟩
      · simp only [processPeriod, hproc]
        rw [hres]
      · show x.1.events ++ _ = _
        rw [hev, if_pos d1]

/-! ### Frame periods on a radio created by `addFrequency` -/

/-- One frame period on an active radio with PTT released, stored under its own
frequency and holding a filter (or bypassing the effects), as every radio created
by `addFrequency` does: the frame is defined, the radio stays in place with its
frequency, gain and filter, `mLastRxCount` becomes the number of streams mixed,
`RxOpen` is posted on the first frame with streams, and `RxClosed` is posted and
the click armed on the first frame without. -/
theorem processPeriod_spec (E : Env S Src) (f : Nat)
    (x : ATCRadioStack S Src × OutputDeviceState S) (p : FramePeriod S Src)
    (r r0 : ATCRadioState S) (hptt : x.1.mPtt = false)
    (hr : mapFind x.1.mRadioState f = some r) (hfreq : r.Frequency = f)
    (hfreq0 : r0.Frequency = f) (hbound : mixedStreams E r0 p < 2 ^ 31)
    (hfx : (r.vhfFilter.isSome || r.mBypassEffects) = true) :
    ∃ y r', processPeriod E f x p = .ok y ∧ y.1.mPtt = false ∧
      y.1.events = x.1.events ++
        (if mixedStreams E r0 p > 0 then
          (if r.mLastRxCount = 0 then [(ClientEventType.RxOpen, f)] else [])
        else (if r.mLastRxCount > 0 then [(ClientEventType.RxClosed, f)] else [])) ∧
      mapFind y.1.mRadioState f = some r' ∧ r'.Frequency = f ∧
      r'.Gain = r.Gain ∧ r'.mLastRxCount = (mixedStreams E r0 p : Int) ∧
      (r'.vhfFilter.isSome || r'.mBypassEffects) = true ∧
      (mixedStreams E r0 p = 0 → r.mLastRxCount > 0 →
        r'.Click = effectAfterMix E (some E.newClick) (E.mul E.fxClickGain r.Gain)) := by
  have hcong : mixedStreams E r0 p = mixedStreams E r p :=
    mixedStreams_congr E r0 r p (by rw [hfreq, hfreq0])
  have hgate : ¬ (x.1.mPtt && r.tx) = true := by simp [hptt]
  rcases processPeriod_any E f x p r hr (hcong ▸ hbound) with
    ⟨y, r', h1, h2, h3, h4, h5, h6, h7, h8⟩ | ⟨s', _, _, _, e1, e2, _⟩
  · rw [if_neg hgate] at h8
    obtain ⟨h8a, h8b, h8c⟩ := h8
    refine ⟨y, r', h1, h3.trans hptt, ?_, h2, h4.trans hfreq, h5, ?_, ?_, ?_⟩
    · rw [hcong]
      exact h8a
    · rw [hcong]
      exact h8b
    · cases hflt : r.vhfFilter.isSome with
      | true => simp [h7 hflt]
      | false =>
        rw [hflt] at hfx
        have hbyp : r.mBypassEffects = true := by simpa using hfx
        simp [h6, hbyp]
    · intro hz hl
      rw [hcong] at hz
      have := (h8c hz).2.2.2
      rw [if_pos hl] at this
      exact this
  · rw [e1, e2] at hfx
    simp at hfx

/-- While the radio is receiving (`mLastRxCount > 0`), frames that mix at least
one stream post no event. -/
theorem receiving_run (E : Env S Src) (f : Nat) (r0 : ATCRadioState S)
    (hfreq0 : r0.Frequency = f) (g : S) (A : List (FramePeriod S Src)) :
    ∀ (x : ATCRadioStack S Src × OutputDeviceState S) (r : ATCRadioState S),
      x.1.mPtt = false → mapFind x.1.mRadioState f = some r → r.Frequency = f →
      r.Gain = g → r.mLastRxCount > 0 →
      (r.vhfFilter.isSome || r.mBypassEffects) = true →
      (∀ p ∈ A, 0 < mixedStreams E r0 p ∧ mixedStreams E r0 p < 2 ^ 31) →
      (processPeriods E f x A).map (fun y => y.1.events) =
        List.replicate A.length x.1.events ∧
      (processPeriods E f x A).map
          (fun y => (mapAt E.defaultRadio y.1.mRadioState f).mLastRxCount) =
        A.map (fun p => (mixedStreams E r0 p : Int)) ∧
      (∀ C, processPeriods E f x (A ++ C) =
        processPeriods E f x A ++ processPeriods E f (runPeriods E f x A) C) ∧
      (∀ C, runPeriods E f x (A ++ C) = runPeriods E f (runPeriods E f x A) C) ∧
      (runPeriods E f x A).1.mPtt = false ∧ (runPeriods E f x A).1.events = x.1.events ∧
      ∃ r', mapFind (runPeriods E f x A).1.mRadioState f = some r' ∧ r'.Frequency = f ∧
        r'.Gain = g ∧ r'.mLastRxCount > 0 ∧
        (r'.vhfFilter.isSome || r'.mBypassEffects) = true := by
  induction A with
  | nil =>
    intro x r hptt hr hfreq hg hl hfx _
    exact ⟨rfl, rfl, fun _ => rfl, fun _ => rfl, hptt, rfl, r, hr, hfreq, hg, hl, hfx⟩
  | cons a rest ih =>
    intro x r hptt hr hfreq hg hl hfx hA
    obtain ⟨hpos, hb⟩ := hA a (List.mem_cons_self _ _)
    obtain ⟨y, r', s0, s1, s2, s3, s4, s5, s6, s7, _⟩ :=
      processPeriod_spec E f x a r r0 hptt hr hfreq hfreq0 hb hfx
    have hne : ¬ r.mLastRxCount = 0 := by omega
    simp only [hpos, if_true, hne, if_false, List.append_nil] at s2
    have hl' : r'.mLastRxCount > 0 := by rw [s6]; exact_mod_cast hpos
    obtain ⟨i1, i2, i3, i3', i4, i5, i6⟩ := ih y r' s1 s3 s4 (s5.trans hg) hl' s7
      (fun p hp => hA p (List.mem_cons_of_mem _ hp))
    have hrun : runPeriods E f x (a :: rest) = runPeriods E f y rest := by
      simp only [runPeriods, s0]
    have hps : ∀ C, processPeriods E f x (a :: C) = y :: processPeriods E f y C := by
      intro C
      simp only [processPeriods, s0]
    have hrs : ∀ C, runPeriods E f x (a :: C) = runPeriods E f y C := by
      intro C
      simp only [runPeriods, s0]
    refine ⟨?_, ?_, ?_, ?_, ?_, ?_, ?_⟩
    · rw [hps]
      simp only [List.map_cons, i1, s2, List.length_cons, List.replicate_succ]
    · have h0 : (mapAt E.defaultRadio y.1.mRadioState f).mLastRxCount =
          (mixedStreams E r0 a : Int) := by
        simp only [mapAt, s3, Option.getD_some, s6]
      rw [hps]
      simp only [List.map_cons, i2, h0]
    · intro C
      rw [List.cons_append, hps, hps, i3, hrun, List.cons_append]
    · intro C
      rw [List.cons_append, hrs, hrs, i3']
    · rw [hrun]
      exact i4
    · rw [hrun, ← s2]
      exact i5
    · rw [hrun]
      exact i6

/-- While the radio is idle (`mLastRxCount = 0`), frames that mix no stream post no
event. -/
theorem idle_run (E : Env S Src) (f : Nat) (r0 : ATCRadioState S)
    (hfreq0 : r0.Frequency = f) (B : List (FramePeriod S Src)) :
    ∀ (x : ATCRadioStack S Src × OutputDeviceState S) (r : ATCRadioState S),
      x.1.mPtt = false → mapFind x.1.mRadioState f = some r → r.Frequency = f →
      r.mLastRxCount = 0 →
      (r.vhfFilter.isSome || r.mBypassEffects) = true →
      (∀ p ∈ B, mixedStreams E r0 p = 0) →
      (processPeriods E f x B).map (fun y => y.1.events) =
        List.replicate B.length x.1.events ∧
      (processPeriods E f x B).map
          (fun y => (mapAt E.defaultRadio y.1.mRadioState f).mLastRxCount) =
        B.map (fun p => (mixedStreams E r0 p : Int)) := by
  induction B with
  | nil =>
    intro x r _ _ _ _ _ _
    exact ⟨rfl, rfl⟩
  | cons b rest ih =>
    intro x r hptt hr hfreq hl hfx hB
    have hz := hB b (List.mem_cons_self _ _)
    obtain ⟨y, r', s0, s1, s2, s3, s4, _, s6, s7, _⟩ :=
      processPeriod_spec E f x b r r0 hptt hr hfreq hfreq0 (by rw [hz]; norm_num) hfx
    simp only [hz, gt_iff_lt, lt_irrefl, if_false, hl, List.append_nil] at s2
    have hl' : r'.mLastRxCount = 0 := by rw [s6, hz]; rfl
    obtain ⟨i1, i2⟩ := ih y r' s1 s3 s4 hl' s7
      (fun p hp => hB p (List.mem_cons_of_mem _ hp))
    have hps : processPeriods E f x (b :: rest) = y :: processPeriods E f y rest := by
      simp only [processPeriods, s0]
    refine ⟨?_, ?_⟩
    · rw [hps]
      simp only [List.map_cons, i1, s2, List.length_cons, List.replicate_succ]
    · have h0 : (mapAt E.defaultRadio y.1.mRadioState f).mLastRxCount =
          (mixedStreams E r0 b : Int) := by
        simp only [mapAt, s3, Option.getD_some, s6]
      rw [hps]
      simp only [List.map_cons, i2, h0]

/-! ### Interleavings of frames with PTT and `tx` changes -/

/-- One step of an interleaving, in the terms of `processPeriod_any`. -/
theorem processStep_spec (E : Env S Src) (f : Nat)
    (x : ATCRadioStack S Src × OutputDeviceState S) (st : RxStep S Src)
    (r : ATCRadioState S) (hr : mapFind x.1.mRadioState f = some r)
    (hbound : mixedStreams E r st.period < 2 ^ 31) :
    (∃ y r', processStep E f x st = .ok y ∧ mapFind y.1.mRadioState f = some r' ∧
      r'.Frequency = r.Frequency ∧
      (if (st.ptt && st.tx) = true then
        y.1.events = x.1.events ∧ r'.mLastRxCount = 0
      else
        y.1.events = x.1.events ++
          (if mixedStreams E r st.period > 0 then
            (if r.mLastRxCount = 0 then [(ClientEventType.RxOpen, f)] else [])
          else (if r.mLastRxCount > 0 then [(ClientEventType.RxClosed, f)] else [])) ∧
        r'.mLastRxCount = (mixedStreams E r st.period : Int))) ∨
    (∃ s', processStep E f x st = .error s' ∧ (st.ptt && st.tx) = false ∧
      0 < mixedStreams E r st.period ∧
      s'.events = x.1.events ++
        (if r.mLastRxCount = 0 then [(ClientEventType.RxOpen, f)] else [])) := by
  have hm : mapFind (mapModify E.defaultRadio x.1.mRadioState f
      (fun r => { r with tx := st.tx })) f = some { r with tx := st.tx } := by
    simp [mapModify, mapAt, hr, mapFind_mapPut_self]
  have hcong : mixedStreams E { r with tx := st.tx } st.period = mixedStreams E r st.period :=
    mixedStreams_congr E _ _ st.period rfl
  have h := processPeriod_any E f
    ({ x.1 with
        mPtt := st.ptt
        mRadioState :=
          mapModify E.defaultRadio x.1.mRadioState f (fun r => { r with tx := st.tx }) },
      x.2)
    st.period { r with tx := st.tx } hm (by rw [hcong]; exact hbound)
  rw [hcong] at h
  rcases h with ⟨y, r', h1, h2, _, h3, _, _, _, h4⟩ | ⟨s', h1, h2, h3, _, _, h4⟩
  · left
    refine ⟨y, r', h1, h2, h3, ?_⟩
    by_cases hg : (st.ptt && st.tx) = true
    · rw [if_pos hg]
      rw [if_pos (by exact hg)] at h4
      exact h4
    · rw [if_neg hg]
      rw [if_neg (by exact hg)] at h4
      exact ⟨h4.1, h4.2.1⟩
  · right
    exact ⟨s', h1, h2, h3, h4⟩

theorem closesFollowOpens_mono {α : Type} [DecidableEq α] (a b : α) (opened : Bool)
    (l : List α) (h : closesFollowOpens a b false l = true) :
    closesFollowOpens a b opened l = true := by
  cases l with
  | nil => rfl
  | cons x rest =>
    by_cases hx : x = b
    · simp [closesFollowOpens, hx] at h
    · simp only [closesFollowOpens, hx, if_false] at h ⊢
      exact h

/-- The events an interleaving posts for a radio that stays in the map: every
`RxClosed` directly follows an `RxOpen` (or finds the radio receiving at the
start), and when no frame is processed with PTT pressed and `tx` set the events
alternate, beginning with the one opposite to the radio's state. This holds for
the events posted up to the dereference of a missing filter, where the run ends. -/
theorem runSteps_spec (E : Env S Src) (f : Nat) (r0 : ATCRadioState S)
    (steps : List (RxStep S Src)) :
    ∀ (x : ATCRadioStack S Src × OutputDeviceState S) (r : ATCRadioState S),
      mapFind x.1.mRadioState f = some r → r.Frequency = r0.Frequency →
      0 ≤ r.mLastRxCount →
      (∀ st ∈ steps, mixedStreams E r0 st.period < 2 ^ 31) →
      ∃ evs, (runSteps E f x steps).1.events = x.1.events ++ evs ∧
        closesFollowOpens (ClientEventType.RxOpen, f) (ClientEventType.RxClosed, f)
          (decide (r.mLastRxCount > 0)) evs = true ∧
        ((∀ st ∈ steps, (st.ptt && st.tx) = false) →
          (if r.mLastRxCount > 0 then
            alternates (ClientEventType.RxClosed, f) (ClientEventType.RxOpen, f) evs
          else alternates (ClientEventType.RxOpen, f) (ClientEventType.RxClosed, f) evs)
            = true) := by
  induction steps with
  | nil =>
    intro x r _ _ _ _
    refine ⟨[], by simp [runSteps], rfl, ?_⟩
    intro _
    split_ifs <;> rfl
  | cons st rest ih =>
    intro x r hr hfreq hnn hb
    have hcong : mixedStreams E r st.period = mixedStreams E r0 st.period :=
      mixedStreams_congr E r r0 st.period hfreq
    have hstep := processStep_spec E f x st r hr
      (by rw [hcong]; exact hb st (List.mem_cons_self _ _))
    rw [hcong] at hstep
    have hb' : ∀ st' ∈ rest, mixedStreams E r0 st'.period < 2 ^ 31 :=
      fun st' h => hb st' (List.mem_cons_of_mem _ h)
    rcases hstep with ⟨y, r', s0, s1, s2, s3⟩ | ⟨s', s0, _, e2, e3⟩
    · have hrun : runSteps E f x (st :: rest) = runSteps E f y rest := by
        simp only [runSteps, s0]
      by_cases hg : (st.ptt && st.tx) = true
      · rw [if_pos hg] at s3
        obtain ⟨e1, c1⟩ := s3
        obtain ⟨evs, i1, i2, _⟩ := ih y r' s1 (s2.trans hfreq) (by rw [c1]) hb'
        refine ⟨evs, ?_, ?_, ?_⟩
        · rw [hrun, i1, e1]
        · rw [c1] at i2
          exact closesFollowOpens_mono _ _ _ _ i2
        · intro hno
          have := hno st (List.mem_cons_self _ _)
          rw [hg] at this
          cases this
      · rw [if_neg hg] at s3
        obtain ⟨e1, c1⟩ := s3
        obtain ⟨evs, i1, i2, i3⟩ := ih y r' s1 (s2.trans hfreq)
          (by rw [c1]; exact Int.natCast_nonneg _) hb'
        by_cases hpos : mixedStreams E r0 st.period > 0
        · have hpos' : r'.mLastRxCount > 0 := by rw [c1]; exact_mod_cast hpos
          simp only [hpos', decide_True, if_true] at i2 i3
          by_cases hc0 : r.mLastRxCount = 0
          · simp only [hpos, if_true, hc0] at e1
            refine ⟨(ClientEventType.RxOpen, f) :: evs, ?_, ?_, ?_⟩
            · rw [hrun, i1, e1, List.append_assoc]
              rfl
            · simpa [closesFollowOpens] using i2
            · intro hno
              have h3 := i3 (fun st' h => hno st' (List.mem_cons_of_mem _ h))
              simpa [hc0, alternates] using h3
          · have hc1 : r.mLastRxCount > 0 := by omega
            simp only [hpos, if_true, hc0, if_false, List.append_nil] at e1
            refine ⟨evs, ?_, ?_, ?_⟩
            · rw [hrun, i1, e1]
            · simpa [hc1] using i2
            · intro hno
              have h3 := i3 (fun st' h => hno st' (List.mem_cons_of_mem _ h))
              simpa [hc1] using h3
        · have hz : mixedStreams E r0 st.period = 0 := by omega
          have hz' : r'.mLastRxCount = 0 := by rw [c1, hz]; rfl
          simp only [hz', gt_iff_lt, lt_irrefl, decide_False, if_false] at i2 i3
          by_cases hc1 : r.mLastRxCount > 0
          · simp only [hz, gt_iff_lt, lt_irrefl, if_false, hc1, if_true] at e1
            refine ⟨(ClientEventType.RxClosed, f) :: evs, ?_, ?_, ?_⟩
            · rw [hrun, i1, e1, List.append_assoc]
              rfl
            · simpa [closesFollowOpens, hc1] using i2
            · intro hno
              have h3 := i3 (fun st' h => hno st' (List.mem_cons_of_mem _ h))
              simpa [hc1, alternates] using h3
          · have hc0 : r.mLastRxCount = 0 := by omega
            simp only [hz, gt_iff_lt, lt_irrefl, if_false, hc1, List.append_nil] at e1
            refine ⟨evs, ?_, ?_, ?_⟩
            · rw [hrun, i1, e1]
            · simpa [hc0] using i2
            · intro hno
              have h3 := i3 (fun st' h => hno st' (List.mem_cons_of_mem _ h))
              simpa [hc0] using h3
    · have hrun : runSteps E f x (st :: rest) = (s', x.2) := by
        simp only [runSteps, s0]
      by_cases hc0 : r.mLastRxCount = 0
      · rw [if_pos hc0] at e3
        refine ⟨[(ClientEventType.RxOpen, f)], ?_, ?_, ?_⟩
        · rw [hrun]
          exact e3
        · simp [closesFollowOpens]
        · intro _
          simp [hc0, alternates]
      · rw [if_neg hc0] at e3
        refine ⟨[], ?_, rfl, ?_⟩
        · rw [hrun]
          exact e3
        · intro _
          split_ifs <;> rfl

/-- PTT self-mute on a radio whose `Frequency` field is its key. In every state
with PTT pressed and an active radio `r` stored under `f` with `tx = true` and
`Frequency = f`, whatever the inbound streams and the cached frames:
`_process_radio` on `f` returns true, leaves the device's mixing buffer and the
event log as they were; and if every radio routed to the device role is that
radio, `getAudioFrame` returns a frame of `frameSizeSamples` zeros. -/
theorem ptt_self_mute_of_frequency_key (E : Env S Src) (s : ATCRadioStack S Src) (f : Nat)
    (r : ATCRadioState S) (cache : List (String × List S)) (state : OutputDeviceState S)
    (onHeadset : Bool) (hptt : s.mPtt = true) (hs : keysSorted s.mRadioState)
    (hr : mapFind s.mRadioState f = some r) (htx : r.tx = true) (hfreq : r.Frequency = f) :
    (∃ s' state', _process_radio E cache f s state = .ok (true, s', state') ∧
      state'.mMixingBuffer = state.mMixingBuffer ∧ s'.events = s.events) ∧
    ((∀ p ∈ s.mRadioState, routedTo onHeadset p.2.onHeadset s.mRT = true → p.1 = f) →
      ∃ s', getAudioFrame E s onHeadset =
        some (List.replicate E.frameSizeSamples E.zero, s')) := by
  constructor
  · exact ⟨_, _, process_radio_transmitting E cache f s state r hptt hr htx, rfl, rfl⟩
  · intro honly
    have hinv : muteInv (List.replicate E.frameSizeSamples E.zero)
        (s.mRadioState.map Prod.fst) s.mRT onHeadset f
        { s with
          mIncomingStreams :=
            (s.mIncomingStreams.foldl (prefetchStep E s.mRadioState s.mRT onHeadset)
              ([], [], 0)).1
          IncomingAudioStreams :=
            (s.mIncomingStreams.foldl (prefetchStep E s.mRadioState s.mRT onHeadset)
              ([], [], 0)).2.2 }
        { (if onHeadset then s.mHeadsetState else s.mSpeakerState) with
          mMixingBuffer := List.replicate E.frameSizeSamples E.zero } := by
      refine ⟨hptt, rfl, rfl, hs, rfl, ?_⟩
      intro p hp hrouted
      have hk : p.1 = f := honly p hp hrouted
      have hp' : mapFind s.mRadioState p.1 = some p.2 :=
        mapFind_of_mem_sorted _ _ _ hs hp
      rw [hk, hr] at hp'
      have hp2 : p.2 = r := (Option.some.inj hp').symm
      exact ⟨hk, by rw [hp2]; exact hfreq, by rw [hp2]; exact htx⟩
    have hfuel : pendingKeys (s.mRadioState.map Prod.fst) none <
        2 * s.mRadioState.length + 2 := by
      simp only [pendingKeys, List.length_map]
      omega
    obtain ⟨s', state', hloop, hz⟩ :=
      radioLoop_muted E _ onHeadset _ _ s.mRT f _ none _ _ hinv hfuel
    unfold getAudioFrame
    simp only []
    rw [hloop]
    simp only [hz]
    exact ⟨_, rfl⟩

/-- Receive open/close events on a radio created by `addFrequency`. An active
radio `r` on `f`, stored under its own frequency and holding a filter (or
bypassing the effects), is idle (`mLastRxCount = 0`) and PTT is released. The
mixer processes it over the frame periods `a :: A` (at least one), each mixing at
least one stream with a transceiver on `f` (and fewer than 2^31), followed by the
periods `b :: B` (at least one), each mixing none. Then every frame is defined
(one state per period), the event log after each period shows `RxOpen(f)` posted
once, on the first period of `a :: A`, and `RxClosed(f)` posted once, on the first
period of `b :: B`; after every period `mLastRxCount` is the number of streams
mixed in that period; and on the period `b` the click is armed: the radio's click
is a fresh click instance after its first mix. -/
theorem receive_open_close_of_added_radio (E : Env S Src) (s : ATCRadioStack S Src)
    (dev : OutputDeviceState S) (f : Nat) (r : ATCRadioState S)
    (a : FramePeriod S Src) (A : List (FramePeriod S Src))
    (b : FramePeriod S Src) (B : List (FramePeriod S Src))
    (hptt : s.mPtt = false) (hr : mapFind s.mRadioState f = some r)
    (hfreq : r.Frequency = f) (hidle : r.mLastRxCount = 0)
    (hfx : (r.vhfFilter.isSome || r.mBypassEffects) = true)
    (hA : ∀ p ∈ a :: A, 0 < mixedStreams E r p ∧ mixedStreams E r p < 2 ^ 31)
    (hB : ∀ p ∈ b :: B, mixedStreams E r p = 0) :
    (processPeriods E f (s, dev) (a :: A ++ b :: B)).map (fun y => y.1.events) =
      List.replicate (A.length + 1) (s.events ++ [(ClientEventType.RxOpen, f)]) ++
        List.replicate (B.length + 1)
          (s.events ++ [(ClientEventType.RxOpen, f)] ++ [(ClientEventType.RxClosed, f)]) ∧
    (processPeriods E f (s, dev) (a :: A ++ b :: B)).map
        (fun y => (mapAt E.defaultRadio y.1.mRadioState f).mLastRxCount) =
      (a :: A ++ b :: B).map (fun p => (mixedStreams E r p : Int)) ∧
    (mapAt E.defaultRadio (runPeriods E f (s, dev) (a :: A ++ [b])).1.mRadioState f).Click =
      effectAfterMix E (some E.newClick) (E.mul E.fxClickGain r.Gain) := by
  -- the first period with streams
  obtain ⟨hpa, hba⟩ := hA a (List.mem_cons_self _ _)
  obtain ⟨y1, r1, a0, a1, a2, a3, a4, a5, a6, a7, _⟩ :=
    processPeriod_spec E f (s, dev) a r r hptt hr hfreq hfreq hba hfx
  simp only [hpa, if_true, hidle] at a2
  have hl1 : r1.mLastRxCount > 0 := by rw [a6]; exact_mod_cast hpa
  -- the remaining periods with streams
  obtain ⟨c1, c2, c3, c3', c4, c5, r2, c6, c7, c8, c9, c10⟩ :=
    receiving_run E f r hfreq r.Gain A y1 r1 a1 a3 a4 a5 hl1 a7
      (fun p hp => hA p (List.mem_cons_of_mem _ hp))
  -- the first period without streams
  have hzb := hB b (List.mem_cons_self _ _)
  obtain ⟨y3, r3, b0, b1, b2, b3, b4, _, b6, b7, b8⟩ :=
    processPeriod_spec E f (runPeriods E f y1 A) b r2 r c4 c6 c7 hfreq
      (by rw [hzb]; norm_num) c10
  simp only [hzb, gt_iff_lt, lt_irrefl, if_false, c9, if_true, c5, a2] at b2
  have hl3 : r3.mLastRxCount = 0 := by rw [b6, hzb]; rfl
  -- the remaining periods without streams
  obtain ⟨d1, d2⟩ :=
    idle_run E f r hfreq B y3 r3 b1 b3 b4 hl3 b7
      (fun p hp => hB p (List.mem_cons_of_mem _ hp))
  have hsplit : processPeriods E f (s, dev) (a :: A ++ b :: B) =
      y1 :: (processPeriods E f y1 A ++ (y3 :: processPeriods E f y3 B)) := by
    rw [List.cons_append]
    simp only [processPeriods, a0]
    rw [c3]
    simp only [processPeriods, b0]
  have hlast1 : (mapAt E.defaultRadio y1.1.mRadioState f).mLastRxCount =
      (mixedStreams E r a : Int) := by
    simp only [mapAt, a3, Option.getD_some, a6]
  have hlast3 : (mapAt E.defaultRadio y3.1.mRadioState f).mLastRxCount =
      (mixedStreams E r b : Int) := by
    simp only [mapAt, b3, Option.getD_some, b6]
  refine ⟨?_, ?_, ?_⟩
  · rw [hsplit]
    simp only [List.map_cons, List.map_append, c1, d1, a2, b2, List.replicate_succ,
      List.cons_append]
  · rw [hsplit]
    simp only [List.map_cons, List.map_append, c2, d2, hlast1, hlast3, List.cons_append]
  · have hrun : runPeriods E f (s, dev) (a :: A ++ [b]) = y3 := by
      rw [List.cons_append]
      simp only [runPeriods, a0]
      rw [c3']
      simp only [runPeriods, b0]
    rw [hrun]
    simp only [mapAt, b3, Option.getD_some]
    rw [b8 hzb c9, c8]

end MixerLemmas

/-! ## Lemmas on the transmit path -/

section TransmitLemmas
variable {S Src : Type}

theorem putAudioFrame_idle (s : ATCRadioStack S Src) (bufferIn : List S)
    (delivered : List (List Nat)) (hptt : s.mPtt = false) (hlast : s.mLastFramePtt = false)
    (hrec : s.mAtisRecord = false) (hplay : s.mAtisPlayback = false) :
    putAudioFrame s bufferIn delivered =
      some { s with mTxSequence := (s.mTxSequence + 1) % 2 ^ 32 } := by
  simp [putAudioFrame, hptt, hlast, hrec, hplay]

theorem foldl_processCompressedFrame_closed (frames : List (List Nat))
    (s : ATCRadioStack S Src) (hclosed : s.channelOpen = false)
    (hrec : s.mAtisRecord = false) : frames.foldl processCompressedFrame s = s := by
  induction frames with
  | nil => rfl
  | cons f rest ih =>
    have h1 : processCompressedFrame s f = s := by
      simp [processCompressedFrame, hclosed, hrec]
    rw [List.foldl_cons, h1, ih]

theorem foldl_processCompressedFrame_recording (frames : List (List Nat)) :
    ∀ s : ATCRadioStack S Src, s.mAtisRecord = true →
      frames.foldl processCompressedFrame s =
        { s with mStoredAtisData := s.mStoredAtisData ++ frames } := by
  induction frames with
  | nil => intro s _; simp
  | cons f rest ih =>
    intro s hrec
    have h1 : processCompressedFrame s f =
        { s with mStoredAtisData := s.mStoredAtisData ++ [f] } := by
      simp [processCompressedFrame, hrec]
    rw [List.foldl_cons, h1, ih _ (by exact hrec)]
    simp

theorem sentInOrder_send (s : ATCRadioStack S Src) (dto : AudioTxOnTransceivers)
    (h : sentInOrder s) (hc : dto.SequenceCounter = s.mTxSequence)
    (hwrap : s.mTxSequence + 1 < 2 ^ 32) (s' : ATCRadioStack S Src)
    (hsent : s'.sent = s.sent ++ [dto]) (hseq : s'.mTxSequence = (s.mTxSequence + 1) % 2 ^ 32) :
    sentInOrder s' ∧ s'.mTxSequence = s.mTxSequence + 1 := by
  have hs : s'.mTxSequence = s.mTxSequence + 1 := by
    rw [hseq]; exact Nat.mod_eq_of_lt hwrap
  refine ⟨⟨?_, ?_⟩, hs⟩
  · simp only [sentCounters, hsent, List.map_append, List.map_cons, List.map_nil]
    rw [List.pairwise_append]
    refine ⟨h.1, by simp, ?_⟩
    intro a ha b hb
    simp only [List.mem_singleton] at hb
    subst hb
    rw [hc]
    exact h.2 a ha
  · intro c hcm
    simp only [sentCounters, hsent, List.map_append, List.map_cons, List.map_nil,
      List.mem_append, List.mem_singleton] at hcm
    rw [hs]
    rcases hcm with hcm | hcm
    · exact Nat.lt_succ_of_lt (h.2 c hcm)
    · rw [hcm, hc]; exact Nat.lt_succ_self _

theorem sentInOrder_processCompressedFrame (s : ATCRadioStack S Src) (data : List Nat)
    (h : sentInOrder s) (hwrap : s.mTxSequence + 1 < 2 ^ 32) :
    sentInOrder (processCompressedFrame s data) ∧
      s.mTxSequence ≤ (processCompressedFrame s data).mTxSequence ∧
      (processCompressedFrame s data).mTxSequence ≤ s.mTxSequence + 1 := by
  unfold processCompressedFrame
  by_cases hrec : s.mAtisRecord = true
  · simp only [hrec, if_true]
    exact ⟨h, le_refl _, Nat.le_succ _⟩
  · by_cases hopen : s.channelOpen = true
    · simp only [hrec, hopen, if_true, Bool.false_eq_true, if_false]
      refine ⟨And.left (sentInOrder_send s _ h rfl hwrap _ rfl rfl), ?_, ?_⟩
      · show s.mTxSequence ≤ (s.mTxSequence + 1) % 2 ^ 32
        omega
      · show (s.mTxSequence + 1) % 2 ^ 32 ≤ s.mTxSequence + 1
        omega
    · simp only [hrec, hopen, Bool.false_eq_true, if_false]
      exact ⟨h, le_refl _, Nat.le_succ _⟩

theorem sentInOrder_foldl (frames : List (List Nat)) :
    ∀ s : ATCRadioStack S Src, sentInOrder s → s.mTxSequence + frames.length < 2 ^ 32 →
      sentInOrder (frames.foldl processCompressedFrame s) ∧
        s.mTxSequence ≤ (frames.foldl processCompressedFrame s).mTxSequence ∧
        (frames.foldl processCompressedFrame s).mTxSequence ≤ s.mTxSequence + frames.length := by
  induction frames with
  | nil => intro s h _; exact ⟨h, le_refl _, le_refl _⟩
  | cons f rest ih =>
    intro s h hwrap
    simp only [List.length_cons] at hwrap
    obtain ⟨h1, h2, h3⟩ := sentInOrder_processCompressedFrame s f h (by omega)
    obtain ⟨i1, i2, i3⟩ := ih (processCompressedFrame s f) h1 (by omega)
    simp only [List.foldl_cons, List.length_cons]
    exact ⟨i1, by omega, by omega⟩

theorem sentInOrder_sendCachedAtisFrame (s s' : ATCRadioStack S Src)
    (h : sentInOrder s) (hwrap : s.mTxSequence + 1 < 2 ^ 32)
    (hrun : sendCachedAtisFrame s = some s') :
    sentInOrder s' ∧ s.mTxSequence ≤ s'.mTxSequence ∧ s'.mTxSequence ≤ s.mTxSequence + 1 ∧
      s'.mPtt = s.mPtt ∧ s'.mLastFramePtt = s.mLastFramePtt ∧
      s'.mAtisRecord = s.mAtisRecord ∧ s'.mAtisPlayback = s.mAtisPlayback := by
  unfold sendCachedAtisFrame at hrun
  by_cases hopen : s.channelOpen = true
  · simp only [hopen, if_true] at hrun
    cases hget : s.mStoredAtisData[s.cacheNum]? with
    | none => simp [hget] at hrun
    | some audio =>
      simp only [hget, Option.some.injEq] at hrun
      subst hrun
      refine ⟨And.left (sentInOrder_send s _ h rfl hwrap _ rfl rfl), ?_, ?_, rfl, rfl, rfl, rfl⟩
      · show s.mTxSequence ≤ (s.mTxSequence + 1) % 2 ^ 32
        omega
      · show (s.mTxSequence + 1) % 2 ^ 32 ≤ s.mTxSequence + 1
        omega
  · simp only [hopen, Bool.false_eq_true, if_false, Option.some.injEq] at hrun
    subst hrun
    exact ⟨h, le_refl _, Nat.le_succ _, rfl, rfl, rfl, rfl⟩

theorem sentInOrder_putAudioFrame (s s' : ATCRadioStack S Src) (bufferIn : List S)
    (delivered : List (List Nat)) (h : sentInOrder s)
    (hwrap : s.mTxSequence + (1 + delivered.length) < 2 ^ 32)
    (hrun : putAudioFrame s bufferIn delivered = some s') :
    sentInOrder s' ∧ s.mTxSequence ≤ s'.mTxSequence ∧
      s'.mTxSequence ≤ s.mTxSequence + (1 + delivered.length) := by
  unfold putAudioFrame at hrun
  -- the state after the playback send, if any
  have hfirst : ∀ s1, (if s.mAtisPlayback then sendCachedAtisFrame s else some s) = some s1 →
      sentInOrder s1 ∧ s.mTxSequence ≤ s1.mTxSequence ∧ s1.mTxSequence ≤ s.mTxSequence + 1 ∧
      (s1.mAtisPlayback = false → s1 = s) := by
    intro s1 h1
    by_cases hplay : s.mAtisPlayback = true
    · simp only [hplay, if_true] at h1
      obtain ⟨a, b, c, _, _, _, e⟩ := sentInOrder_sendCachedAtisFrame s s1 h (by omega) h1
      refine ⟨a, b, c, ?_⟩
      intro hp
      rw [e, hplay] at hp
      cases hp
    · simp only [hplay, Bool.false_eq_true, if_false, Option.some.injEq] at h1
      subst h1
      exact ⟨h, le_refl _, Nat.le_succ _, fun _ => rfl⟩
  cases hs1 : (if s.mAtisPlayback then sendCachedAtisFrame s else some s) with
  | none => simp [hs1] at hrun
  | some s1 =>
    obtain ⟨a, b, c, e⟩ := hfirst s1 hs1
    simp only [hs1] at hrun
    by_cases hidle : (!s1.mPtt && !s1.mLastFramePtt && !s1.mAtisRecord) = true
    · simp only [hidle, if_true, Option.some.injEq] at hrun
      by_cases hplay : s1.mAtisPlayback = true
      · simp only [hplay, Bool.not_true, Bool.false_eq_true, if_false] at hrun
        subst hrun
        exact ⟨a, b, by omega⟩
      · have hplay' : s1.mAtisPlayback = false := by simpa using hplay
        simp only [hplay', Bool.not_false, if_true] at hrun
        have hs : s1 = s := e hplay'
        subst hs
        subst hrun
        have hmod : (s1.mTxSequence + 1) % 2 ^ 32 = s1.mTxSequence + 1 :=
          Nat.mod_eq_of_lt (by omega)
        refine ⟨⟨h.1, ?_⟩, ?_, ?_⟩
        · intro x hx
          have := h.2 x hx
          show x < (s1.mTxSequence + 1) % 2 ^ 32
          omega
        · show s1.mTxSequence ≤ (s1.mTxSequence + 1) % 2 ^ 32
          omega
        · show (s1.mTxSequence + 1) % 2 ^ 32 ≤ _
          omega
    · simp only [hidle, Bool.false_eq_true, if_false, Option.some.injEq] at hrun
      subst hrun
      have hin : sentInOrder { s1 with compressorInput := s1.compressorInput ++ [bufferIn] } := a
      obtain ⟨i1, i2, i3⟩ := sentInOrder_foldl delivered _ hin
        (by show s1.mTxSequence + delivered.length < 2 ^ 32; omega)
      refine ⟨i1, ?_, ?_⟩
      · have : s1.mTxSequence ≤ _ := i2
        omega
      · have : _ ≤ s1.mTxSequence + delivered.length := i3
        omega

theorem sentInOrder_applyTxOp (s s' : ATCRadioStack S Src) (op : TxOp S)
    (h : sentInOrder s) (hnr : op.isReset = false)
    (hwrap : s.mTxSequence + op.ticks < 2 ^ 32) (hrun : applyTxOp s op = some s') :
    sentInOrder s' ∧ s'.mTxSequence ≤ s.mTxSequence + op.ticks := by
  cases op with
  | putAudioFrame bufferIn delivered =>
    have := sentInOrder_putAudioFrame s s' bufferIn delivered h hwrap hrun
    exact ⟨this.1, this.2.2⟩
  | processCompressedFrame data =>
    simp only [applyTxOp, Option.some.injEq] at hrun
    subst hrun
    have := sentInOrder_processCompressedFrame s data h hwrap
    exact ⟨this.1, this.2.2⟩
  | sendCachedAtisFrame =>
    have := sentInOrder_sendCachedAtisFrame s s' h hwrap hrun
    exact ⟨this.1, this.2.2.1⟩
  | setPtt pressed =>
    simp only [applyTxOp, Option.some.injEq] at hrun
    subst hrun
    exact ⟨h, Nat.le_add_right _ _⟩
  | setRecordAtis pressed =>
    simp only [applyTxOp, Option.some.injEq] at hrun
    subst hrun
    refine ⟨?_, ?_⟩
    · unfold setRecordAtis
      split_ifs <;> exact h
    · unfold setRecordAtis
      split_ifs <;> exact Nat.le_add_right _ _
  | startAtisPlayback cs =>
    simp only [applyTxOp, Option.some.injEq] at hrun
    subst hrun
    refine ⟨?_, ?_⟩
    · unfold startAtisPlayback
      split_ifs <;> exact h
    · unfold startAtisPlayback
      split_ifs <;> exact Nat.le_add_right _ _
  | stopAtisPlayback =>
    simp only [applyTxOp, Option.some.injEq] at hrun
    subst hrun
    exact ⟨h, Nat.le_add_right _ _⟩
  | setChannelOpen isOpen =>
    simp only [applyTxOp, Option.some.injEq] at hrun
    subst hrun
    exact ⟨h, Nat.le_add_right _ _⟩
  | reset => simp [TxOp.isReset] at hnr

theorem sentInOrder_runTxOps (ops : List (TxOp S)) :
    ∀ (s s' : ATCRadioStack S Src), sentInOrder s →
      (∀ op ∈ ops, op.isReset = false) →
      s.mTxSequence + (ops.map TxOp.ticks).sum < 2 ^ 32 →
      runTxOps s ops = some s' → sentInOrder s' := by
  induction ops with
  | nil =>
    intro s s' h _ _ hrun
    simp only [runTxOps, Option.some.injEq] at hrun
    subst hrun
    exact h
  | cons op rest ih =>
    intro s s' h hnr hwrap hrun
    simp only [List.map_cons, List.sum_cons] at hwrap
    simp only [runTxOps] at hrun
    cases hstep : applyTxOp s op with
    | none => simp [hstep] at hrun
    | some s1 =>
      simp only [hstep] at hrun
      obtain ⟨h1, h2⟩ := sentInOrder_applyTxOp s s1 op h (hnr op (List.mem_cons_self _ _))
        (by omega) hstep
      exact ih s1 s' h1 (fun o ho => hnr o (List.mem_cons_of_mem _ ho)) (by omega) hrun

/-! ### PTT bursts -/

/-- A frame captured with PTT pressed on an open channel, record and playback
inactive, whose compression delivers one frame: one datagram with
`LastPacket = false` is sent. -/
theorem putAudioFrame_pressed (s : ATCRadioStack S Src) (bufferIn : List S)
    (data : List Nat) (hptt : s.mPtt = true) (hopen : s.channelOpen = true)
    (hrec : s.mAtisRecord = false) (hplay : s.mAtisPlayback = false) :
    putAudioFrame s bufferIn [data] =
      some { s with
        compressorInput := s.compressorInput ++ [bufferIn]
        mLastFramePtt := true
        mTxSequence := (s.mTxSequence + 1) % 2 ^ 32
        sent := s.sent ++
          [{ SequenceCounter := s.mTxSequence
             Callsign := s.mCallsign
             Audio := data
             LastPacket := false
             Transceivers := txTransceivers (fun r => r.tx) s.mRadioState }] } := by
  simp [putAudioFrame, processCompressedFrame, hptt, hopen, hrec, hplay]

/-- The first frame captured after PTT is released: one datagram with
`LastPacket = true` is sent and `mLastFramePtt` is cleared. -/
theorem putAudioFrame_released (s : ATCRadioStack S Src) (bufferIn : List S)
    (data : List Nat) (hptt : s.mPtt = false) (hlast : s.mLastFramePtt = true)
    (hopen : s.channelOpen = true) (hrec : s.mAtisRecord = false)
    (hplay : s.mAtisPlayback = false) :
    putAudioFrame s bufferIn [data] =
      some { s with
        compressorInput := s.compressorInput ++ [bufferIn]
        mLastFramePtt := false
        mTxSequence := (s.mTxSequence + 1) % 2 ^ 32
        sent := s.sent ++
          [{ SequenceCounter := s.mTxSequence
             Callsign := s.mCallsign
             Audio := data
             LastPacket := true
             Transceivers := txTransceivers (fun r => r.tx) s.mRadioState }] } := by
  simp [putAudioFrame, processCompressedFrame, hptt, hlast, hopen, hrec, hplay]

/-- Idle frames change nothing but the sequence counter. -/
theorem putAudioFrames_idle (fs : List (List S × List (List Nat))) :
    ∀ t : ATCRadioStack S Src, t.mPtt = false → t.mLastFramePtt = false →
      t.mAtisRecord = false → t.mAtisPlayback = false → t.mTxSequence < 2 ^ 32 →
      putAudioFrames t fs =
        some { t with mTxSequence := (t.mTxSequence + fs.length) % 2 ^ 32 } := by
  induction fs with
  | nil =>
    intro t _ _ _ _ ht
    simp only [putAudioFrames, List.length_nil, Nat.add_zero, Nat.mod_eq_of_lt ht]
  | cons f rest ih =>
    intro t h1 h2 h3 h4 _
    simp only [putAudioFrames, putAudioFrame_idle t f.1 f.2 h1 h2 h3 h4]
    rw [ih _ (by exact h1) (by exact h2) (by exact h3) (by exact h4)
      (by exact Nat.mod_lt _ (by norm_num))]
    simp only [List.length_cons, Nat.mod_add_mod]
    congr 3
    omega

theorem pttDatagrams_spec (callsign : String) (ids : List Nat) (audios : List (List Nat)) :
    ∀ seq, seq < 2 ^ 32 →
      (pttDatagrams callsign ids seq audios).length = audios.length ∧
      (pttDatagrams callsign ids seq audios).map (fun d => d.LastPacket) =
        List.replicate audios.length false ∧
      (pttDatagrams callsign ids seq audios).map (fun d => d.Audio) = audios ∧
      (pttDatagrams callsign ids seq audios).map (fun d => d.SequenceCounter) =
        (List.range audios.length).map (fun i => (seq + i) % 2 ^ 32) := by
  induction audios with
  | nil =>
    intro seq _
    exact ⟨rfl, rfl, rfl, rfl⟩
  | cons a rest ih =>
    intro seq hseq
    obtain ⟨i1, i2, i3, i4⟩ := ih ((seq + 1) % 2 ^ 32) (Nat.mod_lt _ (by norm_num))
    refine ⟨?_, ?_, ?_, ?_⟩
    · simp only [pttDatagrams, List.length_cons, i1]
    · simp only [pttDatagrams, List.map_cons, i2, List.length_cons, List.replicate_succ]
    · simp only [pttDatagrams, List.map_cons, i3]
    · simp only [pttDatagrams, List.map_cons, i4, List.length_cons, List.range_succ_eq_map,
        List.map_map, Nat.add_zero, Nat.mod_eq_of_lt hseq]
      congr 1
      apply List.map_congr_left
      intro i _
      simp only [Function.comp, Nat.mod_add_mod]
      congr 1
      omega

/-- Frames captured while PTT is held, one compressed frame each: one datagram with
`LastPacket = false` per frame, numbered consecutively. -/
theorem putAudioFrames_pressed (frames : List (List S × List Nat)) :
    ∀ s : ATCRadioStack S Src, s.mPtt = true → s.channelOpen = true →
      s.mAtisRecord = false → s.mAtisPlayback = false → s.mTxSequence < 2 ^ 32 →
      ∃ s', putAudioFrames s (oneFramePerCall frames) = some s' ∧
        s'.mPtt = true ∧ s'.channelOpen = true ∧ s'.mAtisRecord = false ∧
        s'.mAtisPlayback = false ∧ s'.mCallsign = s.mCallsign ∧
        s'.mRadioState = s.mRadioState ∧
        s'.mTxSequence = (s.mTxSequence + frames.length) % 2 ^ 32 ∧
        (frames ≠ [] → s'.mLastFramePtt = true) ∧
        s'.sent = s.sent ++
          pttDatagrams s.mCallsign (txTransceivers (fun r => r.tx) s.mRadioState)
            s.mTxSequence (frames.map (fun f => f.2)) := by
  induction frames with
  | nil =>
    intro s h1 h2 h3 h4 h5
    refine ⟨s, rfl, h1, h2, h3, h4, rfl, rfl, ?_, ?_, ?_⟩
    · simp only [List.length_nil, Nat.add_zero, Nat.mod_eq_of_lt h5]
    · intro h; exact absurd rfl h
    · simp [pttDatagrams]
  | cons f rest ih =>
    intro s h1 h2 h3 h4 _
    have hstep := putAudioFrame_pressed s f.1 f.2 h1 h2 h3 h4
    obtain ⟨s', i0, i1, i2, i3, i4, i5, i6, i7, i8, i9⟩ :=
      ih { s with
          compressorInput := s.compressorInput ++ [f.1]
          mLastFramePtt := true
          mTxSequence := (s.mTxSequence + 1) % 2 ^ 32
          sent := s.sent ++
            [{ SequenceCounter := s.mTxSequence
               Callsign := s.mCallsign
               Audio := f.2
               LastPacket := false
               Transceivers := txTransceivers (fun r => r.tx) s.mRadioState }] }
        h1 h2 h3 h4 (Nat.mod_lt _ (by norm_num))
    refine ⟨s', ?_, i1, i2, i3, i4, i5, i6, ?_, ?_, ?_⟩
    · simp only [oneFramePerCall, List.map_cons, putAudioFrames, hstep]
      exact i0
    · rw [i7]
      simp only [List.length_cons, Nat.mod_add_mod]
      congr 1
      omega
    · intro _
      cases rest with
      | nil =>
        simp only [oneFramePerCall, List.map_nil, putAudioFrames, Option.some.injEq] at i0
        rw [← i0]
      | cons g rest' => exact i8 (by simp)
    · rw [i9]
      simp only [List.map_cons, pttDatagrams, List.append_assoc, List.singleton_append]

/-! ### DTO assembly -/

theorem foldl_push_ids (ts : List (Transceiver S)) (acc : List Nat) :
    ts.foldl (fun a t => a ++ [t.ID]) acc = acc ++ ts.map (fun t => t.ID) := by
  induction ts generalizing acc with
  | nil => simp
  | cons t rest ih => simp [List.foldl_cons, ih]

theorem foldl_cross_couple (m : RadioMap S) (acc : List Nat) :
    m.foldl (fun ids state =>
        if !state.2.xc || !state.2.tx then ids
        else state.2.transceivers.foldl (fun a t => a ++ [t.ID]) ids) acc =
      acc ++ (m.filter (fun radio => radio.2.xc && radio.2.tx)).flatMap
        (fun radio => radio.2.transceivers.map (fun t => t.ID)) := by
  induction m generalizing acc with
  | nil => simp
  | cons hd rest ih =>
    by_cases h : (hd.2.xc && hd.2.tx) = true
    · have h' : (!hd.2.xc || !hd.2.tx) = false := by
        simp only [Bool.and_eq_true] at h
        simp [h.1, h.2]
      rw [List.foldl_cons]
      simp only [h', Bool.false_eq_true, if_false]
      rw [ih, foldl_push_ids, List.filter_cons, if_pos h, List.flatMap_cons,
        List.append_assoc]
    · have h' : (!hd.2.xc || !hd.2.tx) = true := by
        cases hx : hd.2.xc <;> cases ht : hd.2.tx <;> simp [hx, ht] at h ⊢
      rw [List.foldl_cons]
      simp only [h', if_true]
      rw [ih, List.filter_cons, if_neg h]

theorem stampTransceivers_spec (ts : List (Transceiver S)) :
    ∀ i : Nat, i + ts.length ≤ 2 ^ 16 →
      (stampTransceivers i ts).1 = (stampTransceivers i ts).2.1 ∧
      (stampTransceivers i ts).1.map (fun t => t.ID) = List.range' i ts.length ∧
      (stampTransceivers i ts).2.2 = i + ts.length ∧
      (ts ≠ [] → (stampTransceivers i ts).2.1 ≠ []) := by
  induction ts with
  | nil => intro i _; exact ⟨rfl, rfl, rfl, fun h => absurd rfl h⟩
  | cons t rest ih =>
    intro i hi
    simp only [List.length_cons] at hi
    have h1 : (i + 1) % 2 ^ 32 = i + 1 := Nat.mod_eq_of_lt (by omega)
    have h2 : i % 2 ^ 16 = i := Nat.mod_eq_of_lt (by omega)
    obtain ⟨a, b, c, _⟩ := ih (i + 1) (by omega)
    simp only [stampTransceivers, h1]
    refine ⟨?_, ?_, ?_, ?_⟩
    · rw [← a]
      rfl
    · simp only [List.map_cons, b, List.length_cons, List.range'_succ, mkTransceiver, h2]
    · rw [c, List.length_cons]
      omega
    · intro _ h
      cases h

theorem dtoLength_cons (key : Nat) (state : ATCRadioState S) (rest : RadioMap S) :
    dtoLength ((key, state) :: rest) = max 1 state.transceivers.length + dtoLength rest := by
  simp [dtoLength]

theorem makeTransceiverDtoFrom_spec (lat lon msl agl : S) (m : RadioMap S) :
    ∀ i : Nat, i + dtoLength m ≤ 2 ^ 16 →
      (makeTransceiverDtoFrom lat lon msl agl i m).1.map (fun t => t.ID) =
        List.range' i (dtoLength m) ∧
      (makeTransceiverDtoFrom lat lon msl agl i m).1 =
        (makeTransceiverDtoFrom lat lon msl agl i m).2.flatMap
          (fun radio => radio.2.transceivers) ∧
      (makeTransceiverDtoFrom lat lon msl agl i m).2.map withoutTransceivers =
        m.map withoutTransceivers ∧
      (∀ radio ∈ (makeTransceiverDtoFrom lat lon msl agl i m).2,
        radio.2.transceivers ≠ []) ∧
      (∀ radio ∈ m, radio.2.transceivers = [] →
        ∃ j, (radio.1, { radio.2 with
            transceivers := [mkTransceiver j radio.1 lat lon msl agl] }) ∈
          (makeTransceiverDtoFrom lat lon msl agl i m).2) := by
  induction m with
  | nil =>
    intro i _
    refine ⟨rfl, rfl, rfl, ?_, ?_⟩
    · intro radio h
      simp [makeTransceiverDtoFrom] at h
    · intro radio h
      cases h
  | cons hd rest ih =>
    obtain ⟨key, state⟩ := hd
    intro i hi
    rw [dtoLength_cons] at hi
    cases hts : state.transceivers with
    | nil =>
      have hlen : max 1 state.transceivers.length = 1 := by simp [hts]
      rw [hlen] at hi
      have h1 : (i + 1) % 2 ^ 32 = i + 1 := Nat.mod_eq_of_lt (by omega)
      have h2 : i % 2 ^ 16 = i := Nat.mod_eq_of_lt (by omega)
      obtain ⟨a, b, c, e, g⟩ := ih (i + 1) (by omega)
      simp only [makeTransceiverDtoFrom, hts, List.isEmpty_nil, if_true, h1]
      refine ⟨?_, ?_, ?_, ?_, ?_⟩
      · rw [dtoLength_cons, hlen, Nat.add_comm 1, List.range'_succ]
        simp only [List.map_cons, a, mkTransceiver, h2]
      · simp only [List.flatMap_cons, List.singleton_append]
        rw [← b]
      · simp only [List.map_cons, c, withoutTransceivers]
      · intro radio hr
        simp only [List.mem_cons] at hr
        rcases hr with hr | hr
        · subst hr
          simp
        · exact e radio hr
      · intro radio hr hempty
        simp only [List.mem_cons] at hr
        rcases hr with hr | hr
        · subst hr
          exact ⟨i, List.mem_cons_self _ _⟩
        · obtain ⟨j, hj⟩ := g radio hr hempty
          exact ⟨j, List.mem_cons_of_mem _ hj⟩
    | cons t ts =>
      have hlen : max 1 state.transceivers.length = (t :: ts).length := by
        simp [hts]
      rw [hlen] at hi
      obtain ⟨sa, sb, sc, sd⟩ := stampTransceivers_spec (t :: ts) i (by omega)
      obtain ⟨a, b, c, e, g⟩ := ih (i + (t :: ts).length) (by omega)
      simp only [makeTransceiverDtoFrom, hts, List.isEmpty_cons, Bool.false_eq_true, if_false,
        sc]
      refine ⟨?_, ?_, ?_, ?_, ?_⟩
      · rw [dtoLength_cons, hlen, List.map_append, sb, a, Nat.add_comm _ (dtoLength rest),
          List.range'_append_1]
      · simp only [List.flatMap_cons]
        rw [← b, sa]
      · simp only [List.map_cons, c, withoutTransceivers]
      · intro radio hr
        simp only [List.mem_cons] at hr
        rcases hr with hr | hr
        · subst hr
          exact sd (by simp)
        · exact e radio hr
      · intro radio hr hempty
        simp only [List.mem_cons] at hr
        rcases hr with hr | hr
        · subst hr
          simp only [hts] at hempty
          cases hempty
        · obtain ⟨j, hj⟩ := g radio hr hempty
          exact ⟨j, List.mem_cons_of_mem _ hj⟩

/-! ### Cross-couple group -/

theorem stampTransceivers_frequency (ts : List (Transceiver S)) :
    ∀ i : Nat, ∀ t' ∈ (stampTransceivers i ts).2.1, ∃ t ∈ ts, t'.Frequency = t.Frequency := by
  induction ts with
  | nil =>
    intro i t' h
    simp [stampTransceivers] at h
  | cons t rest ih =>
    intro i t' h
    simp only [stampTransceivers, List.mem_cons] at h
    rcases h with h | h
    · exact ⟨t, List.mem_cons_self _ _, by rw [h]⟩
    · obtain ⟨t0, h0, h1⟩ := ih _ t' h
      exact ⟨t0, List.mem_cons_of_mem _ h0, h1⟩

/-- `makeTransceiverDto` keeps every stored transceiver on the key of its radio. -/
theorem makeTransceiverDtoFrom_onKey (lat lon msl agl : S) (m : RadioMap S) :
    transceiversOnKey m →
      ∀ i : Nat, transceiversOnKey (makeTransceiverDtoFrom lat lon msl agl i m).2 := by
  induction m with
  | nil =>
    intro _ i radio h
    simp [makeTransceiverDtoFrom] at h
  | cons hd rest ih =>
    obtain ⟨key, state⟩ := hd
    intro hk i
    have hrest : transceiversOnKey rest :=
      fun radio hr => hk radio (List.mem_cons_of_mem _ hr)
    have hhd : ∀ t ∈ state.transceivers, t.Frequency = key :=
      hk (key, state) (List.mem_cons_self _ _)
    cases hts : state.transceivers with
    | nil =>
      simp only [makeTransceiverDtoFrom, hts, List.isEmpty_nil, if_true]
      intro radio hr
      simp only [List.mem_cons] at hr
      rcases hr with hr | hr
      · subst hr
        intro t ht
        simp only [List.mem_singleton] at ht
        rw [ht]
        rfl
      · exact ih hrest _ radio hr
    | cons t ts =>
      simp only [makeTransceiverDtoFrom, hts, List.isEmpty_cons, Bool.false_eq_true, if_false]
      intro radio hr
      simp only [List.mem_cons] at hr
      rcases hr with hr | hr
      · subst hr
        intro t' ht'
        obtain ⟨t0, h0, h1⟩ := stampTransceivers_frequency (t :: ts) i t' ht'
        rw [h1]
        exact hhd t0 (by rw [hts]; exact h0)
      · exact ih hrest _ radio hr

theorem foldl_emplace_back {α β : Type} (g : α → β) (xs : List α) (acc : List β) :
    xs.foldl (fun a x => a ++ [g x]) acc = acc ++ xs.map g := by
  induction xs generalizing acc with
  | nil => simp
  | cons x rest ih => simp [List.foldl_cons, ih]

/-- `setTransceivers` stores transceivers on the key of the radio it writes. -/
theorem setTransceivers_onKey (d : ATCRadioState S) (m : RadioMap S) (freq : Nat)
    (transceivers : List (StationTransceiver S)) (h : transceiversOnKey m) :
    transceiversOnKey (setTransceivers d m freq transceivers) := by
  intro radio hr
  rcases mem_mapPut _ _ _ _ hr with h1 | h1
  · rw [h1]
    intro t ht
    simp only [foldl_emplace_back, List.nil_append, List.mem_map] at ht
    obtain ⟨x, _, hx⟩ := ht
    rw [← hx]
    rfl
  · exact h radio h1

end TransmitLemmas

/-! ## Lemmas on the client's PTT -/

section ClientLemmas

/-- Every client call posts exactly the event the change of `mPtt` calls for, and
keeps the PTT value passed to the stack equal to `mPtt`. -/
theorem client_apply_spec (c : ATCClient) (op : ClientOp) :
    (c.apply op).events = c.events ++ pttChangeEvents c.mPtt (c.apply op).mPtt ∧
    (c.stackPtt = c.mPtt → (c.apply op).stackPtt = (c.apply op).mPtt) := by
  obtain ⟨w, p, pend, st, ev⟩ := c
  cases op with
  | setPtt b =>
    cases b <;> cases w <;> cases p <;> cases pend <;> cases st <;>
      simp [ATCClient.apply, ATCClient.setPtt, pttChangeEvents]
  | updateStarted =>
    cases p <;> simp [ATCClient.apply, pttChangeEvents]
  | updateCompleted =>
    cases w <;> cases p <;> cases st <;>
      simp [ATCClient.apply, ATCClient.unguardPtt, pttChangeEvents]
  | unguardPtt =>
    cases w <;> cases p <;> cases st <;>
      simp [ATCClient.apply, ATCClient.unguardPtt, pttChangeEvents]

/-- The events a sequence of client calls posts alternate, beginning with the event
opposite to the current `mPtt`. -/
theorem client_run_spec (ops : List ClientOp) :
    ∀ c : ATCClient, c.stackPtt = c.mPtt →
      (c.run ops).stackPtt = (c.run ops).mPtt ∧
      ∃ evs, (c.run ops).events = c.events ++ evs ∧
        (if c.mPtt then alternates ClientEventType.PttClosed ClientEventType.PttOpen evs
          else alternates ClientEventType.PttOpen ClientEventType.PttClosed evs) = true := by
  induction ops with
  | nil =>
    intro c h
    refine ⟨h, [], by simp [ATCClient.run], ?_⟩
    cases c.mPtt <;> rfl
  | cons op rest ih =>
    intro c h
    obtain ⟨h1, h2⟩ := client_apply_spec c op
    obtain ⟨i1, evs, i2, i3⟩ := ih (c.apply op) (h2 h)
    have hrun : c.run (op :: rest) = (c.apply op).run rest := rfl
    rw [hrun]
    refine ⟨i1, pttChangeEvents c.mPtt (c.apply op).mPtt ++ evs, ?_, ?_⟩
    · rw [i2, h1, List.append_assoc]
    · revert i3
      cases c.mPtt <;> cases (c.apply op).mPtt <;>
        simp [pttChangeEvents, alternates]

end ClientLemmas

/-! ## Claims -/

section Claims
variable {S Src : Type}

/-- C1 (auto-erase rule). For every radio-state map, frequency `f` and value `v`,
after `setRx(f, v)`, `setTx(f, v)` or `setXc(f, v)` the frequency `f` is active
exactly when one of `rx`, `tx`, `xc`, `isAtis` holds for the radio at `f` after
the assignment (the stored radio, or a default-constructed one, with the flag
set to `v`); the radio is then stored as assigned, and otherwise `f` is no
longer in the map. -/
theorem C1_auto_erase_rule (d : ATCRadioState S) (m : RadioMap S) (f : Nat) (v : Bool) :
    (isFrequencyActive (setRx d m f v) f = anyFlag { mapAt d m f with rx := v } ∧
      mapFind (setRx d m f v) f =
        if anyFlag { mapAt d m f with rx := v } then some { mapAt d m f with rx := v }
        else none) ∧
    (isFrequencyActive (setTx d m f v) f = anyFlag { mapAt d m f with tx := v } ∧
      mapFind (setTx d m f v) f =
        if anyFlag { mapAt d m f with tx := v } then some { mapAt d m f with tx := v }
        else none) ∧
    (isFrequencyActive (setXc d m f v) f = anyFlag { mapAt d m f with xc := v } ∧
      mapFind (setXc d m f v) f =
        if anyFlag { mapAt d m f with xc := v } then some { mapAt d m f with xc := v }
        else none) := by
  refine ⟨⟨?_, ?_⟩, ⟨?_, ?_⟩, ⟨?_, ?_⟩⟩
  · exact active_after_assignment d m f (fun r => { r with rx := v })
  · exact find_after_assignment d m f (fun r => { r with rx := v })
  · exact active_after_assignment d m f (fun r => { r with tx := v })
  · exact find_after_assignment d m f (fun r => { r with tx := v })
  · exact active_after_assignment d m f (fun r => { r with xc := v })
  · exact find_after_assignment d m f (fun r => { r with xc := v })

/-- C2 (radio auto-removal), evaluated on the code. On a stack whose only radio is
the non-ATIS radio created by `addFrequency(118100000, true, "LFPG_TWR", hw)`,
`setRx(f, false)` erases the radio; `setTx(f, false)` then indexes the absent key,
which inserts a default-constructed radio (with `rx = true`), so the erase rule
does not fire, and `setXc(f, false)` leaves it in place: after the three calls
`isFrequencyActive(f)` is true. -/
theorem C2_radio_recreated_after_erase :
    (mapFind (addFrequencyMap defaultRadioState [] 118100000 true "LFPG_TWR".toList
      HardwareType.Schmid_ED_137B) 118100000).map (fun r => r.isAtis) = some false ∧
    isFrequencyActive
      (setRx defaultRadioState
        (addFrequencyMap defaultRadioState [] 118100000 true "LFPG_TWR".toList
          HardwareType.Schmid_ED_137B) 118100000 false) 118100000 = false ∧
    isFrequencyActive
      (setXc defaultRadioState
        (setTx defaultRadioState
          (setRx defaultRadioState
            (addFrequencyMap defaultRadioState [] 118100000 true "LFPG_TWR".toList
              HardwareType.Schmid_ED_137B) 118100000 false) 118100000 false)
        118100000 false) 118100000 = true := by
  decide

/-- C3 (routing idempotence), evaluated on the code. On the radio map of a new
stack, which has no radio on 118100000, `getTxState` and `getXcState` report false
for that frequency; `setTx(f, false)` and `setXc(f, false)`, called with the value
reported, index the absent key, which inserts a default-constructed radio (with
`rx = true`) that the erase rule keeps: the map after the call has the key
118100000 and differs from the map before. (`setRx(f, false)` clears the only flag
of the inserted radio, which is erased again.) The same happens on the map left
by `addFrequency` followed by `setRx(f, false)`. Were the default-constructed
radio to have `rx = false`, `setGain(f, 3)` on the absent key would leave a radio
with no flag set, for which `getRxState` reports false and which
`setRx(f, false)` erases: the map changes then too. -/
theorem C3_setter_with_reported_value_inserts_radio :
    emptyStack.mRadioState.map Prod.fst = [] ∧
    getTxState emptyStack.mRadioState 118100000 = false ∧
    (setTx defaultRadioState emptyStack.mRadioState 118100000
        (getTxState emptyStack.mRadioState 118100000)).map
      (fun radio => (radio.1, radio.2.rx, radio.2.tx, radio.2.xc, radio.2.isAtis)) =
      [(118100000, true, false, false, false)] ∧
    getXcState emptyStack.mRadioState 118100000 = false ∧
    (setXc defaultRadioState emptyStack.mRadioState 118100000
        (getXcState emptyStack.mRadioState 118100000)).map
      (fun radio => (radio.1, radio.2.rx, radio.2.tx, radio.2.xc, radio.2.isAtis)) =
      [(118100000, true, false, false, false)] ∧
    (setRx defaultRadioState emptyStack.mRadioState 118100000
        (getRxState emptyStack.mRadioState 118100000)).map Prod.fst = [] ∧
    (setRx defaultRadioState towerMap 118100000 false).map Prod.fst = [] ∧
    (setTx defaultRadioState (setRx defaultRadioState towerMap 118100000 false) 118100000
        (getTxState (setRx defaultRadioState towerMap 118100000 false) 118100000)).map
      Prod.fst = [118100000] ∧
    (setGain { defaultRadioState with rx := false } [] 118100000 3).map
      (fun radio => (radio.1, radio.2.rx, radio.2.tx, radio.2.xc, radio.2.isAtis)) =
      [(118100000, false, false, false, false)] ∧
    getRxState (setGain { defaultRadioState with rx := false } [] 118100000 3) 118100000
      = false ∧
    (setRx { defaultRadioState with rx := false }
        (setGain { defaultRadioState with rx := false } [] 118100000 3) 118100000
        (getRxState (setGain { defaultRadioState with rx := false } [] 118100000 3)
          118100000)).map Prod.fst = [] := by
  refine ⟨by decide, by decide, by decide, by decide, by decide, by decide, by decide,
    by decide, by decide, by decide, by decide⟩

/-- C4 (add/remove round trip). For every stack, frequency `f`, `onHeadset`, name
and hardware, after `addFrequency(f, h, n, hw)` followed by `removeFrequency(f)`:
`isFrequencyActive(f)` is false, the event log is the one before the two calls,
the map is the prior map without the key `f`, every other key holds the radio it
held before, and if `f` was absent before, the map equals the prior map. All
other parts of the stack are unchanged. -/
theorem C4_add_remove_round_trip (E : Env S Src) (s : ATCRadioStack S Src) (f : Nat)
    (h : Bool) (n : List Char) (hw : HardwareType) :
    isFrequencyActive (removeFrequency (addFrequency E s f h n hw) f).mRadioState f = false ∧
    (removeFrequency (addFrequency E s f h n hw) f).events = s.events ∧
    (removeFrequency (addFrequency E s f h n hw) f).mRadioState = mapErase s.mRadioState f ∧
    (∀ k, k ≠ f →
      mapFind (removeFrequency (addFrequency E s f h n hw) f).mRadioState k =
        mapFind s.mRadioState k) ∧
    (mapFind s.mRadioState f = none →
      removeFrequency (addFrequency E s f h n hw) f = s) := by
  have hmap : (removeFrequency (addFrequency E s f h n hw) f).mRadioState =
      mapErase s.mRadioState f := by
    simp [removeFrequency, addFrequency, addFrequencyMap, mapModify, mapErase_mapPut]
  refine ⟨?_, rfl, hmap, ?_, ?_⟩
  · rw [hmap]
    simp [isFrequencyActive, mapCount, mapFind_mapErase_self]
  · intro k hk
    rw [hmap]
    exact mapFind_mapErase_ne _ _ _ hk
  · intro habs
    have h2 := mapErase_of_absent _ _ habs
    rw [h2] at hmap
    cases s
    simp only [removeFrequency, addFrequency] at hmap ⊢
    simp only [hmap]

/-- C5 (`addFrequency` initialises the flags), evaluated on the code. After
`addFrequency(f, true, "LFPG_ATIS", hw)` the radio at `f` has `isAtis = true`; a
second `addFrequency(f, true, "LFPG_TWR", hw)`, whose name does not contain
`"_ATIS"`, sets `rx = true` and leaves `isAtis = true`: the flag comes from the
prior radio, not from the arguments. -/
theorem C5_isAtis_kept_from_prior_radio :
    containsAtis "LFPG_TWR".toList = false ∧
    (mapFind
      (addFrequencyMap defaultRadioState
        (addFrequencyMap defaultRadioState [] 118100000 true "LFPG_ATIS".toList
          HardwareType.Schmid_ED_137B)
        118100000 true "LFPG_TWR".toList HardwareType.Schmid_ED_137B)
      118100000).map (fun r => (r.isAtis, r.rx, r.tx, r.xc)) =
      some (true, true, false, false) := by
  decide

/-- C6 (dropped packets leave the stream table unchanged), evaluated on the code.
On a stack with no radio, `getRxState(118100000)` is false, so the packet from
`"AFR123"` with the single transceiver on 118100000 matches no receive-enabled
radio. `_packetListening` reads `mRadioState[118100000].rx`, which inserts a
default-constructed radio (with `rx = true`), and returns true: the stream table,
empty before, holds an entry for `"AFR123"` afterwards. -/
theorem C6_entry_inserted_for_unmatched_packet :
    getRxState emptyStack.mRadioState 118100000 = false ∧
    emptyStack.mIncomingStreams.map Prod.fst = [] ∧
    (rxVoicePacket exampleEnv 0 emptyStack
      { Callsign := "AFR123"
        SequenceCounter := 0
        Audio := [1, 2, 3]
        LastPacket := false
        Transceivers := [{ ID := 0, Frequency := 118100000, DistanceRatio := 1 }] }
      ).mIncomingStreams.map Prod.fst = ["AFR123"] := by
  decide

/-- C7 (accepted packets), evaluated on the code. The stack holds the radio
created by `addFrequency(118100000, true, "LFPG_TWR", hw)`, which has `rx = true`;
121500000 is not in the map. For the packet from `"AFR123"` with transceivers on
121500000 and 118100000 (in this order), the first frequency with `rx = true` is
118100000, yet `_packetListening` inserts a default-constructed radio (with
`rx = true`) at 121500000 and records the callsign there:
`lastTransmitOnFreq(118100000)` is still empty afterwards. -/
theorem C7_callsign_recorded_on_inserted_radio :
    getRxState (addFrequency exampleEnv emptyStack 118100000 true "LFPG_TWR".toList
      HardwareType.Schmid_ED_137B).mRadioState 121500000 = false ∧
    getRxState (addFrequency exampleEnv emptyStack 118100000 true "LFPG_TWR".toList
      HardwareType.Schmid_ED_137B).mRadioState 118100000 = true ∧
    (lastTransmitOnFreq defaultRadioState
      (rxVoicePacket exampleEnv 0
        (addFrequency exampleEnv emptyStack 118100000 true "LFPG_TWR".toList
          HardwareType.Schmid_ED_137B)
        { Callsign := "AFR123"
          SequenceCounter := 0
          Audio := [1, 2, 3]
          LastPacket := false
          Transceivers :=
            [{ ID := 0, Frequency := 121500000, DistanceRatio := 1 },
             { ID := 1, Frequency := 118100000, DistanceRatio := 1 }] }).mRadioState
      118100000).1 = "" ∧
    (lastTransmitOnFreq defaultRadioState
      (rxVoicePacket exampleEnv 0
        (addFrequency exampleEnv emptyStack 118100000 true "LFPG_TWR".toList
          HardwareType.Schmid_ED_137B)
        { Callsign := "AFR123"
          SequenceCounter := 0
          Audio := [1, 2, 3]
          LastPacket := false
          Transceivers :=
            [{ ID := 0, Frequency := 121500000, DistanceRatio := 1 },
             { ID := 1, Frequency := 118100000, DistanceRatio := 1 }] }).mRadioState
      121500000).1 = "AFR123" := by
  decide

/-- C8 (maintenance sweep). For every stream table with unique callsigns and every
time `now`, the table after `maintainIncomingStreams` is the prior table
restricted to the entries whose idle time `now - lastActivityTime` is at most
`compressedSourceCacheTimeoutMs`: entries idle for longer are absent, the others
are kept unchanged and in order. The rest of the stack is unchanged. -/
theorem C8_maintenance_sweep (E : Env S Src) (now : Nat) (s : ATCRadioStack S Src)
    (hu : keysUnique s.mIncomingStreams) :
    (maintainIncomingStreams E now s).mIncomingStreams =
      s.mIncomingStreams.filter (fun e =>
        decide (idleTime now (E.getLastActivityTime e.2.source) ≤
          E.compressedSourceCacheTimeoutMs)) ∧
    (maintainIncomingStreams E now s).mRadioState = s.mRadioState ∧
    (maintainIncomingStreams E now s).events = s.events := by
  refine ⟨?_, rfl, rfl⟩
  simp only [maintainIncomingStreams, foldl_streamErase]
  apply List.filter_congr
  intro p hp
  have hinj := List.inj_on_of_nodup_map hu
  by_cases hst : idleTime now (E.getLastActivityTime p.2.source) ≤
      E.compressedSourceCacheTimeoutMs
  · have : p.1 ∉ callsignsToPurge E now s.mIncomingStreams := by
      intro hmem
      simp only [callsignsToPurge, List.mem_map, List.mem_filter] at hmem
      obtain ⟨q, ⟨hq, hqs⟩, hqp⟩ := hmem
      have : q = p := hinj hq hp hqp
      subst this
      simp at hqs
      omega
    simp [this, hst]
  · have : p.1 ∈ callsignsToPurge E now s.mIncomingStreams := by
      simp only [callsignsToPurge, List.mem_map, List.mem_filter]
      exact ⟨p, ⟨hp, by simpa using hst⟩, rfl⟩
    simp [this, hst]

/-- Witness for C8: of two streams last active at times 100 and 5000, the sweep
at time 5500 (timeout 1000) keeps the second only. -/
theorem C8_maintenance_sweep_witness :
    (maintainIncomingStreams exampleEnv 5500
      { emptyStack with
        mIncomingStreams :=
          [("AFR1", { source := { appended := 1, pulled := 0, lastActivityTime := 100 },
                      transceivers := [] }),
           ("AFR2", { source := { appended := 1, pulled := 0, lastActivityTime := 5000 },
                      transceivers := [] })] }).mIncomingStreams.map Prod.fst = ["AFR2"] := by
  rw [(C8_maintenance_sweep exampleEnv 5500
      { emptyStack with
        mIncomingStreams :=
          [("AFR1", { source := { appended := 1, pulled := 0, lastActivityTime := 100 },
                      transceivers := [] }),
           ("AFR2", { source := { appended := 1, pulled := 0, lastActivityTime := 5000 },
                      transceivers := [] })] }
      (by decide)).1]
  decide

/-- C9 (PTT self-mute), evaluated on the code. In `crossedStack` PTT is pressed,
the radio stored under 118100000 has `tx = true`, is on the headset and is the only
radio routed to the headset; its `Frequency` field is 0, the one of a
default-constructed radio. The radio loop of `getAudioFrame` passes that field to
`_process_radio`, which therefore processes the radio stored under 0 (on the
speaker, not transmitting) and mixes the stream of `"AFR123"` into the headset
frame: the frame returned for the headset is `[7, 7, 7, 7]`, not zeros, and
`RxOpen(0)` is posted. -/
theorem C9_transmitting_radio_is_not_muted :
    crossedStack.mPtt = true ∧
    crossedStack.mRT = false ∧
    crossedStack.mRadioState.map
      (fun radio => (radio.1, radio.2.Frequency, radio.2.tx, radio.2.onHeadset)) =
      [(0, 0, false, false), (118100000, 0, true, true)] ∧
    crossedStack.mIncomingStreams.map
      (fun entry => (entry.1, entry.2.transceivers.map (fun t => t.Frequency))) =
      [("AFR123", [118100000, 0])] ∧
    (∀ radio ∈ crossedStack.mRadioState,
      routedTo true radio.2.onHeadset crossedStack.mRT = true →
        radio.1 = 118100000 ∧ radio.2.tx = true) ∧
    (getAudioFrame exampleEnv crossedStack true).map (fun res => (res.1, res.2.events)) =
      some ([7, 7, 7, 7], [(ClientEventType.RxOpen, 0)]) := by
  refine ⟨by decide, by decide, by decide, by decide, by decide, by decide⟩

/-- C10 (receive open/close events), evaluated on the code. In `reinsertedStack`
the radio under 118100000 is active with `rx = true`, PTT is released and the
stream of `"AFR123"` has a transceiver on 118100000 and a packet waiting; the
radio's `Frequency` field is 0. The first headset frame pulls the stream, the
second finds it silent; both frames are zeros and no event is posted at all:
`_process_radio` is called with the field 0, never with 118100000. In
`filterlessStack` the radio under 0 has `Frequency = 0` and `rx = true` but no
filter: the first frame that mixes a stream into it posts `RxOpen(0)` and then
dereferences the missing filter, so `_process_radio` and `getAudioFrame` have no
result. -/
theorem C10_no_open_close_on_default_inserted_radio :
    reinsertedStack.mPtt = false ∧
    reinsertedStack.mRadioState.map
      (fun radio => (radio.1, radio.2.Frequency, radio.2.rx, radio.2.onHeadset)) =
      [(118100000, 0, true, true)] ∧
    reinsertedStack.mIncomingStreams.map
      (fun entry => (entry.1, entry.2.transceivers.map (fun t => t.Frequency),
        entry.2.source.appended)) = [("AFR123", [118100000], 1)] ∧
    (getAudioFrame exampleEnv reinsertedStack true).map
      (fun res => (res.1, res.2.events, res.2.IncomingAudioStreams)) =
      some ([0, 0, 0, 0], [], 1) ∧
    ((getAudioFrame exampleEnv reinsertedStack true).bind
      (fun res => getAudioFrame exampleEnv res.2 true)).map
      (fun res => (res.1, res.2.events, res.2.IncomingAudioStreams)) =
      some ([0, 0, 0, 0], [], 0) ∧
    filterlessStack.mRadioState.map
      (fun radio => (radio.1, radio.2.Frequency, radio.2.rx, radio.2.vhfFilter.isSome,
        radio.2.mBypassEffects)) =
      [(0, 0, true, false, false), (118100000, 118100000, true, true, false)] ∧
    (match _process_radio exampleEnv [("AFR123", [7, 7, 7, 7])] 0 filterlessStack
        exampleDevice with
      | .ok _ => none
      | .error s => some s.events) = some [(ClientEventType.RxOpen, 0)] ∧
    (getAudioFrame exampleEnv filterlessStack true).isNone = true := by
  refine ⟨by decide, by decide, by decide, by decide, by decide, by decide, by decide,
    by decide⟩

/-- C11 (one sequence tick per frame), counterexample. With the compressor
delivering one frame: with PTT pressed and the channel closed `putAudioFrame`
leaves `mTxSequence` at 0; with ATIS record active (channel open) it leaves it at
0; with ATIS playback active, the channel open and PTT pressed it advances it
from 0 to 2. -/
theorem C11_sequence_tick_counterexample :
    (putAudioFrame { emptyStack with mPtt := true } [] [[5]]).map
        (fun s => s.mTxSequence) = some 0 ∧
    (putAudioFrame { openStack with mAtisRecord := true } [] [[5]]).map
        (fun s => s.mTxSequence) = some 0 ∧
    (putAudioFrame { atisStack with mPtt := true } [] [[5]]).map
        (fun s => s.mTxSequence) = some 2 := by
  decide

/-- C11 (one sequence tick per frame), amended. With the compressor delivering one
frame per PCM frame, `putAudioFrame` returns and has advanced `mTxSequence` by
exactly one (modulo 2^32) in these transmit states: ATIS playback inactive and the
stack idle (PTT released now and on the last frame, ATIS record inactive),
whether or not the channel is open; ATIS playback and record inactive and the
channel open; ATIS playback active and the channel open, the playback cursor
inside the recording, and the stack idle or recording. -/
theorem C11_sequence_tick_once (s : ATCRadioStack S Src) (bufferIn : List S) (c : List Nat)
    (h : (s.mAtisPlayback = false ∧ s.mPtt = false ∧ s.mLastFramePtt = false ∧
            s.mAtisRecord = false) ∨
         (s.mAtisPlayback = false ∧ s.mAtisRecord = false ∧ s.channelOpen = true) ∨
         (s.mAtisPlayback = true ∧ s.channelOpen = true ∧
            s.cacheNum < s.mStoredAtisData.length ∧
            ((s.mPtt = false ∧ s.mLastFramePtt = false) ∨ s.mAtisRecord = true))) :
    ∃ s', putAudioFrame s bufferIn [c] = some s' ∧
      s'.mTxSequence = (s.mTxSequence + 1) % 2 ^ 32 := by
  rcases h with ⟨hplay, hptt, hlast, hrec⟩ | ⟨hplay, hrec, hopen⟩ | ⟨hplay, hopen, hcur, hst⟩
  · exact ⟨_, putAudioFrame_idle s bufferIn [c] hptt hlast hrec hplay, rfl⟩
  · by_cases hidle : (!s.mPtt && !s.mLastFramePtt) = true
    · refine ⟨{ s with mTxSequence := (s.mTxSequence + 1) % 2 ^ 32 }, ?_, rfl⟩
      simp only [Bool.and_eq_true, Bool.not_eq_true'] at hidle
      exact putAudioFrame_idle s bufferIn [c] hidle.1 hidle.2 hrec hplay
    · have hidle' : (!s.mPtt && !s.mLastFramePtt) = false := by simpa using hidle
      simp only [putAudioFrame, hplay, Bool.false_eq_true, if_false, hrec, Bool.not_false,
        Bool.and_true, hidle', List.foldl_cons, List.foldl_nil]
      refine ⟨_, rfl, ?_⟩
      simp [processCompressedFrame, hrec, hopen]
  · have haudio : s.mStoredAtisData[s.cacheNum]? = some s.mStoredAtisData[s.cacheNum] :=
      List.getElem?_eq_getElem hcur
    rcases hst with ⟨hptt, hlast⟩ | hrec
    · by_cases hrec : s.mAtisRecord = true
      · simp only [putAudioFrame, hplay, if_true, sendCachedAtisFrame, hopen, haudio, hptt,
          hlast, hrec, Bool.not_false, Bool.not_true, Bool.and_false, Bool.false_eq_true,
          if_false, List.foldl_cons, List.foldl_nil]
        refine ⟨_, rfl, ?_⟩
        simp [processCompressedFrame, hrec]
      · have hrec' : s.mAtisRecord = false := by simpa using hrec
        simp only [putAudioFrame, hplay, if_true, sendCachedAtisFrame, hopen, haudio, hptt,
          hlast, hrec', Bool.not_false, Bool.not_true, Bool.and_true, Bool.false_eq_true,
          if_false]
        exact ⟨_, rfl, rfl⟩
    · simp only [putAudioFrame, hplay, if_true, sendCachedAtisFrame, hopen, haudio,
        hrec, Bool.not_true, Bool.and_false, Bool.false_eq_true,
        if_false, List.foldl_cons, List.foldl_nil]
      refine ⟨_, rfl, ?_⟩
      simp [processCompressedFrame, hrec]

/-- Witness for C11: an idle stack with the channel closed ticks from 0 to 1. -/
theorem C11_sequence_tick_once_witness :
    ∃ s', putAudioFrame emptyStack ([] : List Int) [[5]] = some s' ∧
      s'.mTxSequence = (emptyStack.mTxSequence + 1) % 2 ^ 32 :=
  C11_sequence_tick_once emptyStack [] [5] (Or.inl ⟨rfl, rfl, rfl, rfl⟩)

/-- C12 (sequence monotonicity under silence). From a state with PTT released,
`mLastFramePtt` false and ATIS record and playback inactive, any number `n` of
`putAudioFrame` calls (whatever the PCM frames and whatever the compressor would
deliver) return and change nothing but `mTxSequence`, which has advanced by `n`
modulo 2^32: no datagram is sent and no frame reaches the compressor. -/
theorem C12_silence_ticks (s : ATCRadioStack S Src)
    (frames : List (List S × List (List Nat))) (hptt : s.mPtt = false)
    (hlast : s.mLastFramePtt = false) (hrec : s.mAtisRecord = false)
    (hplay : s.mAtisPlayback = false) (hseq : s.mTxSequence < 2 ^ 32) :
    putAudioFrames s frames =
        some { s with mTxSequence := (s.mTxSequence + frames.length) % 2 ^ 32 } ∧
    ∃ s', putAudioFrames s frames = some s' ∧
      s'.mTxSequence = (s.mTxSequence + frames.length) % 2 ^ 32 ∧ s'.sent = s.sent ∧
      s'.compressorInput = s.compressorInput := by
  have key : ∀ (fs : List (List S × List (List Nat))) (t : ATCRadioStack S Src),
      t.mPtt = false → t.mLastFramePtt = false → t.mAtisRecord = false →
      t.mAtisPlayback = false → t.mTxSequence < 2 ^ 32 →
      putAudioFrames t fs =
        some { t with mTxSequence := (t.mTxSequence + fs.length) % 2 ^ 32 } := by
    intro fs
    induction fs with
    | nil =>
      intro t _ _ _ _ ht
      simp only [putAudioFrames, List.length_nil, Nat.add_zero, Nat.mod_eq_of_lt ht]
    | cons f rest ih =>
      intro t h1 h2 h3 h4 _
      simp only [putAudioFrames, putAudioFrame_idle t f.1 f.2 h1 h2 h3 h4]
      rw [ih _ (by exact h1) (by exact h2) (by exact h3) (by exact h4)
        (by exact Nat.mod_lt _ (by norm_num))]
      simp only [List.length_cons, Nat.mod_add_mod]
      congr 3
      omega
  exact ⟨key frames s hptt hlast hrec hplay hseq,
    _, key frames s hptt hlast hrec hplay hseq, rfl, rfl, rfl⟩

/-- Witness for C12: ten silent frames on a fresh stack advance the sequence from
0 to 10 and send nothing. -/
theorem C12_silence_ticks_witness :
    (putAudioFrames emptyStack (List.replicate 10 (([] : List Int), [[5]]))).map
      (fun s => (s.mTxSequence, s.sent, s.compressorInput)) = some (10, [], []) := by
  rw [(C12_silence_ticks emptyStack (List.replicate 10 (([] : List Int), [[5]]))
    rfl rfl rfl rfl (by decide)).1]
  rfl

/-- C13 (strictly increasing sequence counters), counterexample. With the channel
open, a compressed frame is sent with counter 0; `reset` stores 0 into
`mTxSequence`; the next compressed frame is sent with counter 0 again. Likewise,
from `mTxSequence = 2^32 - 1` two compressed frames are sent with the counters
`2^32 - 1` and 0. -/
theorem C13_counters_counterexample :
    (runTxOps openStack
      [TxOp.processCompressedFrame [1], TxOp.reset, TxOp.processCompressedFrame [2]]).map
        sentCounters = some [0, 0] ∧
    (runTxOps { openStack with mTxSequence := 4294967295 }
      [TxOp.processCompressedFrame [1], TxOp.processCompressedFrame [2]]).map
        sentCounters = some [4294967295, 0] := by
  decide

/-- C13 (strictly increasing sequence counters), amended. For every sequence of
transmit-path operations that contains no `reset` and during which `mTxSequence`
does not wrap around 2^32, from a state whose sent log is in order: the sequence
counter of each datagram sent is strictly greater than the counter of every
datagram sent before it. -/
theorem C13_counters_increase (s s' : ATCRadioStack S Src) (ops : List (TxOp S))
    (hinv : sentInOrder s) (hnoreset : ∀ op ∈ ops, op.isReset = false)
    (hwrap : s.mTxSequence + (ops.map TxOp.ticks).sum < 2 ^ 32)
    (hrun : runTxOps s ops = some s') :
    (sentCounters s').Pairwise (· < ·) :=
  (sentInOrder_runTxOps ops s s' hinv hnoreset hwrap hrun).1

/-- Witness for C13: PTT pressed and two compressed frames on an open channel. -/
theorem C13_counters_increase_witness :
    (sentCounters
      (processCompressedFrame (processCompressedFrame (setPtt openStack true) [1]) [2])).Pairwise
      (· < ·) :=
  C13_counters_increase openStack
    (processCompressedFrame (processCompressedFrame (setPtt openStack true) [1]) [2])
    [TxOp.setPtt true, TxOp.processCompressedFrame [1], TxOp.processCompressedFrame [2]]
    (by constructor <;> simp [sentCounters, openStack, emptyStack])
    (by decide) (by decide) rfl

/-- C14 (channel closed on send), counterexample. With PTT pressed, the channel
closed and `mTxSequence = 5`, a compressed frame is dropped and `mTxSequence` is
still 5 afterwards, also when the frame comes through `putAudioFrame`. -/
theorem C14_closed_channel_counterexample :
    (processCompressedFrame { emptyStack with mPtt := true, mTxSequence := 5 } [1]).mTxSequence
      = 5 ∧
    (processCompressedFrame { emptyStack with mPtt := true, mTxSequence := 5 } [1]).sent
      = [] ∧
    (putAudioFrame { emptyStack with mPtt := true, mTxSequence := 5 } [] [[1]]).map
      (fun s => (s.mTxSequence, s.sent)) = some (5, []) := by
  decide

/-- C14 (channel closed on send), amended. While the UDP channel is absent or not
open (ATIS record inactive), every compressed frame is dropped without being
sent and the stack, `mTxSequence` included, is left as it is; so the first
datagram sent after the channel reopens carries the sequence number the stack had
when the channel closed: the dropped frames leave no gap. Through
`putAudioFrame` with PTT pressed (ATIS playback inactive) only the compressor
input log grows. -/
theorem C14_closed_channel_drops (s : ATCRadioStack S Src) (frames : List (List Nat))
    (hclosed : s.channelOpen = false) (hrec : s.mAtisRecord = false) :
    frames.foldl processCompressedFrame s = s ∧
    (∀ data : List Nat,
      (processCompressedFrame
        { frames.foldl processCompressedFrame s with channelOpen := true } data).sent =
        s.sent ++
          [{ SequenceCounter := s.mTxSequence
             Callsign := s.mCallsign
             Audio := data
             LastPacket := !s.mPtt
             Transceivers := txTransceivers (fun r => r.tx) s.mRadioState }]) ∧
    (∀ bufferIn : List S, s.mPtt = true → s.mAtisPlayback = false →
      putAudioFrame s bufferIn frames =
        some { s with compressorInput := s.compressorInput ++ [bufferIn] }) := by
  have h1 := foldl_processCompressedFrame_closed frames s hclosed hrec
  refine ⟨h1, ?_, ?_⟩
  · intro data
    rw [h1]
    simp [processCompressedFrame, hrec]
  · intro bufferIn hptt hplay
    simp only [putAudioFrame, hplay, Bool.false_eq_true, if_false, hptt, Bool.not_true,
      Bool.false_and]
    rw [foldl_processCompressedFrame_closed frames _ (by exact hclosed) (by exact hrec)]

/-- Witness for C14: three frames dropped on a closed channel with PTT pressed. -/
theorem C14_closed_channel_drops_witness :
    [[1], [2], [3]].foldl processCompressedFrame { emptyStack with mPtt := true } =
      { emptyStack with mPtt := true } :=
  (C14_closed_channel_drops { emptyStack with mPtt := true } [[1], [2], [3]] rfl rfl).1

/-- C15 (ATIS recording), counterexample. In a state that is already recording
and holds the frame `[9]`, `setRecordAtis(true)` does not clear the buffer:
`mStoredAtisData` still holds `[9]`. -/
theorem C15_record_counterexample :
    (setRecordAtis { emptyStack with mAtisRecord := true, mStoredAtisData := [[9]] }
      true).mStoredAtisData = [[9]] := by
  decide

/-- C15 (ATIS recording), amended. From every state in which ATIS record is not
already active, `setRecordAtis(true)` leaves `mStoredAtisData` empty, and after
the `N` compressed frames `frames` delivered while record is true the buffer
holds exactly those frames in arrival order (length `N`), none of them sent as a
datagram, `mTxSequence` unchanged. -/
theorem C15_record_stores_frames (s : ATCRadioStack S Src) (frames : List (List Nat))
    (hrec : s.mAtisRecord = false) :
    (setRecordAtis s true).mStoredAtisData = [] ∧
    (frames.foldl processCompressedFrame (setRecordAtis s true)).mStoredAtisData = frames ∧
    (frames.foldl processCompressedFrame (setRecordAtis s true)).mStoredAtisData.length =
      frames.length ∧
    (frames.foldl processCompressedFrame (setRecordAtis s true)).sent = s.sent ∧
    (frames.foldl processCompressedFrame (setRecordAtis s true)).mTxSequence =
      s.mTxSequence := by
  have h0 : setRecordAtis s true =
      { s with mStoredAtisData := [], mAtisRecord := true } := by
    simp [setRecordAtis, getAtisRecording, hrec]
  have h1 := foldl_processCompressedFrame_recording frames
    ({ s with mStoredAtisData := [], mAtisRecord := true } : ATCRadioStack S Src) rfl
  rw [h0, h1]
  simp

/-- Witness for C15: three frames recorded on a fresh stack. -/
theorem C15_record_stores_frames_witness :
    ([[0], [1], [2]].foldl processCompressedFrame
      (setRecordAtis openStack true)).mStoredAtisData = [[0], [1], [2]] :=
  (C15_record_stores_frames openStack [[0], [1], [2]] rfl).2.1

/-- C16 (ATIS loop), evaluated on the code. Three frames `[0]`, `[1]`, `[2]` are
recorded, recording is stopped, playback is started as `"LFPG_ATIS"`, the channel
is open and PTT released. The first three `putAudioFrame` ticks send the three
frames in order under the ATIS callsign and leave the cursor `cacheNum` at 3,
because the cursor wraps only when it exceeds the number of frames. The fourth
tick reads `mStoredAtisData[3]`, past the end of the vector: it does not send
frame `[0]`. -/
theorem C16_cursor_runs_past_the_end :
    atisStack.mStoredAtisData = [[0], [1], [2]] ∧
    (putAudioFrames atisStack (List.replicate 3 (([] : List Int), []))).map
      (fun s => (s.sent.map (fun dto => (dto.Audio, dto.Callsign)), s.cacheNum)) =
      some ([([0], "LFPG_ATIS"), ([1], "LFPG_ATIS"), ([2], "LFPG_ATIS")], 3) ∧
    (putAudioFrames atisStack (List.replicate 4 (([] : List Int), []))).isNone = true := by
  decide

/-- C19 (relay-transmit), counterexample. With RT set, the routing rule excludes
a radio with `onHeadset = true` for the headset device. -/
theorem C19_relay_counterexample : routedTo true true true = false := by
  decide

/-- C19 (relay-transmit), amended. With RT set, a radio with `onHeadset = true` is
included by the routing rule for the speaker device and for no other: for every
device role it is included exactly when the role is the speaker. Without RT it
is included exactly for the headset. -/
theorem C19_relay_moves_headset_radio_to_speaker :
    (∀ onHeadset : Bool, routedTo onHeadset true true = !onHeadset) ∧
    (∀ onHeadset : Bool, routedTo onHeadset true false = onHeadset) := by
  decide

/-- C17 (cross-couple DTO). For every radio-state map `makeCrossCoupleGroupDto`
returns exactly one group, with ID 0, whose transceiver IDs are the stored IDs of
the transceivers of the radios with `xc && tx`, in map order then list order, and
of no other radio; when no radio has `xc && tx` the result is still one group,
with an empty ID list. -/
theorem C17_cross_couple_single_group (m : RadioMap S) :
    makeCrossCoupleGroupDto m =
      [{ ID := 0
         TransceiverIDs :=
           (m.filter (fun radio => radio.2.xc && radio.2.tx)).flatMap
             (fun radio => radio.2.transceivers.map (fun t => t.ID)) }] ∧
    (makeCrossCoupleGroupDto m).length = 1 ∧
    ((∀ radio ∈ m, (radio.2.xc && radio.2.tx) = false) →
      makeCrossCoupleGroupDto m = [{ ID := 0, TransceiverIDs := [] }]) := by
  have h : makeCrossCoupleGroupDto m =
      [{ ID := 0
         TransceiverIDs :=
           (m.filter (fun radio => radio.2.xc && radio.2.tx)).flatMap
             (fun radio => radio.2.transceivers.map (fun t => t.ID)) }] := by
    simp only [makeCrossCoupleGroupDto, foldl_cross_couple, List.nil_append]
  refine ⟨h, by rw [h]; rfl, ?_⟩
  intro hnone
  have hf : m.filter (fun radio => radio.2.xc && radio.2.tx) = [] := by
    rw [List.filter_eq_nil_iff]
    intro radio hr
    simp [hnone radio hr]
  rw [h, hf]
  rfl

/-- C18 (transceiver DTO). For every stack whose radio map yields at most 2^16
elements (transceiver IDs are 16-bit), `makeTransceiverDto` returns a list of
length `n`, the sum over the radios of `max(1, number of stored transceivers)`,
whose `i`-th element has ID `i` (so the IDs are pairwise distinct). Afterwards
every radio has a non-empty transceiver list, the returned list is the
concatenation of the stored lists in map order (so the stored IDs are those of
the radio's elements), and nothing else in the map has changed. A radio that had
no stored transceivers holds exactly one, at the client position with the
radio's key as frequency. -/
theorem C18_transceiver_dto (s : ATCRadioStack S Src)
    (hn : dtoLength s.mRadioState ≤ 2 ^ 16) :
    (makeTransceiverDto s).1.length = dtoLength s.mRadioState ∧
    (makeTransceiverDto s).1.map (fun t => t.ID) = List.range (dtoLength s.mRadioState) ∧
    ((makeTransceiverDto s).1.map (fun t => t.ID)).Nodup ∧
    (makeTransceiverDto s).1 =
      (makeTransceiverDto s).2.mRadioState.flatMap (fun radio => radio.2.transceivers) ∧
    (∀ radio ∈ (makeTransceiverDto s).2.mRadioState, radio.2.transceivers ≠ []) ∧
    (makeTransceiverDto s).2.mRadioState.map withoutTransceivers =
      s.mRadioState.map withoutTransceivers ∧
    (∀ radio ∈ s.mRadioState, radio.2.transceivers = [] →
      ∃ j, (radio.1, { radio.2 with
          transceivers := [mkTransceiver j radio.1 s.mClientLatitude s.mClientLongitude
            s.mClientAltitudeMSLM s.mClientAltitudeGLM] }) ∈
        (makeTransceiverDto s).2.mRadioState) := by
  obtain ⟨a, b, c, e, g⟩ := makeTransceiverDtoFrom_spec s.mClientLatitude s.mClientLongitude
    s.mClientAltitudeMSLM s.mClientAltitudeGLM s.mRadioState 0 (by omega)
  have hids : (makeTransceiverDto s).1.map (fun t => t.ID) =
      List.range (dtoLength s.mRadioState) := by
    rw [List.range_eq_range']
    exact a
  refine ⟨?_, hids, ?_, b, e, c, g⟩
  · have := congrArg List.length hids
    simpa using this
  · rw [hids]
    exact List.nodup_range _

/-- Witness for C18: the tower radio, which has no stored transceiver, yields one
element with ID 0. -/
theorem C18_transceiver_dto_witness :
    (makeTransceiverDto listeningStack).1.map (fun t => t.ID) =
      List.range (dtoLength listeningStack.mRadioState) :=
  (C18_transceiver_dto listeningStack (by decide)).2.1

/-- C20 (lock order). Over the lock events of the member functions of the stack
(every function that declares a lock guard): the only edge of the lock-acquisition graph is from `mRadioStateLock` to
`mStreamMapLock`, so the graph has no cycle; no function acquires
`mRadioStateLock` while it holds `mStreamMapLock`; and whenever both are held,
`mRadioStateLock` is the older acquisition. -/
theorem C20_lock_order :
    allLockEdges = [(Mutex.mRadioStateLock, Mutex.mStreamMapLock)] ∧
    (∀ op : Operation, ∀ e ∈ lockEdges [] (lockTrace op),
      e = (Mutex.mRadioStateLock, Mutex.mStreamMapLock)) ∧
    (∀ op : Operation, ∀ held ∈ heldSets [] (lockTrace op),
      Mutex.mRadioStateLock ∈ held → Mutex.mStreamMapLock ∈ held →
        held = [Mutex.mRadioStateLock, Mutex.mStreamMapLock]) := by
  refine ⟨by decide, ?_, ?_⟩
  · intro op
    cases op <;> decide
  · intro op
    cases op <;> decide

/-- C22, counterexample. The tower radio, with `tx` set, receives `"AFR123"` on
three consecutive frames; PTT is released on the first, pressed on the second and
released on the third. The radio stays in the map, and the events posted for
118100000 are `RxOpen`, `RxOpen`: the frame processed with PTT pressed zeroes
`mLastRxCount` without posting `RxClosed`. -/
theorem C22_rx_events_counterexample :
    (runSteps exampleEnv 118100000 (listeningStack, exampleDevice)
      [{ ptt := false, tx := true, period := receivingPeriod },
        { ptt := true, tx := true, period := receivingPeriod },
        { ptt := false, tx := true, period := receivingPeriod }]).1.events =
      [(ClientEventType.RxOpen, 118100000), (ClientEventType.RxOpen, 118100000)] ∧
    isFrequencyActive (runSteps exampleEnv 118100000 (listeningStack, exampleDevice)
      [{ ptt := false, tx := true, period := receivingPeriod },
        { ptt := true, tx := true, period := receivingPeriod },
        { ptt := false, tx := true, period := receivingPeriod }]).1.mRadioState 118100000
      = true ∧
    alternates (ClientEventType.RxOpen, 118100000) (ClientEventType.RxClosed, 118100000)
      (runSteps exampleEnv 118100000 (listeningStack, exampleDevice)
        [{ ptt := false, tx := true, period := receivingPeriod },
          { ptt := true, tx := true, period := receivingPeriod },
          { ptt := false, tx := true, period := receivingPeriod }]).1.events = false := by
  refine ⟨by decide, by decide, by decide⟩

/-- C22, amended (receive state machine). For a radio that is in the map and idle
(`mLastRxCount = 0`), and every interleaving of output frames with PTT and `tx`
changes in which each frame mixes fewer than 2^31 streams: in the events posted for
the radio's key every `RxClosed` directly follows an `RxOpen`; and when no frame is
processed with PTT pressed while the radio has `tx` set, `RxOpen` and `RxClosed`
strictly alternate, beginning with `RxOpen`. A run that dereferences a missing
filter ends there, and the events posted until then are the ones covered. -/
theorem C22_rx_events_alternate (E : Env S Src) (f : Nat)
    (x : ATCRadioStack S Src × OutputDeviceState S) (r : ATCRadioState S)
    (steps : List (RxStep S Src)) (hr : mapFind x.1.mRadioState f = some r)
    (hidle : r.mLastRxCount = 0)
    (hbound : ∀ st ∈ steps, mixedStreams E r st.period < 2 ^ 31) :
    ∃ evs, (runSteps E f x steps).1.events = x.1.events ++ evs ∧
      closesFollowOpens (ClientEventType.RxOpen, f) (ClientEventType.RxClosed, f) false evs
        = true ∧
      ((∀ st ∈ steps, (st.ptt && st.tx) = false) →
        alternates (ClientEventType.RxOpen, f) (ClientEventType.RxClosed, f) evs = true) := by
  obtain ⟨evs, h1, h2, h3⟩ := runSteps_spec E f r steps x r hr rfl (by rw [hidle]) hbound
  refine ⟨evs, h1, ?_, ?_⟩
  · simpa [hidle] using h2
  · intro hno
    simpa [hidle] using h3 hno

/-- C22, witness: the tower radio receives a frame with PTT released, a frame with
PTT pressed while `tx` is off, and then a silent frame. -/
theorem C22_rx_events_alternate_witness :
    ∃ evs,
      (runSteps exampleEnv 118100000 (listeningStack, exampleDevice)
        [{ ptt := false, tx := true, period := receivingPeriod },
          { ptt := true, tx := false, period := receivingPeriod },
          { ptt := false, tx := true, period := silentPeriod }]).1.events =
        listeningStack.events ++ evs ∧
      closesFollowOpens (ClientEventType.RxOpen, 118100000)
        (ClientEventType.RxClosed, 118100000) false evs = true ∧
      alternates (ClientEventType.RxOpen, 118100000) (ClientEventType.RxClosed, 118100000)
        evs = true :=
  match C22_rx_events_alternate exampleEnv 118100000 (listeningStack, exampleDevice)
    (mapAt defaultRadioState towerMap 118100000)
    [{ ptt := false, tx := true, period := receivingPeriod },
      { ptt := true, tx := false, period := receivingPeriod },
      { ptt := false, tx := true, period := silentPeriod }]
    rfl (by decide) (by decide) with
  | ⟨evs, h1, h2, h3⟩ => ⟨evs, h1, h2, h3 (by decide)⟩

/-- C23 (routing partition). For every RT value and every `onHeadset` flag of a
radio the routing rule of `getAudioFrame` handles the radio for exactly one of the
two device roles: the role of the radio's flag when RT is off or the radio is on
the speaker, the speaker when RT is on and the radio is on the headset. So, for a
fixed radio map and RT value, of the headset pass and the speaker pass of the
prefetch loop over a stream entry at least one skips the entry, leaving the entry
(with its voice source not pulled), the sample cache and the stream count as they
were, whatever the accumulators of the two passes. -/
theorem C23_routing_partition (E : Env S Src) (m : RadioMap S) (mRT radioOnHeadset : Bool) :
    (routedTo true radioOnHeadset mRT = !routedTo false radioOnHeadset mRT) ∧
    (∀ role : Bool, routedTo role radioOnHeadset mRT = true ↔
      role = (if mRT && radioOnHeadset then false else radioOnHeadset)) ∧
    (∀ (accH accS : List (String × CallsignMeta S Src) × List (String × List S) × Nat)
      (src : String × CallsignMeta S Src),
      prefetchStep E m mRT true accH src = (accH.1 ++ [src], accH.2.1, accH.2.2) ∨
      prefetchStep E m mRT false accS src = (accS.1 ++ [src], accS.2.1, accS.2.2)) := by
  refine ⟨?_, ?_, ?_⟩
  · cases radioOnHeadset <;> cases mRT <;> rfl
  · intro role
    cases role <;> cases radioOnHeadset <;> cases mRT <;> simp [routedTo]
  · intro accH accS src
    unfold prefetchStep
    cases hfront : src.2.transceivers.head? with
    | none => exact Or.inl rfl
    | some front =>
      simp only []
      by_cases h0 : front.Frequency = 0
      · simp only [h0, if_true]
        exact Or.inl trivial
      · simp only [h0, if_false]
        cases hact : isFrequencyActive m front.Frequency with
        | false => exact Or.inl rfl
        | true =>
          simp only [Bool.not_true, Bool.false_eq_true, if_false]
          cases hroh : (mapAt E.defaultRadio m front.Frequency).onHeadset <;>
            cases mRT <;> simp [routedTo]

/-- C24 (PTT burst framing). With the channel open, ATIS record and playback
inactive and one compressed frame delivered per PCM frame: when PTT is pressed,
held for the `k ≥ 1` frames `p :: ps`, released, and stays released for the frames
`r :: rs`, all calls return and exactly `k + 1` datagrams are added to the sent
log: the first `k` carry the compressed frames captured while PTT was held, with
`LastPacket = false`, the last one carries the first frame after the release, with
`LastPacket = true`; their sequence counters are consecutive modulo 2^32 from the
counter at the start; the later frames `rs` add nothing. -/
theorem C24_ptt_burst_framing (s : ATCRadioStack S Src) (p : List S × List Nat)
    (ps : List (List S × List Nat)) (r : List S × List Nat)
    (rs : List (List S × List Nat)) (hopen : s.channelOpen = true)
    (hrec : s.mAtisRecord = false) (hplay : s.mAtisPlayback = false)
    (hseq : s.mTxSequence < 2 ^ 32) :
    ∃ s' burst, pttBurst s (p :: ps) (r :: rs) = some s' ∧ s'.sent = s.sent ++ burst ∧
      burst.length = (p :: ps).length + 1 ∧
      burst.map (fun d => d.LastPacket) = List.replicate (p :: ps).length false ++ [true] ∧
      burst.map (fun d => d.Audio) = (p :: ps).map (fun f => f.2) ++ [r.2] ∧
      burst.map (fun d => d.SequenceCounter) =
        (List.range ((p :: ps).length + 1)).map (fun i => (s.mTxSequence + i) % 2 ^ 32) := by
  obtain ⟨s1, h0, h1, h2, h3, h4, h5, h6, h7, h8, h9⟩ :=
    putAudioFrames_pressed (p :: ps) (setPtt s true) rfl hopen hrec hplay hseq
  have hlast : s1.mLastFramePtt = true := h8 (by simp)
  have hrel := putAudioFrame_released (setPtt s1 false) r.1 r.2 rfl hlast h2 h3 h4
  have hidle := putAudioFrames_idle (oneFramePerCall rs)
    { setPtt s1 false with
      compressorInput := (setPtt s1 false).compressorInput ++ [r.1]
      mLastFramePtt := false
      mTxSequence := ((setPtt s1 false).mTxSequence + 1) % 2 ^ 32
      sent := (setPtt s1 false).sent ++
        [{ SequenceCounter := (setPtt s1 false).mTxSequence
           Callsign := (setPtt s1 false).mCallsign
           Audio := r.2
           LastPacket := true
           Transceivers := txTransceivers (fun r => r.tx) (setPtt s1 false).mRadioState }] }
    rfl rfl h3 h4 (Nat.mod_lt _ (by norm_num))
  obtain ⟨d1, d2, d3, d4⟩ := pttDatagrams_spec (setPtt s true).mCallsign
    (txTransceivers (fun r => r.tx) (setPtt s true).mRadioState)
    ((p :: ps).map (fun f => f.2)) (setPtt s true).mTxSequence hseq
  rw [List.length_map] at d1 d2 d4
  have hb : pttBurst s (p :: ps) (r :: rs) =
      putAudioFrames
        { setPtt s1 false with
          compressorInput := (setPtt s1 false).compressorInput ++ [r.1]
          mLastFramePtt := false
          mTxSequence := ((setPtt s1 false).mTxSequence + 1) % 2 ^ 32
          sent := (setPtt s1 false).sent ++
            [{ SequenceCounter := (setPtt s1 false).mTxSequence
               Callsign := (setPtt s1 false).mCallsign
               Audio := r.2
               LastPacket := true
               Transceivers :=
                 txTransceivers (fun r => r.tx) (setPtt s1 false).mRadioState }] }
        (oneFramePerCall rs) := by
    simp only [pttBurst, h0]
    rw [show oneFramePerCall (r :: rs) = (r.1, [r.2]) :: oneFramePerCall rs from rfl]
    simp only [putAudioFrames, hrel]
  rw [hidle] at hb
  refine ⟨_,
    pttDatagrams (setPtt s true).mCallsign
        (txTransceivers (fun r => r.tx) (setPtt s true).mRadioState)
        (setPtt s true).mTxSequence ((p :: ps).map (fun f => f.2)) ++
      [{ SequenceCounter := (setPtt s1 false).mTxSequence
         Callsign := (setPtt s1 false).mCallsign
         Audio := r.2
         LastPacket := true
         Transceivers := txTransceivers (fun r => r.tx) (setPtt s1 false).mRadioState }],
    hb, ?_, ?_, ?_, ?_, ?_⟩
  · show s1.sent ++ _ = _
    rw [h9, List.append_assoc]
    rfl
  · rw [List.length_append, d1]
    rfl
  · rw [List.map_append, d2]
    rfl
  · rw [List.map_append, d3]
    rfl
  · rw [List.map_append, d4, List.range_succ, List.map_append]
    show _ ++ [s1.mTxSequence] = _
    rw [h7]
    rfl

/-- C24, witness: on the open stack, PTT held for the two frames `[1]`, `[2]`, then
released for two frames: three datagrams, the last one marked, counters 0, 1, 2. -/
theorem C24_ptt_burst_framing_witness :
    (pttBurst openStack [(([] : List Int), [1]), ([], [2])] [([], [3]), ([], [4])]).map
        (fun s => s.sent.map (fun d => (d.SequenceCounter, d.Audio, d.LastPacket))) =
      some [(0, [1], false), (1, [2], false), (2, [3], true)] ∧
    ∃ s' burst,
      pttBurst openStack [(([] : List Int), [1]), ([], [2])] [([], [3]), ([], [4])] = some s' ∧
      s'.sent = openStack.sent ++ burst ∧
      burst.length = [(([] : List Int), [1]), ([], [2])].length + 1 ∧
      burst.map (fun d => d.LastPacket) =
        List.replicate [(([] : List Int), [1]), ([], [2])].length false ++ [true] ∧
      burst.map (fun d => d.Audio) =
        [(([] : List Int), [1]), ([], [2])].map (fun f => f.2) ++
          [((([] : List Int), [3]) : List Int × List Nat).2] ∧
      burst.map (fun d => d.SequenceCounter) =
        (List.range ([(([] : List Int), [1]), ([], [2])].length + 1)).map
          (fun i => (openStack.mTxSequence + i) % 2 ^ 32) :=
  ⟨by decide,
    C24_ptt_burst_framing openStack ([], [1]) [([], [2])] ([], [3]) [([], [4])]
      rfl rfl rfl (by decide)⟩

/-- C25 (stream entries name a transceiver). If every entry of the stream table has
a non-empty transceiver list (as in the empty table of a new stack), then after any
sequence of `rxVoicePacket`, `maintainIncomingStreams` and `reset` calls every
entry still has a non-empty transceiver list, so its `front()` is defined. -/
theorem C25_stream_entries_have_transceivers (E : Env S Src) (ops : List (StreamOp S)) :
    ∀ s : ATCRadioStack S Src, (∀ e ∈ s.mIncomingStreams, e.2.transceivers ≠ []) →
      ∀ e ∈ (runStreamOps E s ops).mIncomingStreams,
        e.2.transceivers ≠ [] ∧ e.2.transceivers.head?.isSome = true := by
  induction ops with
  | nil =>
    intro s h e he
    refine ⟨h e he, ?_⟩
    cases hts : e.2.transceivers with
    | nil => exact absurd hts (h e he)
    | cons a rest => rfl
  | cons op rest ih =>
    intro s h e he
    exact ih (applyStreamOp E s op) (applyStreamOp_transceivers E s op h) e he

/-- C25, witness: on the empty stack, a packet from `"AFR123"` on 118100000, a
maintenance pass, a reset and a second packet leave one entry, with one
transceiver. -/
theorem C25_stream_entries_have_transceivers_witness :
    ((runStreamOps exampleEnv emptyStack
        [StreamOp.rxVoicePacket 5
            { Callsign := "AFR123"
              Transceivers := [{ ID := 0, Frequency := 118100000, DistanceRatio := 1 }]
              Audio := []
              LastPacket := false
              SequenceCounter := 0 },
          StreamOp.maintainIncomingStreams 10,
          StreamOp.reset,
          StreamOp.rxVoicePacket 20
            { Callsign := "AFR123"
              Transceivers := [{ ID := 0, Frequency := 118100000, DistanceRatio := 1 }]
              Audio := []
              LastPacket := true
              SequenceCounter := 1 }]).mIncomingStreams.map
        (fun e => (e.1, e.2.transceivers.length)) = [("AFR123", 1)]) ∧
    ∀ e ∈ (runStreamOps exampleEnv emptyStack
        [StreamOp.rxVoicePacket 5
            { Callsign := "AFR123"
              Transceivers := [{ ID := 0, Frequency := 118100000, DistanceRatio := 1 }]
              Audio := []
              LastPacket := false
              SequenceCounter := 0 },
          StreamOp.maintainIncomingStreams 10,
          StreamOp.reset,
          StreamOp.rxVoicePacket 20
            { Callsign := "AFR123"
              Transceivers := [{ ID := 0, Frequency := 118100000, DistanceRatio := 1 }]
              Audio := []
              LastPacket := true
              SequenceCounter := 1 }]).mIncomingStreams,
      e.2.transceivers ≠ [] ∧ e.2.transceivers.head?.isSome = true :=
  ⟨by decide,
    C25_stream_entries_have_transceivers exampleEnv _ emptyStack
      (fun e he => by cases he)⟩

/-- C26 (the `Frequency` field and the key). `setGain` on a frequency that has no
radio stores a radio under that key whose `Frequency` field is the one of a
default-constructed radio, not the key: with the default radio of the spec the
entry under 118100000 has `Frequency = 0`, and so it is after `setRx`,
`setOnHeadset`, `setTransceivers`, `lastTransmitOnFreq` and `rxVoicePacket`. The
radio loop of `getAudioFrame` then passes the field to `_process_radio`, which
finds no radio under 0 and inserts one there. Whatever the default-constructed
radio is, there is a key for which the field differs from the key. -/
theorem C26_frequency_field_differs_from_key :
    (setGain defaultRadioState [] 118100000 3).map (fun radio => (radio.1, radio.2.Frequency))
      = [(118100000, 0)] ∧
    (setRx defaultRadioState [] 118100000 true).map (fun radio => (radio.1, radio.2.Frequency))
      = [(118100000, 0)] ∧
    (setOnHeadset defaultRadioState [] 118100000 false).map
      (fun radio => (radio.1, radio.2.Frequency)) = [(118100000, 0)] ∧
    (setTransceivers defaultRadioState [] 118100000 []).map
      (fun radio => (radio.1, radio.2.Frequency)) = [(118100000, 0)] ∧
    (lastTransmitOnFreq defaultRadioState [] 118100000).2.map
      (fun radio => (radio.1, radio.2.Frequency)) = [(118100000, 0)] ∧
    (rxVoicePacket exampleEnv 5 emptyStack
        { Callsign := "AFR123"
          Transceivers := [{ ID := 0, Frequency := 118100000, DistanceRatio := 1 }]
          Audio := []
          LastPacket := false
          SequenceCounter := 0 }).mRadioState.map
      (fun radio => (radio.1, radio.2.Frequency)) = [(118100000, 0)] ∧
    (getAudioFrame exampleEnv
        { emptyStack with mRadioState := setGain defaultRadioState [] 118100000 3 } true).map
      (fun res => res.2.mRadioState.map (fun radio => (radio.1, radio.2.Frequency)))
      = some [(0, 0), (118100000, 0)] ∧
    (∀ (d : ATCRadioState Int) (gain : Int), ∃ freq r,
      mapFind (setGain d [] freq gain) freq = some r ∧ r.Frequency ≠ freq) := by
  refine ⟨by decide, by decide, by decide, by decide, by decide, by decide, by decide, ?_⟩
  intro d gain
  refine ⟨d.Frequency + 1, { d with Gain := gain }, ?_, ?_⟩
  · simp [setGain, mapModify, mapAt, mapFind, mapPut]
  · simp

/-- C27 (`rxVoicePacket` and the key set). A packet naming a frequency that has no
radio adds that frequency to the radio map: on the empty stack the key set goes
from empty to `[118100000]`, both when the default-constructed radio receives (the
packet is accepted) and when it does not (the packet is dropped and the stream
table stays empty). -/
theorem C27_rx_voice_packet_adds_key :
    emptyStack.mRadioState.map Prod.fst = [] ∧
    (rxVoicePacket exampleEnv 5 emptyStack
        { Callsign := "AFR123"
          Transceivers := [{ ID := 0, Frequency := 118100000, DistanceRatio := 1 }]
          Audio := []
          LastPacket := false
          SequenceCounter := 0 }).mRadioState.map Prod.fst = [118100000] ∧
    (rxVoicePacket { exampleEnv with defaultRadio := { defaultRadioState with rx := false } }
        5 emptyStack
        { Callsign := "AFR123"
          Transceivers := [{ ID := 0, Frequency := 118100000, DistanceRatio := 1 }]
          Audio := []
          LastPacket := false
          SequenceCounter := 0 }).mRadioState.map Prod.fst = [118100000] ∧
    (rxVoicePacket { exampleEnv with defaultRadio := { defaultRadioState with rx := false } }
        5 emptyStack
        { Callsign := "AFR123"
          Transceivers := [{ ID := 0, Frequency := 118100000, DistanceRatio := 1 }]
          Audio := []
          LastPacket := false
          SequenceCounter := 0 }).mIncomingStreams.map Prod.fst = [] := by
  refine ⟨by decide, by decide, by decide, by decide⟩

/-- C28 (ATIS cursor read with nothing recorded). On a stack with the channel open
and no ATIS frame recorded, after `startAtisPlayback` the playback is active with
the cursor 0 and zero stored frames, and the next `putAudioFrame` reads
`mStoredAtisData[0]` of the empty vector: the read is out of bounds (no result in
the model). With three frames recorded, three ticks leave the cursor at 3, the
number of stored frames, and the fourth tick reads out of bounds too. -/
theorem C28_playback_of_empty_recording_reads_out_of_bounds :
    (startAtisPlayback openStack "LFPG_ATIS").mAtisPlayback = true ∧
    (startAtisPlayback openStack "LFPG_ATIS").cacheNum = 0 ∧
    (startAtisPlayback openStack "LFPG_ATIS").mStoredAtisData.length = 0 ∧
    (putAudioFrame (startAtisPlayback openStack "LFPG_ATIS") [] []).isNone = true ∧
    (putAudioFrames atisStack (List.replicate 3 ([], []))).map
      (fun s => (s.cacheNum, s.mStoredAtisData.length)) = some (3, 3) ∧
    (putAudioFrames atisStack (List.replicate 4 ([], []))).isNone = true := by
  refine ⟨by decide, by decide, by decide, by decide, by decide, by decide⟩

/-- C29 (cross-couple referential integrity). For every stack whose radio map
yields at most 2^16 transceivers (IDs are 16-bit) and stores every transceiver
under the frequency it carries (as `setTransceivers` and `makeTransceiverDto` store
them): when `makeCrossCoupleGroupDto` runs on the stack `makeTransceiverDto`
leaves, every ID in the returned group is the ID of an element of the list
`makeTransceiverDto` returned, and every element of that list with this ID has as
frequency the key of a radio with `xc && tx`. -/
theorem C29_cross_couple_ids_refer_to_dto (s : ATCRadioStack S Src)
    (hn : dtoLength s.mRadioState ≤ 2 ^ 16) (hkey : transceiversOnKey s.mRadioState) :
    ∀ group ∈ makeCrossCoupleGroupDto (makeTransceiverDto s).2.mRadioState,
      ∀ id ∈ group.TransceiverIDs,
        (∃ t ∈ (makeTransceiverDto s).1, t.ID = id) ∧
        (∀ t ∈ (makeTransceiverDto s).1, t.ID = id →
          ∃ radio ∈ (makeTransceiverDto s).2.mRadioState,
            (radio.2.xc && radio.2.tx) = true ∧ t.Frequency = radio.1) := by
  obtain ⟨a, b, _, _, _⟩ := makeTransceiverDtoFrom_spec s.mClientLatitude s.mClientLongitude
    s.mClientAltitudeMSLM s.mClientAltitudeGLM s.mRadioState 0 (by omega)
  have hon := makeTransceiverDtoFrom_onKey s.mClientLatitude s.mClientLongitude
    s.mClientAltitudeMSLM s.mClientAltitudeGLM s.mRadioState hkey 0
  have hnodup : ((makeTransceiverDto s).1.map (fun t => t.ID)).Nodup := by
    show ((makeTransceiverDtoFrom s.mClientLatitude s.mClientLongitude s.mClientAltitudeMSLM
      s.mClientAltitudeGLM 0 s.mRadioState).1.map (fun t => t.ID)).Nodup
    rw [a, ← List.range_eq_range']
    exact List.nodup_range _
  intro group hgroup id hid
  simp only [makeCrossCoupleGroupDto, List.mem_singleton] at hgroup
  rw [hgroup] at hid
  simp only [foldl_cross_couple, List.nil_append, List.mem_flatMap, List.mem_filter,
    List.mem_map] at hid
  obtain ⟨radio, ⟨hradio, hflags⟩, t, ht, hid'⟩ := hid
  have htret : t ∈ (makeTransceiverDto s).1 := by
    show t ∈ (makeTransceiverDtoFrom s.mClientLatitude s.mClientLongitude
      s.mClientAltitudeMSLM s.mClientAltitudeGLM 0 s.mRadioState).1
    rw [b]
    exact List.mem_flatMap.mpr ⟨radio, hradio, ht⟩
  refine ⟨⟨t, htret, hid'⟩, ?_⟩
  intro t' ht' hid''
  have heq : t' = t :=
    List.inj_on_of_nodup_map hnodup ht' htret (by rw [hid'', hid'])
  rw [heq]
  exact ⟨radio, hradio, hflags, hon radio hradio t ht⟩

/-- C29, witness: the tower radio with `tx` and `xc` and two stored transceivers,
next to a ground radio: the group holds the IDs 0 and 1, the list returned holds
the IDs 0, 1, 2 with the frequencies of the tower, the tower and the ground. -/
theorem C29_cross_couple_ids_refer_to_dto_witness :
    (makeCrossCoupleGroupDto (makeTransceiverDto coupledStack).2.mRadioState).map
        (fun group => group.TransceiverIDs) = [[0, 1]] ∧
    (makeTransceiverDto coupledStack).1.map (fun t => (t.ID, t.Frequency)) =
      [(0, 118100000), (1, 118100000), (2, 121800000)] ∧
    ∀ group ∈ makeCrossCoupleGroupDto (makeTransceiverDto coupledStack).2.mRadioState,
      ∀ id ∈ group.TransceiverIDs,
        (∃ t ∈ (makeTransceiverDto coupledStack).1, t.ID = id) ∧
        (∀ t ∈ (makeTransceiverDto coupledStack).1, t.ID = id →
          ∃ radio ∈ (makeTransceiverDto coupledStack).2.mRadioState,
            (radio.2.xc && radio.2.tx) = true ∧ t.Frequency = radio.1) :=
  ⟨by decide, by decide,
    C29_cross_couple_ids_refer_to_dto coupledStack (by decide) (by decide)⟩

/-- C30 (client PTT events). For every sequence of `setPtt`, transceiver-update
start, transceiver-update completion and `unguardPtt` calls on a new client, the
`PttOpen` and `PttClosed` events posted alternate beginning with `PttOpen`; every
call, in every state, posts exactly the event the change of the effective PTT
`mPtt` calls for (`PttOpen` when it becomes true, `PttClosed` when it becomes
false, nothing when it does not change); and after a `setPtt(false)` that follows
the sequence, `mPtt` and the PTT value passed to the radio stack are false. -/
theorem C30_client_ptt_events (ops : List ClientOp) :
    alternates ClientEventType.PttOpen ClientEventType.PttClosed
      (ATCClient.new.run ops).events = true ∧
    (∀ (c : ATCClient) (op : ClientOp),
      (c.apply op).events = c.events ++ pttChangeEvents c.mPtt (c.apply op).mPtt) ∧
    ((ATCClient.new.run ops).setPtt false).mPtt = false ∧
    ((ATCClient.new.run ops).setPtt false).stackPtt = false := by
  obtain ⟨h1, evs, h2, h3⟩ := client_run_spec ops ATCClient.new rfl
  have h4 := client_run_spec [ClientOp.setPtt false] (ATCClient.new.run ops) h1
  have h5 : ((ATCClient.new.run ops).setPtt false).mPtt = false := by
    generalize ATCClient.new.run ops = c
    obtain ⟨w, p, pend, st, ev⟩ := c
    cases p <;> simp [ATCClient.setPtt]
  refine ⟨?_, fun c op => (client_apply_spec c op).1, h5, ?_⟩
  · rw [h2]
    simpa [ATCClient.new] using h3
  · have h6 : ((ATCClient.new.run ops).setPtt false).stackPtt =
        ((ATCClient.new.run ops).setPtt false).mPtt := h4.1
    rw [h6]
    exact h5

end Claims

end AfvNative
